import Mathlib

/-!
# vipsdisp: the image display widget (old_imagedisplay.c)

A shallow embedding of the geometry, backing-buffer, scroll-range and
tile-fill code of `src/old_imagedisplay.c`, followed by theorems about it.

Conventions of the embedding:

* C `int` values are mathematical integers (`Int`); signed overflow is
  undefined in C and is not modelled, with one exception: the size of the
  block that imagedisplay_layout allocates, the only `int` product of sizes
  in the file. `imagedisplay_layout` takes that product exactly, which is
  what the source computes while the product is at most INT_MAX
  (`layout_int32_eq_layout`); `imagedisplay_layout_int32` computes it in
  32-bit `int`. C `/` and `%` are `Int.tdiv` and `Int.tmod` (truncation
  toward zero).
* C `double` values (the fields of a `GtkAdjustment`) are rationals: every
  finite double is one, and the code only compares them, takes maxima and
  minima and subtracts integer-valued ones. NaN and infinities are outside the
  model.
* A byte buffer is a `List Nat` of byte values; a NULL pointer is `none`.
  Memory accesses are checked: an access outside the buffer makes the
  operation return `none` (C undefined behaviour).
-/

namespace Vipsdisp

/-! ## libvips helpers used by the file (vips/util.h, vips/rect.h) -/

/-- VIPS_MAX( A, B ): `((A) > (B) ? (A) : (B))`. -/
def VIPS_MAX {α : Type} [LT α] [DecidableRel (fun (a b : α) => a > b)] (a b : α) : α :=
  if a > b then a else b

/-- VIPS_MIN( A, B ): `((A) < (B) ? (A) : (B))`. -/
def VIPS_MIN {α : Type} [LT α] [DecidableRel (fun (a b : α) => a < b)] (a b : α) : α :=
  if a < b then a else b

/-- VIPS_CLIP( A, V, B ): `VIPS_MAX( (A), VIPS_MIN( (B), (V) ) )`. -/
def VIPS_CLIP {α : Type} [LT α] [DecidableRel (fun (a b : α) => a > b)]
    [DecidableRel (fun (a b : α) => a < b)] (a v b : α) : α :=
  VIPS_MAX a (VIPS_MIN b v)

/-- VIPS_ROUND_DOWN( N, P ): `((N) - ((N) % (P)))`, with the C remainder. -/
def VIPS_ROUND_DOWN (n p : Int) : Int :=
  n - Int.tmod n p

/-- VIPS_ROUND_UP( N, P ): `(VIPS_ROUND_DOWN( (N) + (P) - 1, (P) ))`. -/
def VIPS_ROUND_UP (n p : Int) : Int :=
  VIPS_ROUND_DOWN (n + p - 1) p

/-- The libvips rectangle: left, top, width, height. -/
structure VipsRect where
  left : Int
  top : Int
  width : Int
  height : Int
deriving DecidableEq, Repr

/-- VIPS_RECT_RIGHT( R ): `((R)->left + (R)->width)`. -/
def VIPS_RECT_RIGHT (r : VipsRect) : Int :=
  r.left + r.width

/-- VIPS_RECT_BOTTOM( R ): `((R)->top + (R)->height)`. -/
def VIPS_RECT_BOTTOM (r : VipsRect) : Int :=
  r.top + r.height

/-- The libvips function vips_rect_isempty: width or height is not positive. -/
def vips_rect_isempty (r : VipsRect) : Bool :=
  decide (r.width ≤ 0) || decide (r.height ≤ 0)

/-- The libvips function vips_rect_includesrect( r1, r2 ): r2 lies within r1. -/
def vips_rect_includesrect (r1 r2 : VipsRect) : Bool :=
  decide (r1.left ≤ r2.left) &&
  decide (r1.top ≤ r2.top) &&
  decide (r1.left + r1.width ≥ r2.left + r2.width) &&
  decide (r1.top + r1.height ≥ r2.top + r2.height)

/-- The libvips function vips_rect_intersectrect( r1, r2, out ): the overlap of the
two rectangles, with width and height clamped at zero when they do not meet. -/
def vips_rect_intersectrect (r1 r2 : VipsRect) : VipsRect :=
  let left := VIPS_MAX r1.left r2.left
  let top := VIPS_MAX r1.top r2.top
  let right := VIPS_MIN (VIPS_RECT_RIGHT r1) (VIPS_RECT_RIGHT r2)
  let bottom := VIPS_MIN (VIPS_RECT_BOTTOM r1) (VIPS_RECT_BOTTOM r2)
  let width := VIPS_MAX 0 (right - left)
  let height := VIPS_MAX 0 (bottom - top)
  { left := left, top := top, width := width, height := height }

/-! ## Byte memory -/

/-- A block of bytes. -/
abbrev Buf := List Nat

/-- Read `n` bytes at byte offset `off`; `none` when the range leaves the block. -/
def load (buf : Buf) (off : Int) (n : Nat) : Option (List Nat) :=
  if 0 ≤ off ∧ off + n ≤ buf.length then
    some ((buf.drop off.toNat).take n)
  else none

/-- Write the bytes `bs` at byte offset `off`; `none` when the range leaves the
block. -/
def store (buf : Buf) (off : Int) (bs : List Nat) : Option Buf :=
  if 0 ≤ off ∧ off + bs.length ≤ buf.length then
    some (buf.take off.toNat ++ bs ++ buf.drop (off.toNat + bs.length))
  else none

/-- The C library memcpy( dst + doff, src + soff, n ) on two distinct blocks. A
negative `n` would convert to a huge size_t, which no block can hold. -/
def memcpy (dst : Buf) (doff : Int) (src : Buf) (soff : Int) (n : Int) : Option Buf :=
  if 0 ≤ n then
    match load src soff n.toNat with
    | none => none
    | some bs => store dst doff bs
  else none

/-- The GLib function g_malloc0( n_bytes ): NULL for a zero-byte request, otherwise a
zero-filled block. (A negative int converts to a huge gsize and the allocation
aborts; with non-negative sizes this case does not arise and it is mapped to
NULL here.) -/
def g_malloc0 (n_bytes : Int) : Option Buf :=
  if n_bytes ≤ 0 then none else some (List.replicate n_bytes.toNat 0)

/-! ## GtkAdjustment -/

/-- The fields of a GtkAdjustment. -/
structure GtkAdjustment where
  value : ℚ
  lower : ℚ
  upper : ℚ
  page_size : ℚ
  step_increment : ℚ
  page_increment : ℚ
deriving DecidableEq

/-- The GTK 4 function gtk_adjustment_set_value: the value is brought into range by
`value = MIN (value, upper - page_size); value = MAX (value, lower);`, stored
when it differs from the current value, and in that case "value-changed" is
emitted (second component). -/
def gtk_adjustment_set_value (a : GtkAdjustment) (value : ℚ) : GtkAdjustment × Bool :=
  let value := min value (a.upper - a.page_size)
  let value := max value a.lower
  if a.value ≠ value then ({ a with value := value }, true) else (a, false)

/-! ## The widget state -/

/-- The fields of struct _Imagedisplay that the geometry and buffer code uses.
`realized` is the GTK realized flag of the widget, read by
imagedisplay_adjustment_changed. -/
structure Imagedisplay where
  hadjustment : Option GtkAdjustment
  vadjustment : Option GtkAdjustment
  image_rect : VipsRect
  widget_rect : VipsRect
  paint_rect : VipsRect
  cairo_buffer : Option Buf
  left : Int
  top : Int
  realized : Bool

/-- The zero-filled instance GObject hands to imagedisplay_init. -/
def imagedisplay_zeroed : Imagedisplay :=
  { hadjustment := none, vadjustment := none,
    image_rect := ⟨0, 0, 0, 0⟩, widget_rect := ⟨0, 0, 0, 0⟩, paint_rect := ⟨0, 0, 0, 0⟩,
    cairo_buffer := none, left := 0, top := 0, realized := false }

/-- Conversion of a double to int: truncation toward zero. -/
def double_to_int (q : ℚ) : Int :=
  Int.tdiv q.num q.den

/-- The gtk_adjustment_get_value of a possibly NULL adjustment (GLib returns 0.0
for NULL). -/
def gtk_adjustment_get_value (a : Option GtkAdjustment) : ℚ :=
  match a with
  | none => 0
  | some a => a.value

/-- Handler of "value-changed" (lines 88-108): copy both adjustment values to
left and top when the widget is realized. -/
def imagedisplay_adjustment_changed (d : Imagedisplay) : Imagedisplay :=
  if d.realized then
    let left := gtk_adjustment_get_value d.hadjustment
    let top := gtk_adjustment_get_value d.vadjustment
    { d with left := double_to_int left, top := double_to_int top }
  else d

/-- What imagedisplay_set_adjustment_values did to one adjustment. -/
structure AdjustmentUpdate where
  adjustment : GtkAdjustment
  set_value_called : Bool
  value_changed : Bool

/-- Lines 139-168, on one adjustment. -/
def imagedisplay_set_adjustment_values (adjustment : GtkAdjustment)
    (axis_size window_size : Int) : AdjustmentUpdate :=
  let old_value : ℚ := adjustment.value
  let page_size : ℚ := window_size
  let new_upper : ℚ := VIPS_MAX (axis_size : ℚ) page_size
  let adjustment : GtkAdjustment :=
    { adjustment with
      lower := 0, upper := new_upper, page_size := page_size,
      step_increment := page_size * (1 / 10), page_increment := page_size * (9 / 10) }
  let new_value : ℚ := VIPS_CLIP 0 old_value (new_upper - page_size)
  if new_value ≠ old_value then
    let r := gtk_adjustment_set_value adjustment new_value
    { adjustment := r.1, set_value_called := true, value_changed := r.2 }
  else
    { adjustment := adjustment, set_value_called := false, value_changed := false }

/-- Lines 170-177. A NULL adjustment is left alone (the GLib type checks turn
every call on it into a no-op). -/
def imagedisplay_set_hadjustment_values (d : Imagedisplay) : Imagedisplay :=
  match d.hadjustment with
  | none => d
  | some a =>
    let u := imagedisplay_set_adjustment_values a d.image_rect.width d.paint_rect.width
    let d1 := { d with hadjustment := some u.adjustment }
    if u.value_changed then imagedisplay_adjustment_changed d1 else d1

/-- Lines 179-186. -/
def imagedisplay_set_vadjustment_values (d : Imagedisplay) : Imagedisplay :=
  match d.vadjustment with
  | none => d
  | some a =>
    let u := imagedisplay_set_adjustment_values a d.image_rect.height d.paint_rect.height
    let d1 := { d with vadjustment := some u.adjustment }
    if u.value_changed then imagedisplay_adjustment_changed d1 else d1

/-! ## The backing buffer -/

/-- The inner loop of imagedisplay_init_buffer (lines 206-214), from column `x`.
`fuel` bounds the number of stripes; running out of it (`none`) means the
loop has not ended: with `old_width = 0` it never does. -/
def imagedisplay_init_buffer_row (new_width : Int) (old_buffer : Buf)
    (old_width old_height : Int) (y : Int) :
    Nat → Int → Buf → Option Buf
  | fuel, x, new_buffer =>
    if x < new_width then
      match fuel with
      | 0 => none
      | fuel + 1 =>
        if old_height = 0 then none
        else
          let source_y := Int.tmod y old_height
          let pixels_to_copy := VIPS_MIN old_width (new_width - x)
          match memcpy new_buffer (4 * (y * new_width + x))
              old_buffer (4 * (source_y * old_width)) (4 * pixels_to_copy) with
          | none => none
          | some b =>
            imagedisplay_init_buffer_row new_width old_buffer old_width old_height y
              fuel (x + old_width) b
    else some new_buffer

/-- The outer loop of imagedisplay_init_buffer (line 205): `rows` rows remain,
starting at row `y`. -/
def imagedisplay_init_buffer_rows (new_width : Int) (old_buffer : Buf)
    (old_width old_height : Int) :
    Nat → Int → Buf → Option Buf
  | 0, _, new_buffer => some new_buffer
  | rows + 1, y, new_buffer =>
    match imagedisplay_init_buffer_row new_width old_buffer old_width old_height y
        new_width.toNat 0 new_buffer with
    | none => none
    | some b =>
      imagedisplay_init_buffer_rows new_width old_buffer old_width old_height rows (y + 1) b

/-- Lines 195-215. `new_buffer` is the content of the new block (empty for a
NULL pointer); the result is its content afterwards. Each stripe advances `x`
by `old_width`, so `new_width` stripes are enough whenever the loop ends at
all. -/
def imagedisplay_init_buffer (new_buffer : Buf) (new_width new_height : Int)
    (old_buffer : Option Buf) (old_width old_height : Int) : Option Buf :=
  match old_buffer with
  | none => some new_buffer
  | some old =>
    imagedisplay_init_buffer_rows new_width old old_width old_height
      new_height.toNat 0 new_buffer

/-- Lines 217-265. `none` when imagedisplay_init_buffer does not return
normally. The argument of g_malloc0 is the exact product
paint_rect.width * paint_rect.height * 4: the `int` expression of lines
252-254 has that value while it is at most INT_MAX, and
imagedisplay_layout_int32 has the `int` computation for every size. -/
def imagedisplay_layout (d : Imagedisplay) : Option Imagedisplay :=
  let old_buffer_width := d.paint_rect.width
  let old_buffer_height := d.paint_rect.height
  let buffer_width := VIPS_MIN d.widget_rect.width d.image_rect.width
  let buffer_height := VIPS_MIN d.widget_rect.height d.image_rect.height
  let d1 : Imagedisplay :=
    { d with
      paint_rect :=
        { left := VIPS_MAX 0 (Int.tdiv (d.widget_rect.width - buffer_width) 2),
          top := VIPS_MAX 0 (Int.tdiv (d.widget_rect.height - buffer_height) 2),
          width := buffer_width,
          height := buffer_height } }
  let d2 := imagedisplay_set_hadjustment_values d1
  let d3 := imagedisplay_set_vadjustment_values d2
  if d3.cairo_buffer = none ∨
      d3.paint_rect.width ≠ old_buffer_width ∨
      d3.paint_rect.height ≠ old_buffer_height then
    let new_buffer := g_malloc0 (d3.paint_rect.width * d3.paint_rect.height * 4)
    match imagedisplay_init_buffer (new_buffer.getD []) buffer_width buffer_height
        d3.cairo_buffer old_buffer_width old_buffer_height with
    | none => none
    | some bytes => some { d3 with cairo_buffer := new_buffer.map (fun _ => bytes) }
  else some d3

/-- Lines 269-289: the "display-changed" handler, for a new image of size
`Xsize` by `Ysize`. -/
def imagedisplay_conversion_display_changed (Xsize Ysize : Int) (d : Imagedisplay) :
    Option Imagedisplay :=
  imagedisplay_layout
    { d with image_rect := { d.image_rect with width := Xsize, height := Ysize } }

/-- Lines 891-904: the "resize" handler. -/
def imagedisplay_resize (width height : Int) (d : Imagedisplay) : Option Imagedisplay :=
  imagedisplay_layout
    { d with widget_rect := { d.widget_rect with width := width, height := height } }

/-- The two events that run imagedisplay_layout. -/
inductive LayoutEvent where
  | resize (width height : Int)
  | display_changed (Xsize Ysize : Int)
deriving DecidableEq, Repr

/-- Deliver one event. -/
def LayoutEvent.deliver (e : LayoutEvent) (d : Imagedisplay) : Option Imagedisplay :=
  match e with
  | .resize w h => imagedisplay_resize w h d
  | .display_changed xs ys => imagedisplay_conversion_display_changed xs ys d

/-- Every size carried by the event is non-negative. -/
def LayoutEvent.nonneg (e : LayoutEvent) : Prop :=
  match e with
  | .resize w h => 0 ≤ w ∧ 0 ≤ h
  | .display_changed xs ys => 0 ≤ xs ∧ 0 ≤ ys

/-- Deliver a sequence of events, first to last. -/
def deliver_all : List LayoutEvent → Imagedisplay → Option Imagedisplay
  | [], d => some d
  | e :: es, d =>
    match e.deliver d with
    | none => none
    | some d1 => deliver_all es d1

/-! ## Pixel conversion -/

/-- Storing an int into an unsigned char keeps it modulo 256. -/
def to_uchar (v : Int) : Nat :=
  (v % 256).toNat

/-- The inner loop of imagedisplay_rgba_to_cairo (lines 446-459): `n` pixels
remain, `p` and `q` are the byte offsets of the source and destination
pixel. -/
def imagedisplay_rgba_to_cairo_row (vips : Buf) : Nat → Int → Int → Buf → Option Buf
  | 0, _, _, cairo => some cairo
  | n + 1, p, q, cairo =>
    match load vips p 4 with
    | some [p0, p1, p2, p3] =>
      let r : Int := p0
      let g : Int := p1
      let b : Int := p2
      let a : Int := p3
      match store cairo q
          [to_uchar (Int.tdiv (b * a) 255), to_uchar (Int.tdiv (g * a) 255),
           to_uchar (Int.tdiv (r * a) 255), to_uchar a] with
      | none => none
      | some c => imagedisplay_rgba_to_cairo_row vips n (p + 4) (q + 4) c
    | _ => none

/-- The outer loop of imagedisplay_rgba_to_cairo (line 442): `rows` rows remain,
starting at row `y`. -/
def imagedisplay_rgba_to_cairo_rows (vips : Buf) (vips_start cairo_start : Int)
    (width cairo_stride vips_stride : Int) : Nat → Int → Buf → Option Buf
  | 0, _, cairo => some cairo
  | rows + 1, y, cairo =>
    match imagedisplay_rgba_to_cairo_row vips width.toNat
        (vips_start + y * vips_stride) (cairo_start + y * cairo_stride) cairo with
    | none => none
    | some c =>
      imagedisplay_rgba_to_cairo_rows vips vips_start cairo_start
        width cairo_stride vips_stride rows (y + 1) c

/-- Lines 434-461. The C pointers `cairo` and `vips` are a block and a byte
offset into it. -/
def imagedisplay_rgba_to_cairo (cairo : Buf) (cairo_start : Int) (vips : Buf)
    (vips_start : Int) (width height cairo_stride vips_stride : Int) : Option Buf :=
  imagedisplay_rgba_to_cairo_rows vips vips_start cairo_start
    width cairo_stride vips_stride height.toNat 0 cairo

/-- The inner loop of imagedisplay_rgb_to_cairo (lines 477-489). -/
def imagedisplay_rgb_to_cairo_row (vips : Buf) : Nat → Int → Int → Buf → Option Buf
  | 0, _, _, cairo => some cairo
  | n + 1, p, q, cairo =>
    match load vips p 3 with
    | some [p0, p1, p2] =>
      let r : Int := p0
      let g : Int := p1
      let b : Int := p2
      match store cairo q [to_uchar b, to_uchar g, to_uchar r, to_uchar 255] with
      | none => none
      | some c => imagedisplay_rgb_to_cairo_row vips n (p + 3) (q + 4) c
    | _ => none

/-- The outer loop of imagedisplay_rgb_to_cairo (line 473). -/
def imagedisplay_rgb_to_cairo_rows (vips : Buf) (vips_start cairo_start : Int)
    (width cairo_stride vips_stride : Int) : Nat → Int → Buf → Option Buf
  | 0, _, cairo => some cairo
  | rows + 1, y, cairo =>
    match imagedisplay_rgb_to_cairo_row vips width.toNat
        (vips_start + y * vips_stride) (cairo_start + y * cairo_stride) cairo with
    | none => none
    | some c =>
      imagedisplay_rgb_to_cairo_rows vips vips_start cairo_start
        width cairo_stride vips_stride rows (y + 1) c

/-- Lines 465-491. -/
def imagedisplay_rgb_to_cairo (cairo : Buf) (cairo_start : Int) (vips : Buf)
    (vips_start : Int) (width height cairo_stride vips_stride : Int) : Option Buf :=
  imagedisplay_rgb_to_cairo_rows vips vips_start cairo_start
    width cairo_stride vips_stride height.toNat 0 cairo

/-! ## Coordinate spaces -/

/-- Lines 504-512. -/
def imagedisplay_image_to_gtk (d : Imagedisplay) (rect : VipsRect) : VipsRect :=
  let rect := { rect with left := rect.left - d.left, top := rect.top - d.top }
  { rect with left := rect.left + d.paint_rect.left, top := rect.top + d.paint_rect.top }

/-- Lines 514-521. -/
def imagedisplay_gtk_to_buffer (d : Imagedisplay) (rect : VipsRect) : VipsRect :=
  let rect := vips_rect_intersectrect rect d.paint_rect
  { rect with left := rect.left - d.paint_rect.left, top := rect.top - d.paint_rect.top }

/-- Lines 523-528. -/
def imagedisplay_buffer_to_gtk (d : Imagedisplay) (rect : VipsRect) : VipsRect :=
  { rect with left := rect.left + d.paint_rect.left, top := rect.top + d.paint_rect.top }

/-- Lines 530-540. -/
def imagedisplay_gtk_to_image (d : Imagedisplay) (rect : VipsRect) : VipsRect :=
  let rect := { rect with left := rect.left - d.paint_rect.left,
                          top := rect.top - d.paint_rect.top }
  let rect := { rect with left := rect.left + d.left, top := rect.top + d.top }
  vips_rect_intersectrect rect d.image_rect

/-- Lines 542-547. -/
def imagedisplay_image_to_buffer (d : Imagedisplay) (rect : VipsRect) : VipsRect :=
  imagedisplay_gtk_to_buffer d (imagedisplay_image_to_gtk d rect)

/-- Lines 549-554. -/
def imagedisplay_buffer_to_image (d : Imagedisplay) (rect : VipsRect) : VipsRect :=
  imagedisplay_gtk_to_image d (imagedisplay_buffer_to_gtk d rect)

/-! ## The pixel source and the tile fill -/

/-- A prepared VipsRegion: the area it holds, its line skip, the size of one
pel and its bytes. -/
structure VipsRegion where
  valid : VipsRect
  bpl : Int
  sizeof_pel : Int
  data : Buf

/-- VIPS_REGION_ADDR( R, X, Y ), as a byte offset into the data of the region. -/
def VIPS_REGION_ADDR (reg : VipsRegion) (x y : Int) : Int :=
  (y - reg.valid.top) * reg.bpl + (x - reg.valid.left) * reg.sizeof_pel

/-- VIPS_REGION_LSKIP( R ). -/
def VIPS_REGION_LSKIP (reg : VipsRegion) : Int :=
  reg.bpl

/-- One call of vips_region_prepare. -/
inductive Request where
  | mask (r : VipsRect)
  | rgb (r : VipsRect)
deriving DecidableEq, Repr

/-- The rectangle a request asks for. -/
def Request.rect : Request → VipsRect
  | .mask r => r
  | .rgb r => r

/-- The pixel source behind mask_region and rgb_region. Each prepare may depend
on every request made before it; `none` is a failed prepare (non-zero
return). -/
structure PixelSource where
  Bands : Int
  mask_prepare : List Request → VipsRect → Option VipsRegion
  rgb_prepare : List Request → VipsRect → Option VipsRegion

/-- How a fill stands: still running, stopped by a failed g_assert, stopped by a
memory access outside a block, or caught in a loop that does not end. -/
inductive FillStatus where
  | running
  | assert_failed
  | fault
  | diverged
deriving DecidableEq, Repr

/-- What a fill changes: the bytes of cairo_buffer and the requests issued so
far (oldest first). -/
structure Paint where
  cairo_buffer : Option Buf
  requests : List Request
  status : FillStatus

/-- Stop a running fill. -/
def Paint.halt (p : Paint) (s : FillStatus) : Paint :=
  if p.status = .running then { p with status := s } else p

/-- What surrounds the widget code: the TILE_SIZE constant of the program, whether
g_assert is compiled in, and the pixel source. -/
structure Env where
  TILE_SIZE : Int
  asserts : Bool
  source : PixelSource

/-- The five g_assert conditions of imagedisplay_fill_tile (lines 567-575). -/
def imagedisplay_fill_tile_asserts (env : Env) (d : Imagedisplay) (tile : VipsRect) : Bool :=
  decide (tile.width ≤ env.TILE_SIZE) &&
  decide (tile.height ≤ env.TILE_SIZE) &&
  decide (VIPS_ROUND_UP tile.left env.TILE_SIZE -
    VIPS_ROUND_DOWN (VIPS_RECT_RIGHT tile) env.TILE_SIZE ≤ env.TILE_SIZE) &&
  decide (VIPS_ROUND_UP tile.top env.TILE_SIZE -
    VIPS_ROUND_DOWN (VIPS_RECT_BOTTOM tile) env.TILE_SIZE ≤ env.TILE_SIZE) &&
  vips_rect_includesrect d.image_rect tile

/-- Lines 559-649. A fill that has stopped stays as it is. -/
def imagedisplay_fill_tile (env : Env) (d : Imagedisplay) (tile : VipsRect) (p : Paint) :
    Paint :=
  if p.status ≠ .running then p
  else if env.asserts && !imagedisplay_fill_tile_asserts env d tile then
    p.halt .assert_failed
  else
    let target := imagedisplay_image_to_buffer d tile
    let clip := imagedisplay_buffer_to_image d target
    if vips_rect_isempty clip then p
    else
      let p1 := { p with requests := p.requests ++ [Request.mask clip] }
      match env.source.mask_prepare p.requests clip with
      | none => p1
      | some mask_region =>
        let p2 := { p1 with requests := p1.requests ++ [Request.rgb clip] }
        match env.source.rgb_prepare p1.requests clip with
        | none => p2
        | some rgb_region =>
          match load mask_region.data (VIPS_REGION_ADDR mask_region clip.left clip.top) 1 with
          | some [m] =>
            if m ≠ 0 then
              let cairo_stride := 4 * d.paint_rect.width
              let cairo_start := target.top * cairo_stride + target.left * 4
              let vips_stride := VIPS_REGION_LSKIP rgb_region
              let vips_start := VIPS_REGION_ADDR rgb_region clip.left clip.top
              match p2.cairo_buffer with
              | none => p2.halt .fault
              | some cairo =>
                let out :=
                  if env.source.Bands = 4 then
                    imagedisplay_rgba_to_cairo cairo cairo_start rgb_region.data vips_start
                      clip.width clip.height cairo_stride vips_stride
                  else
                    imagedisplay_rgb_to_cairo cairo cairo_start rgb_region.data vips_start
                      clip.width clip.height cairo_stride vips_stride
                match out with
                | none => p2.halt .fault
                | some bytes => { p2 with cairo_buffer := some bytes }
            else p2
          | _ => p2.halt .fault

/-- One row of tiles of imagedisplay_fill_rect (lines 683-689 and 698-704): the
tiles at height `tile_top`, from column `x` up to `right`. `fuel` bounds the
number of tiles. -/
def imagedisplay_fill_rect_row (env : Env) (d : Imagedisplay) (expose : VipsRect)
    (tile_top right : Int) : Nat → Int → Paint → Paint
  | fuel, x, p =>
    if x < right then
      match fuel with
      | 0 => p.halt .diverged
      | fuel + 1 =>
        let tile : VipsRect :=
          { left := x, top := tile_top, width := env.TILE_SIZE, height := env.TILE_SIZE }
        let clip := vips_rect_intersectrect tile expose
        let p1 := if !vips_rect_isempty clip then imagedisplay_fill_tile env d clip p else p
        imagedisplay_fill_rect_row env d expose tile_top right fuel (x + env.TILE_SIZE) p1
    else p

/-- One column of tiles of imagedisplay_fill_rect (lines 713-719 and 728-734): the
tiles at column `tile_left`, from row `y` up to `bottom`. -/
def imagedisplay_fill_rect_column (env : Env) (d : Imagedisplay) (expose : VipsRect)
    (tile_left bottom : Int) : Nat → Int → Paint → Paint
  | fuel, y, p =>
    if y < bottom then
      match fuel with
      | 0 => p.halt .diverged
      | fuel + 1 =>
        let tile : VipsRect :=
          { left := tile_left, top := y, width := env.TILE_SIZE, height := env.TILE_SIZE }
        let clip := vips_rect_intersectrect tile expose
        let p1 := if !vips_rect_isempty clip then imagedisplay_fill_tile env d clip p else p
        imagedisplay_fill_rect_column env d expose tile_left bottom fuel (y + env.TILE_SIZE) p1
    else p

/-- The peeling loop of imagedisplay_fill_rect (lines 669-740). `fuel` bounds the
number of rounds. -/
def imagedisplay_fill_rect_loop (env : Env) (d : Imagedisplay) (expose : VipsRect) :
    Nat → Int → Int → Int → Int → Paint → Paint
  | fuel, left, top, right, bottom, p =>
    if right - left ≤ 0 ∨ bottom - top ≤ 0 then p
    else
      match fuel with
      | 0 => p.halt .diverged
      | fuel + 1 =>
        let p := imagedisplay_fill_rect_row env d expose top right
          (right - left).toNat left p
        let top := top + env.TILE_SIZE
        if right - left ≤ 0 ∨ bottom - top ≤ 0 then p
        else
          let p := imagedisplay_fill_rect_row env d expose (bottom - env.TILE_SIZE) right
            (right - left).toNat left p
          let bottom := bottom - env.TILE_SIZE
          if right - left ≤ 0 ∨ bottom - top ≤ 0 then p
          else
            let p := imagedisplay_fill_rect_column env d expose left bottom
              (bottom - top).toNat top p
            let left := left + env.TILE_SIZE
            if right - left ≤ 0 ∨ bottom - top ≤ 0 then p
            else
              let p := imagedisplay_fill_rect_column env d expose (right - env.TILE_SIZE) bottom
                (bottom - top).toNat top p
              let right := right - env.TILE_SIZE
              if right - left ≤ 0 ∨ bottom - top ≤ 0 then p
              else imagedisplay_fill_rect_loop env d expose fuel left top right bottom p

/-- Lines 657-741. Every round takes TILE_SIZE off each side of the box, so for a
positive TILE_SIZE the width of the box bounds the number of rounds. -/
def imagedisplay_fill_rect (env : Env) (d : Imagedisplay) (expose : VipsRect) (p : Paint) :
    Paint :=
  let left := VIPS_ROUND_DOWN expose.left env.TILE_SIZE
  let top := VIPS_ROUND_DOWN expose.top env.TILE_SIZE
  let right := VIPS_ROUND_UP (VIPS_RECT_RIGHT expose) env.TILE_SIZE
  let bottom := VIPS_ROUND_UP (VIPS_RECT_BOTTOM expose) env.TILE_SIZE
  imagedisplay_fill_rect_loop env d expose (right - left).toNat left top right bottom p

/-! ## Predicates on the widget state -/

/-- The state after the paint_rect assignments of imagedisplay_layout (lines
230-242). -/
def layout_paint_rect (d : Imagedisplay) : Imagedisplay :=
  { d with
    paint_rect :=
      { left := VIPS_MAX 0 (Int.tdiv (d.widget_rect.width -
          VIPS_MIN d.widget_rect.width d.image_rect.width) 2),
        top := VIPS_MAX 0 (Int.tdiv (d.widget_rect.height -
          VIPS_MIN d.widget_rect.height d.image_rect.height) 2),
        width := VIPS_MIN d.widget_rect.width d.image_rect.width,
        height := VIPS_MIN d.widget_rect.height d.image_rect.height } }

/-- The state between the geometry part of imagedisplay_layout and the buffer
part (after line 245). -/
def layout_geometry (d : Imagedisplay) : Imagedisplay :=
  imagedisplay_set_vadjustment_values (imagedisplay_set_hadjustment_values
    (layout_paint_rect d))

/-- The backing buffer, when there is one, has the size of paint_rect, which is
not empty. -/
def BufferFits (d : Imagedisplay) : Prop :=
  ∀ b, d.cairo_buffer = some b →
    0 < d.paint_rect.width ∧ 0 < d.paint_rect.height ∧
      (b.length : Int) = d.paint_rect.width * d.paint_rect.height * 4

/-- What every layout pass establishes: the sizes are non-negative and the
backing buffer has exactly the bytes of paint_rect, NULL when there are none. -/
def LayoutInv (d : Imagedisplay) : Prop :=
  0 ≤ d.widget_rect.width ∧ 0 ≤ d.widget_rect.height ∧
  0 ≤ d.image_rect.width ∧ 0 ≤ d.image_rect.height ∧
  0 ≤ d.paint_rect.width ∧ 0 ≤ d.paint_rect.height ∧
  (d.cairo_buffer = none ↔ d.paint_rect.width * d.paint_rect.height * 4 = 0) ∧
  ∀ b, d.cairo_buffer = some b →
    (b.length : Int) = d.paint_rect.width * d.paint_rect.height * 4

/-- The pixel (x, y) lies in the rectangle. -/
def VipsRect.has_pixel (r : VipsRect) (x y : Int) : Prop :=
  r.left ≤ x ∧ x < r.left + r.width ∧ r.top ≤ y ∧ y < r.top + r.height

/-- The rectangles imagedisplay_fill_rect hands to imagedisplay_fill_tile: the
non-empty intersections of a TILE_SIZE square with `expose`. -/
def IsClippedTile (env : Env) (expose : VipsRect) (clip : VipsRect) : Prop :=
  ∃ x y : Int,
    clip = vips_rect_intersectrect
      { left := x, top := y, width := env.TILE_SIZE, height := env.TILE_SIZE } expose ∧
    vips_rect_isempty clip = false

/-! ## Scroll events -/

/-- A change of the horizontal scroll position, as GTK makes it: a call of
gtk_adjustment_set_value on hadjustment, whose "value-changed" signal runs
imagedisplay_adjustment_changed. Without an adjustment nothing can change. -/
def imagedisplay_hscroll (value : ℚ) (d : Imagedisplay) : Imagedisplay :=
  match d.hadjustment with
  | none => d
  | some a =>
    let r := gtk_adjustment_set_value a value
    let d1 := { d with hadjustment := some r.1 }
    if r.2 then imagedisplay_adjustment_changed d1 else d1

/-- A change of the vertical scroll position. -/
def imagedisplay_vscroll (value : ℚ) (d : Imagedisplay) : Imagedisplay :=
  match d.vadjustment with
  | none => d
  | some a =>
    let r := gtk_adjustment_set_value a value
    let d1 := { d with vadjustment := some r.1 }
    if r.2 then imagedisplay_adjustment_changed d1 else d1

/-- The events the widget receives: those that run a layout pass and the two
scroll-value changes. -/
inductive WidgetEvent where
  | layout (e : LayoutEvent)
  | hscroll (value : ℚ)
  | vscroll (value : ℚ)

/-- Deliver one widget event. -/
def WidgetEvent.deliver (e : WidgetEvent) (d : Imagedisplay) : Option Imagedisplay :=
  match e with
  | .layout e => e.deliver d
  | .hscroll value => some (imagedisplay_hscroll value d)
  | .vscroll value => some (imagedisplay_vscroll value d)

/-- Every size carried by the event is non-negative. -/
def WidgetEvent.nonneg (e : WidgetEvent) : Prop :=
  match e with
  | .layout e => e.nonneg
  | .hscroll _ => True
  | .vscroll _ => True

/-- The grid tiles of one row for which imagedisplay_fill_rect calls
imagedisplay_fill_tile, in order: the loop of imagedisplay_fill_rect_row with
the call replaced by a record of the tile. The rectangle passed to the call
is the intersection of the tile with `expose`. -/
def fill_rect_row_tiles (T : Int) (expose : VipsRect) (tile_top right : Int) :
    Nat → Int → List VipsRect
  | fuel, x =>
    if x < right then
      match fuel with
      | 0 => []
      | fuel + 1 =>
        let tile : VipsRect := { left := x, top := tile_top, width := T, height := T }
        let clip := vips_rect_intersectrect tile expose
        (if !vips_rect_isempty clip then [tile] else []) ++
          fill_rect_row_tiles T expose tile_top right fuel (x + T)
    else []

/-- The grid tiles of one column for which imagedisplay_fill_tile is called. -/
def fill_rect_column_tiles (T : Int) (expose : VipsRect) (tile_left bottom : Int) :
    Nat → Int → List VipsRect
  | fuel, y =>
    if y < bottom then
      match fuel with
      | 0 => []
      | fuel + 1 =>
        let tile : VipsRect := { left := tile_left, top := y, width := T, height := T }
        let clip := vips_rect_intersectrect tile expose
        (if !vips_rect_isempty clip then [tile] else []) ++
          fill_rect_column_tiles T expose tile_left bottom fuel (y + T)
    else []

/-- The grid tiles of the peeling loop, in the order of the calls: the loop of
imagedisplay_fill_rect_loop with each call replaced by a record. -/
def fill_rect_loop_tiles (T : Int) (expose : VipsRect) :
    Nat → Int → Int → Int → Int → List VipsRect
  | fuel, left, top, right, bottom =>
    if right - left ≤ 0 ∨ bottom - top ≤ 0 then []
    else
      match fuel with
      | 0 => []
      | fuel + 1 =>
        let l1 := fill_rect_row_tiles T expose top right (right - left).toNat left
        let top := top + T
        if right - left ≤ 0 ∨ bottom - top ≤ 0 then l1
        else
          let l2 := fill_rect_row_tiles T expose (bottom - T) right (right - left).toNat left
          let bottom := bottom - T
          if right - left ≤ 0 ∨ bottom - top ≤ 0 then l1 ++ l2
          else
            let l3 := fill_rect_column_tiles T expose left bottom (bottom - top).toNat top
            let left := left + T
            if right - left ≤ 0 ∨ bottom - top ≤ 0 then l1 ++ l2 ++ l3
            else
              let l4 := fill_rect_column_tiles T expose (right - T) bottom
                (bottom - top).toNat top
              let right := right - T
              if right - left ≤ 0 ∨ bottom - top ≤ 0 then l1 ++ l2 ++ l3 ++ l4
              else l1 ++ l2 ++ l3 ++ l4 ++
                fill_rect_loop_tiles T expose fuel left top right bottom

/-- The grid tiles for which imagedisplay_fill_rect calls imagedisplay_fill_tile, in
the order of the calls. It depends on TILE_SIZE and `expose` only. -/
def fill_rect_tiles (T : Int) (expose : VipsRect) : List VipsRect :=
  let left := VIPS_ROUND_DOWN expose.left T
  let top := VIPS_ROUND_DOWN expose.top T
  let right := VIPS_ROUND_UP (VIPS_RECT_RIGHT expose) T
  let bottom := VIPS_ROUND_UP (VIPS_RECT_BOTTOM expose) T
  fill_rect_loop_tiles T expose (right - left).toNat left top right bottom

/-- Run imagedisplay_fill_tile on the clipped tiles of a list, first to last. -/
def fill_tiles (env : Env) (d : Imagedisplay) (expose : VipsRect) (tiles : List VipsRect)
    (p : Paint) : Paint :=
  tiles.foldl (fun q tile => imagedisplay_fill_tile env d (vips_rect_intersectrect tile expose) q) p

/-- The ring depth of a grid tile in the tile-aligned box (left, top, right,
bottom): the number of whole tiles between the tile and the nearest side of
the box. -/
def ring_depth (T left top right bottom : Int) (tile : VipsRect) : Int :=
  min (min ((tile.left - left) / T) ((right - (tile.left + T)) / T))
    (min ((tile.top - top) / T) ((bottom - (tile.top + T)) / T))

/-- The pass of a round that reaches a tile of the ring: 0 for its top row, 1 for
its bottom row, 2 for its left column, 3 for its right column; the corners
belong to the rows. -/
def ring_edge (T left top right bottom : Int) (tile : VipsRect) : Int :=
  if (tile.top - top) / T = ring_depth T left top right bottom tile then 0
  else if (bottom - (tile.top + T)) / T = ring_depth T left top right bottom tile then 1
  else if (tile.left - left) / T = ring_depth T left top right bottom tile then 2
  else 3

/-- Two rectangles share no pixel. -/
def VipsRect.disjoint (a b : VipsRect) : Prop :=
  ∀ x y : Int, ¬ (a.has_pixel x y ∧ b.has_pixel x y)

/-- The tiles of a list are grid tiles meeting `expose`, lie in the box
(left, top, right, bottom), share no pixel with each other, and between them
hold every pixel of `expose` in the box. -/
def TilesCover (T : Int) (expose : VipsRect) (left top right bottom : Int)
    (tiles : List VipsRect) : Prop :=
  (∀ x ∈ tiles, x.width = T ∧ x.height = T ∧ T ∣ x.left ∧ T ∣ x.top ∧
    left ≤ x.left ∧ x.left + T ≤ right ∧ top ≤ x.top ∧ x.top + T ≤ bottom ∧
    vips_rect_isempty (vips_rect_intersectrect x expose) = false) ∧
  (∀ px py : Int, left ≤ px → px < right → top ≤ py → py < bottom →
    expose.has_pixel px py → ∃ x ∈ tiles, x.has_pixel px py) ∧
  tiles.Pairwise VipsRect.disjoint

/-- The place of a tile in the order top row, bottom row, left column, right
column of ring after ring: four times its depth plus its edge. -/
def ring_rank (T left top right bottom : Int) (tile : VipsRect) : Int :=
  4 * ring_depth T left top right bottom tile + ring_edge T left top right bottom tile

/-- The ring depth of a tile in the tile-aligned box imagedisplay_fill_rect puts
around `expose`. -/
def fill_rect_depth (T : Int) (expose tile : VipsRect) : Int :=
  ring_depth T (VIPS_ROUND_DOWN expose.left T) (VIPS_ROUND_DOWN expose.top T)
    (VIPS_ROUND_UP (VIPS_RECT_RIGHT expose) T) (VIPS_ROUND_UP (VIPS_RECT_BOTTOM expose) T) tile

/-- The edge of a tile in the tile-aligned box imagedisplay_fill_rect puts around
`expose`. -/
def fill_rect_edge (T : Int) (expose tile : VipsRect) : Int :=
  ring_edge T (VIPS_ROUND_DOWN expose.left T) (VIPS_ROUND_DOWN expose.top T)
    (VIPS_ROUND_UP (VIPS_RECT_RIGHT expose) T) (VIPS_ROUND_UP (VIPS_RECT_BOTTOM expose) T) tile

/-! ## What a prepared region holds -/

/-- What a successful vips_region_prepare( reg, r ) leaves behind: the area
`valid` of the region includes `r`, a line of the region has room for the
pels of `valid`, and the data has every line of `valid`. -/
def VipsRegion.holds (reg : VipsRegion) (r : VipsRect) : Prop :=
  vips_rect_includesrect reg.valid r = true ∧ 0 < reg.sizeof_pel ∧
    reg.sizeof_pel * reg.valid.width ≤ reg.bpl ∧
    reg.bpl * reg.valid.height ≤ reg.data.length

/-- The four Cairo bytes the conversion makes of the pel at (x, y) of a region:
that of imagedisplay_rgba_to_cairo (lines 446-459) for four bands, that of
imagedisplay_rgb_to_cairo (lines 477-489) otherwise. -/
def cairo_pixel (Bands : Int) (reg : VipsRegion) (x y : Int) : Option (List Nat) :=
  if Bands = 4 then
    match load reg.data (VIPS_REGION_ADDR reg x y) 4 with
    | some [r, g, b, a] =>
      some [to_uchar (Int.tdiv ((b : Int) * a) 255), to_uchar (Int.tdiv ((g : Int) * a) 255),
            to_uchar (Int.tdiv ((r : Int) * a) 255), to_uchar (a : Int)]
    | _ => none
  else
    match load reg.data (VIPS_REGION_ADDR reg x y) 3 with
    | some [r, g, b] => some [to_uchar (b : Int), to_uchar (g : Int), to_uchar (r : Int),
                              to_uchar 255]
    | _ => none

/-! ## Drawing -/

/-- What imagedisplay_draw_cairo hands to Cairo: the image surface made over the
backing buffer (the byte offset of its first pixel, its width, height and
stride) and the widget position (x, y) at which it is set as the source. -/
structure Blit where
  cairo_start : Int
  width : Int
  height : Int
  cairo_stride : Int
  x : Int
  y : Int
deriving DecidableEq, Repr

/-- The rectangle `gtk` of imagedisplay_draw_cairo (lines 786-787). -/
def imagedisplay_draw_cairo_gtk (d : Imagedisplay) (expose : VipsRect) : VipsRect :=
  imagedisplay_image_to_gtk d expose

/-- The rectangle `buffer` of imagedisplay_draw_cairo (lines 788-789). -/
def imagedisplay_draw_cairo_buffer (d : Imagedisplay) (expose : VipsRect) : VipsRect :=
  imagedisplay_gtk_to_buffer d (imagedisplay_draw_cairo_gtk d expose)

/-- Lines 779-835: the surface imagedisplay_draw_cairo paints, `none` when the
buffer rectangle is empty and nothing is painted. -/
def imagedisplay_draw_cairo (d : Imagedisplay) (expose : VipsRect) : Option Blit :=
  let gtk := imagedisplay_draw_cairo_gtk d expose
  let buffer := imagedisplay_draw_cairo_buffer d expose
  if !vips_rect_isempty buffer then
    let cairo_stride := 4 * d.paint_rect.width
    let cairo_start := buffer.top * cairo_stride + buffer.left * 4
    some { cairo_start := cairo_start, width := buffer.width, height := buffer.height,
           cairo_stride := cairo_stride, x := gtk.left, y := gtk.top }
  else none

/-- Lines 852-872: what imagedisplay_draw does for one rectangle of the clip list,
given with the int coordinates the handler assigns to `expose`: the fill of
the backing buffer and the surface painted, nothing when the image-space
rectangle is empty. -/
def imagedisplay_draw_rectangle (env : Env) (d : Imagedisplay) (rectangle : VipsRect)
    (p : Paint) : Paint × Option Blit :=
  let expose := imagedisplay_gtk_to_image d rectangle
  if !vips_rect_isempty expose then
    (imagedisplay_fill_rect env d expose p, imagedisplay_draw_cairo d expose)
  else (p, none)

/-! ## The allocation of imagedisplay_layout in C int -/

/-- The largest value of a 32-bit `int`. -/
def INT_MAX : Int := 2147483647

/-- The value the compiled program gives an `int` expression whose exact result is
`v`: `v` itself inside the range of a 32-bit int, and `v` modulo 2^32 outside
it (signed overflow is undefined in C; the machine wraps). -/
def int_wrap (v : Int) : Int :=
  (v + 2147483648) % 4294967296 - 2147483648

/-- Lines 252-254: the argument of g_malloc0 in imagedisplay_layout, the `int`
expression `paint_rect.width * paint_rect.height * 4`, with both products
taken in `int`. -/
def imagedisplay_layout_n_bytes (d : Imagedisplay) : Int :=
  int_wrap (int_wrap (d.paint_rect.width * d.paint_rect.height) * 4)

/-- Lines 217-265 with the size of the new block computed in `int`, as the source
has it, where imagedisplay_layout takes the exact product. The geometry
before it is the same (for sizes that are ints it stays within int). A
negative `int` handed to g_malloc0 becomes a gsize close to 2^64, a request
that cannot be met, and g_malloc0 ends the program: `none`. The tiling copy
is imagedisplay_init_buffer with its checked memcpy, which gives `none` at
the first copy that leaves the new block. -/
def imagedisplay_layout_int32 (d : Imagedisplay) : Option Imagedisplay :=
  let old_buffer_width := d.paint_rect.width
  let old_buffer_height := d.paint_rect.height
  let buffer_width := VIPS_MIN d.widget_rect.width d.image_rect.width
  let buffer_height := VIPS_MIN d.widget_rect.height d.image_rect.height
  let d1 : Imagedisplay :=
    { d with
      paint_rect :=
        { left := VIPS_MAX 0 (Int.tdiv (d.widget_rect.width - buffer_width) 2),
          top := VIPS_MAX 0 (Int.tdiv (d.widget_rect.height - buffer_height) 2),
          width := buffer_width,
          height := buffer_height } }
  let d2 := imagedisplay_set_hadjustment_values d1
  let d3 := imagedisplay_set_vadjustment_values d2
  if d3.cairo_buffer = none ∨
      d3.paint_rect.width ≠ old_buffer_width ∨
      d3.paint_rect.height ≠ old_buffer_height then
    let n_bytes := imagedisplay_layout_n_bytes d3
    if n_bytes < 0 then none
    else
      let new_buffer := g_malloc0 n_bytes
      match imagedisplay_init_buffer (new_buffer.getD []) buffer_width buffer_height
          d3.cairo_buffer old_buffer_width old_buffer_height with
      | none => none
      | some bytes => some { d3 with cairo_buffer := new_buffer.map (fun _ => bytes) }
  else some d3

/-- Lines 269-289 with the layout of imagedisplay_layout_int32. -/
def imagedisplay_conversion_display_changed_int32 (Xsize Ysize : Int) (d : Imagedisplay) :
    Option Imagedisplay :=
  imagedisplay_layout_int32
    { d with image_rect := { d.image_rect with width := Xsize, height := Ysize } }

/-- Lines 891-904 with the layout of imagedisplay_layout_int32. -/
def imagedisplay_resize_int32 (width height : Int) (d : Imagedisplay) : Option Imagedisplay :=
  imagedisplay_layout_int32
    { d with widget_rect := { d.widget_rect with width := width, height := height } }

/-- Deliver one event to the handlers that compute the block size in `int`. -/
def LayoutEvent.deliver_int32 (e : LayoutEvent) (d : Imagedisplay) : Option Imagedisplay :=
  match e with
  | .resize w h => imagedisplay_resize_int32 w h d
  | .display_changed xs ys => imagedisplay_conversion_display_changed_int32 xs ys d

/-- Deliver a sequence of events to those handlers, first to last. -/
def deliver_all_int32 : List LayoutEvent → Imagedisplay → Option Imagedisplay
  | [], d => some d
  | e :: es, d =>
    match e.deliver_int32 d with
    | none => none
    | some d1 => deliver_all_int32 es d1

/-- Every size carried by the event is at most `bound`. -/
def LayoutEvent.within (e : LayoutEvent) (bound : Int) : Prop :=
  match e with
  | .resize w h => w ≤ bound ∧ h ≤ bound
  | .display_changed xs ys => xs ≤ bound ∧ ys ≤ bound

/-! # Theorems -/

/-! ## Byte memory -/

theorem load_eq_some {buf : Buf} {off : Int} {n : Nat}
    (h0 : 0 ≤ off) (h1 : off + n ≤ buf.length) :
    load buf off n = some ((buf.drop off.toNat).take n) := by
  unfold load
  rw [if_pos ⟨h0, h1⟩]

theorem load_some_iff {buf : Buf} {off : Int} {n : Nat} {bs : List Nat} :
    load buf off n = some bs ↔
      0 ≤ off ∧ off + n ≤ buf.length ∧ bs = (buf.drop off.toNat).take n := by
  unfold load
  split
  · rename_i h
    constructor
    · intro e
      exact ⟨h.1, h.2, (Option.some.inj e).symm⟩
    · rintro ⟨_, _, e⟩
      rw [e]
  · rename_i h
    constructor
    · intro e
      cases e
    · rintro ⟨a, b, _⟩
      exact absurd ⟨a, b⟩ h

theorem load_length {buf : Buf} {off : Int} {n : Nat} {bs : List Nat}
    (h : load buf off n = some bs) : bs.length = n := by
  obtain ⟨h0, h1, e⟩ := load_some_iff.mp h
  subst e
  rw [List.length_take, List.length_drop]
  omega

theorem load_getElem? {buf : Buf} {off : Int} {n : Nat} {bs : List Nat}
    (h : load buf off n = some bs) (k : Nat) (hk : k < n) :
    bs[k]? = buf[off.toNat + k]? := by
  obtain ⟨h0, h1, e⟩ := load_some_iff.mp h
  subst e
  rw [List.getElem?_take, if_pos hk, List.getElem?_drop]

theorem store_some_iff {buf : Buf} {off : Int} {bs : List Nat} {out : Buf} :
    store buf off bs = some out ↔
      0 ≤ off ∧ off + bs.length ≤ buf.length ∧
        out = buf.take off.toNat ++ bs ++ buf.drop (off.toNat + bs.length) := by
  unfold store
  split
  · rename_i h
    constructor
    · intro e
      exact ⟨h.1, h.2, (Option.some.inj e).symm⟩
    · rintro ⟨_, _, e⟩
      rw [e]
  · rename_i h
    constructor
    · intro e
      cases e
    · rintro ⟨a, b, _⟩
      exact absurd ⟨a, b⟩ h

theorem store_length {buf : Buf} {off : Int} {bs : List Nat} {out : Buf}
    (h : store buf off bs = some out) : out.length = buf.length := by
  obtain ⟨h0, h1, e⟩ := store_some_iff.mp h
  subst e
  simp only [List.length_append, List.length_take, List.length_drop]
  omega

theorem store_getElem? {buf : Buf} {off : Int} {bs : List Nat} {out : Buf}
    (h : store buf off bs = some out) (i : Nat) :
    out[i]? = if off ≤ (i : Int) ∧ (i : Int) < off + bs.length then bs[i - off.toNat]?
      else buf[i]? := by
  obtain ⟨h0, h1, e⟩ := store_some_iff.mp h
  subst e
  have hlen : (buf.take off.toNat).length = off.toNat := by
    rw [List.length_take]; omega
  by_cases hlo : (i : Int) < off
  · rw [if_neg (by omega)]
    rw [List.append_assoc, List.getElem?_append, hlen, if_pos (by omega),
      List.getElem?_take, if_pos (by omega)]
  · by_cases hhi : (i : Int) < off + bs.length
    · rw [if_pos ⟨by omega, hhi⟩]
      rw [List.append_assoc, List.getElem?_append, hlen, if_neg (by omega),
        List.getElem?_append, if_pos (by omega)]
    · rw [if_neg (by omega)]
      rw [List.append_assoc, List.getElem?_append, hlen, if_neg (by omega),
        List.getElem?_append, if_neg (by omega), List.getElem?_drop]
      congr 1
      omega

theorem memcpy_spec (dst src : Buf) (doff soff n : Int)
    (hn : 0 ≤ n) (hd : 0 ≤ doff) (hs : 0 ≤ soff)
    (hdl : doff + n ≤ dst.length) (hsl : soff + n ≤ src.length) :
    ∃ out, memcpy dst doff src soff n = some out ∧ out.length = dst.length ∧
      ∀ i : Nat, out[i]? =
        if doff ≤ (i : Int) ∧ (i : Int) < doff + n then src[(soff + (i - doff)).toNat]?
        else dst[i]? := by
  have hl : load src soff n.toNat = some ((src.drop soff.toNat).take n.toNat) :=
    load_eq_some hs (by omega)
  have hlen := load_length hl
  have hst : ∃ out, store dst doff ((src.drop soff.toNat).take n.toNat) = some out := by
    refine ⟨_, store_some_iff.mpr ⟨hd, ?_, rfl⟩⟩
    omega
  obtain ⟨out, hout⟩ := hst
  refine ⟨out, ?_, store_length hout, ?_⟩
  · unfold memcpy
    rw [if_pos hn, hl]
    exact hout
  · intro i
    rw [store_getElem? hout i, hlen]
    by_cases hc : doff ≤ (i : Int) ∧ (i : Int) < doff + n
    · rw [if_pos (by omega), if_pos hc, load_getElem? hl _ (by omega)]
      congr 1
      omega
    · rw [if_neg (by omega), if_neg hc]

/-! ## The tiling copy -/

theorem VIPS_MIN_int (a b : Int) : VIPS_MIN a b = min a b := by
  unfold VIPS_MIN
  split <;> omega

theorem VIPS_MAX_int (a b : Int) : VIPS_MAX a b = max a b := by
  unfold VIPS_MAX
  split <;> omega

/-- One row of the tiling copy: every byte of the row from column `x` on is taken
from the source row, repeating every `old_width` pixels; the rest of the
block is untouched. -/
theorem init_buffer_row_spec (new_width : Int) (old : Buf) (old_width old_height y : Int)
    (how : 0 < old_width) (hoh : old_height ≠ 0)
    (hsrc0 : 0 ≤ Int.tmod y old_height * old_width)
    (hsrc : 4 * (Int.tmod y old_height * old_width) + 4 * old_width ≤ old.length)
    (hrow0 : 0 ≤ y * new_width) :
    ∀ (fuel : Nat) (x : Int) (b : Buf), 0 ≤ x → (new_width - x).toNat ≤ fuel →
      4 * (y * new_width) + 4 * new_width ≤ b.length →
      ∃ out, imagedisplay_init_buffer_row new_width old old_width old_height y fuel x b
          = some out ∧ out.length = b.length ∧
        ∀ i : Nat, out[i]? =
          if 4 * (y * new_width + x) ≤ (i : Int) ∧ (i : Int) < 4 * (y * new_width + new_width)
          then old[(4 * (Int.tmod y old_height * old_width) +
                ((i : Int) - 4 * (y * new_width + x)) % (4 * old_width)).toNat]?
          else b[i]? := by
  intro fuel
  induction fuel with
  | zero =>
    intro x b hx hfuel hlen
    have hge : ¬ x < new_width := by omega
    refine ⟨b, ?_, rfl, ?_⟩
    · unfold imagedisplay_init_buffer_row
      rw [if_neg hge]
    · intro i
      rw [if_neg (by omega)]
  | succ fuel ih =>
    intro x b hx hfuel hlen
    by_cases hlt : x < new_width
    · have hmin := VIPS_MIN_int old_width (new_width - x)
      obtain ⟨b1, hb1, hb1len, hb1get⟩ :=
        memcpy_spec b old (4 * (y * new_width + x))
          (4 * (Int.tmod y old_height * old_width))
          (4 * VIPS_MIN old_width (new_width - x))
          (by omega) (by omega) (by omega) (by omega) (by omega)
      obtain ⟨out, hout, houtlen, houtget⟩ :=
        ih (x + old_width) b1 (by omega) (by omega) (by omega)
      refine ⟨out, ?_, by omega, ?_⟩
      · rw [imagedisplay_init_buffer_row, if_pos hlt]
        simp only [if_neg hoh, hb1]
        exact hout
      · intro i
        rw [houtget i, hb1get i]
        by_cases hin : 4 * (y * new_width + x) ≤ (i : Int) ∧
            (i : Int) < 4 * (y * new_width + new_width)
        · rw [if_pos hin]
          by_cases hnext : 4 * (y * new_width + (x + old_width)) ≤ (i : Int)
          · rw [if_pos ⟨hnext, hin.2⟩]
            have e : ((i : Int) - 4 * (y * new_width + x)) % (4 * old_width)
                = ((i : Int) - 4 * (y * new_width + (x + old_width))) % (4 * old_width) := by
              have : (i : Int) - 4 * (y * new_width + x)
                  = ((i : Int) - 4 * (y * new_width + (x + old_width))) + 4 * old_width := by
                ring
              rw [this, Int.add_emod_self]
            rw [e]
          · rw [if_neg (fun h => hnext h.1), if_pos (by omega)]
            have e : ((i : Int) - 4 * (y * new_width + x)) % (4 * old_width)
                = (i : Int) - 4 * (y * new_width + x) :=
              Int.emod_eq_of_lt (by omega) (by omega)
            rw [e]
        · rw [if_neg hin, if_neg (by omega), if_neg (by omega)]
    · refine ⟨b, ?_, rfl, ?_⟩
      · rw [imagedisplay_init_buffer_row, if_neg hlt]
      · intro i
        rw [if_neg (by omega)]

theorem tmod_row_bounds (old_width old_height y : Int) (how : 0 < old_width)
    (hoh : 0 < old_height) (hy : 0 ≤ y) :
    0 ≤ Int.tmod y old_height * old_width ∧
      Int.tmod y old_height * old_width + old_width ≤ old_width * old_height := by
  have h0 : 0 ≤ Int.tmod y old_height := Int.tmod_nonneg _ hy
  have h1 : Int.tmod y old_height < old_height := Int.tmod_lt_of_pos _ hoh
  constructor
  · exact Int.mul_nonneg h0 (by omega)
  · have : (Int.tmod y old_height + 1) * old_width ≤ old_height * old_width :=
      Int.mul_le_mul_of_nonneg_right (by omega) (by omega)
    have e1 : (Int.tmod y old_height + 1) * old_width
        = Int.tmod y old_height * old_width + old_width := by ring
    have e2 : old_height * old_width = old_width * old_height := by ring
    omega

/-- The rows of the tiling copy, from row `y` on. -/
theorem init_buffer_rows_spec (new_width : Int) (old : Buf) (old_width old_height : Int)
    (how : 0 < old_width) (hoh : 0 < old_height) (hnw : 0 ≤ new_width)
    (hold : (old.length : Int) = old_width * old_height * 4) :
    ∀ (rows : Nat) (y : Int) (b : Buf), 0 ≤ y →
      4 * ((y + rows) * new_width) ≤ b.length →
      ∃ out, imagedisplay_init_buffer_rows new_width old old_width old_height rows y b
          = some out ∧ out.length = b.length ∧
        (∀ i : Nat, (i : Int) < 4 * (y * new_width) → out[i]? = b[i]?) ∧
        ∀ y1 x1 c : Int, y ≤ y1 → y1 < y + rows → 0 ≤ x1 → x1 < new_width →
          0 ≤ c → c < 4 →
          out[(4 * (y1 * new_width + x1) + c).toNat]? =
            old[(4 * (Int.tmod y1 old_height * old_width) +
              (4 * x1 + c) % (4 * old_width)).toNat]? := by
  intro rows
  induction rows with
  | zero =>
    intro y b hy hlen
    refine ⟨b, rfl, rfl, fun _ _ => rfl, ?_⟩
    intro y1 x1 c h1 h2
    exact absurd h2 (by simp only [Nat.cast_zero] ; omega)
  | succ rows ih =>
    intro y b hy hlen
    have hyn : 0 ≤ y * new_width := Int.mul_nonneg hy hnw
    have hrn : 0 ≤ (rows : Int) * new_width := Int.mul_nonneg (by omega) hnw
    have e1 : (y + ((rows + 1 : Nat) : Int)) * new_width
        = y * new_width + new_width + rows * new_width := by push_cast; ring
    have e2 : (y + 1 + (rows : Int)) * new_width
        = y * new_width + new_width + rows * new_width := by ring
    have e3 : (y + 1) * new_width = y * new_width + new_width := by ring
    obtain ⟨hs0, hs1⟩ := tmod_row_bounds old_width old_height y how hoh hy
    obtain ⟨b1, hb1, hb1len, hb1get⟩ :=
      init_buffer_row_spec new_width old old_width old_height y how (by omega) hs0
        (by omega) hyn new_width.toNat 0 b (by omega) (by omega) (by omega)
    obtain ⟨out, hout, houtlen, hlow, hpix⟩ := ih (y + 1) b1 (by omega) (by omega)
    refine ⟨out, ?_, by omega, ?_, ?_⟩
    · rw [imagedisplay_init_buffer_rows, hb1]
      exact hout
    · intro i hi
      rw [hlow i (by omega), hb1get i, if_neg (by omega)]
    · intro y1 x1 c h1 h2 hx0 hx1 hc0 hc1
      by_cases hy1 : y1 = y
      · subst hy1
        have hidx : (((4 * (y1 * new_width + x1) + c).toNat : Nat) : Int)
            = 4 * (y1 * new_width + x1) + c := by omega
        rw [hlow _ (by omega), hb1get _, if_pos (by omega), hidx]
        congr 3
        ring_nf
      · exact hpix y1 x1 c (by omega) (by push_cast at h2; omega) hx0 hx1 hc0 hc1

theorem pixel_mod (x w c : Int) (hw : 0 < w) (hc0 : 0 ≤ c) (hc1 : c < 4) :
    (4 * x + c) % (4 * w) = 4 * (x % w) + c := by
  have h1 : 0 ≤ x % w := Int.emod_nonneg _ (by omega)
  have h2 : x % w < w := Int.emod_lt_of_pos _ hw
  have e : 4 * x + c = (4 * (x % w) + c) + (4 * w) * (x / w) := by
    have := Int.emod_add_ediv x w
    have e2 : 4 * w * (x / w) = 4 * (w * (x / w)) := by ring
    omega
  rw [e, Int.add_mul_emod_self_left]
  exact Int.emod_eq_of_lt (by omega) (by omega)

/-- Two blocks that agree on four consecutive bytes load the same pixel. -/
theorem load4_congr (a b : Buf) (i j : Int) (hi : 0 ≤ i) (hj : 0 ≤ j)
    (hjl : j + 4 ≤ b.length)
    (h : ∀ c : Int, 0 ≤ c → c < 4 → a[(i + c).toNat]? = b[(j + c).toNat]?) :
    ∃ px, load a i 4 = some px ∧ load b j 4 = some px := by
  have hb : load b j 4 = some ((b.drop j.toNat).take 4) := load_eq_some hj (by omega)
  have hil : i + 4 ≤ a.length := by
    have h3 := h 3 (by omega) (by omega)
    have : b[(j + 3).toNat]? ≠ none := by
      rw [Ne, List.getElem?_eq_none_iff]; omega
    rw [← h3, Ne, List.getElem?_eq_none_iff] at this
    omega
  have ha : load a i 4 = some ((a.drop i.toNat).take 4) := load_eq_some hi (by omega)
  refine ⟨_, ha, ?_⟩
  rw [hb]
  congr 1
  apply List.ext_getElem?
  intro k
  by_cases hk : k < 4
  · rw [List.getElem?_take, if_pos hk, List.getElem?_drop,
      List.getElem?_take, if_pos hk, List.getElem?_drop]
    have := h k (by omega) (by omega)
    have e1 : (i + (k : Int)).toNat = i.toNat + k := by omega
    have e2 : (j + (k : Int)).toNat = j.toNat + k := by omega
    rw [e1, e2] at this
    exact this.symm
  · rw [List.getElem?_take, if_neg hk, List.getElem?_take, if_neg hk]

/-! ## Layout -/

theorem adjustment_changed_fields (d : Imagedisplay) :
    (imagedisplay_adjustment_changed d).hadjustment = d.hadjustment ∧
    (imagedisplay_adjustment_changed d).vadjustment = d.vadjustment ∧
    (imagedisplay_adjustment_changed d).image_rect = d.image_rect ∧
    (imagedisplay_adjustment_changed d).widget_rect = d.widget_rect ∧
    (imagedisplay_adjustment_changed d).paint_rect = d.paint_rect ∧
    (imagedisplay_adjustment_changed d).cairo_buffer = d.cairo_buffer ∧
    (imagedisplay_adjustment_changed d).realized = d.realized := by
  unfold imagedisplay_adjustment_changed
  split <;> simp

theorem set_hadjustment_values_fields (d : Imagedisplay) :
    (imagedisplay_set_hadjustment_values d).vadjustment = d.vadjustment ∧
    (imagedisplay_set_hadjustment_values d).image_rect = d.image_rect ∧
    (imagedisplay_set_hadjustment_values d).widget_rect = d.widget_rect ∧
    (imagedisplay_set_hadjustment_values d).paint_rect = d.paint_rect ∧
    (imagedisplay_set_hadjustment_values d).cairo_buffer = d.cairo_buffer ∧
    (imagedisplay_set_hadjustment_values d).realized = d.realized := by
  unfold imagedisplay_set_hadjustment_values
  split
  · simp
  · dsimp only
    split
    · obtain ⟨-, h2, h3, h4, h5, h6, h7⟩ := adjustment_changed_fields
        { d with hadjustment := some (imagedisplay_set_adjustment_values _
            d.image_rect.width d.paint_rect.width).adjustment }
      exact ⟨h2, h3, h4, h5, h6, h7⟩
    · simp

theorem set_vadjustment_values_fields (d : Imagedisplay) :
    (imagedisplay_set_vadjustment_values d).hadjustment = d.hadjustment ∧
    (imagedisplay_set_vadjustment_values d).image_rect = d.image_rect ∧
    (imagedisplay_set_vadjustment_values d).widget_rect = d.widget_rect ∧
    (imagedisplay_set_vadjustment_values d).paint_rect = d.paint_rect ∧
    (imagedisplay_set_vadjustment_values d).cairo_buffer = d.cairo_buffer ∧
    (imagedisplay_set_vadjustment_values d).realized = d.realized := by
  unfold imagedisplay_set_vadjustment_values
  split
  · simp
  · dsimp only
    split
    · obtain ⟨h1, -, h3, h4, h5, h6, h7⟩ := adjustment_changed_fields
        { d with vadjustment := some (imagedisplay_set_adjustment_values _
            d.image_rect.height d.paint_rect.height).adjustment }
      exact ⟨h1, h3, h4, h5, h6, h7⟩
    · simp

theorem layout_geometry_fields (d : Imagedisplay) :
    (layout_geometry d).image_rect = d.image_rect ∧
    (layout_geometry d).widget_rect = d.widget_rect ∧
    (layout_geometry d).paint_rect =
      { left := max 0 (Int.tdiv (d.widget_rect.width -
          min d.widget_rect.width d.image_rect.width) 2),
        top := max 0 (Int.tdiv (d.widget_rect.height -
          min d.widget_rect.height d.image_rect.height) 2),
        width := min d.widget_rect.width d.image_rect.width,
        height := min d.widget_rect.height d.image_rect.height } ∧
    (layout_geometry d).cairo_buffer = d.cairo_buffer ∧
    (layout_geometry d).realized = d.realized := by
  unfold layout_geometry
  obtain ⟨-, v2, v3, v4, v5, v6⟩ := set_vadjustment_values_fields
    (imagedisplay_set_hadjustment_values (layout_paint_rect d))
  obtain ⟨-, h2, h3, h4, h5, h6⟩ := set_hadjustment_values_fields (layout_paint_rect d)
  rw [v2, v3, v4, v5, v6, h2, h3, h4, h5, h6]
  unfold layout_paint_rect
  simp only [VIPS_MAX_int, VIPS_MIN_int]
  exact ⟨trivial, trivial, trivial, trivial, trivial⟩

theorem layout_unfold (d : Imagedisplay) :
    imagedisplay_layout d =
      if (layout_geometry d).cairo_buffer = none ∨
          (layout_geometry d).paint_rect.width ≠ d.paint_rect.width ∨
          (layout_geometry d).paint_rect.height ≠ d.paint_rect.height then
        match imagedisplay_init_buffer
            ((g_malloc0 ((layout_geometry d).paint_rect.width *
              (layout_geometry d).paint_rect.height * 4)).getD [])
            (VIPS_MIN d.widget_rect.width d.image_rect.width)
            (VIPS_MIN d.widget_rect.height d.image_rect.height)
            (layout_geometry d).cairo_buffer d.paint_rect.width d.paint_rect.height with
        | none => none
        | some bytes =>
          some { layout_geometry d with
            cairo_buffer := (g_malloc0 ((layout_geometry d).paint_rect.width *
              (layout_geometry d).paint_rect.height * 4)).map (fun _ => bytes) }
      else some (layout_geometry d) := by
  rfl

/-- With a fitting old block (or none), the tiling copy returns and keeps the
length of the new block. -/
theorem init_buffer_returns (new_buffer : Buf) (new_width new_height : Int)
    (old_buffer : Option Buf) (old_width old_height : Int)
    (hold : ∀ b, old_buffer = some b → 0 < old_width ∧ 0 < old_height ∧
      (b.length : Int) = old_width * old_height * 4)
    (hnw : 0 ≤ new_width) (hnh : 0 ≤ new_height)
    (hnew : (new_buffer.length : Int) = new_width * new_height * 4) :
    ∃ out, imagedisplay_init_buffer new_buffer new_width new_height old_buffer
        old_width old_height = some out ∧ out.length = new_buffer.length := by
  cases old_buffer with
  | none => exact ⟨new_buffer, rfl, rfl⟩
  | some old =>
    obtain ⟨how, hoh, hlen⟩ := hold old rfl
    have hlen0 : 4 * ((0 + ((new_height.toNat : Nat) : Int)) * new_width)
        ≤ (new_buffer.length : Int) := by
      have : ((new_height.toNat : Nat) : Int) = new_height := by omega
      rw [this, hnew]
      have : (0 + new_height) * new_width = new_width * new_height := by ring
      omega
    obtain ⟨out, hout, houtlen, -, -⟩ :=
      init_buffer_rows_spec new_width old old_width old_height how hoh hnw hlen
        new_height.toNat 0 new_buffer (le_refl 0) hlen0
    exact ⟨out, hout, houtlen⟩

theorem layout_spec (d : Imagedisplay)
    (hww : 0 ≤ d.widget_rect.width) (hwh : 0 ≤ d.widget_rect.height)
    (hiw : 0 ≤ d.image_rect.width) (hih : 0 ≤ d.image_rect.height)
    (hfit : BufferFits d) :
    ∃ cb : Option Buf,
      imagedisplay_layout d = some { layout_geometry d with cairo_buffer := cb } ∧
      (cb = none ↔ (layout_geometry d).paint_rect.width *
        (layout_geometry d).paint_rect.height * 4 = 0) ∧
      ∀ b, cb = some b → (b.length : Int) = (layout_geometry d).paint_rect.width *
        (layout_geometry d).paint_rect.height * 4 := by
  obtain ⟨g1, g2, g3, g4, g5⟩ := layout_geometry_fields d
  have hpw : (layout_geometry d).paint_rect.width
      = min d.widget_rect.width d.image_rect.width := by rw [g3]
  have hph : (layout_geometry d).paint_rect.height
      = min d.widget_rect.height d.image_rect.height := by rw [g3]
  have hpw0 : 0 ≤ (layout_geometry d).paint_rect.width := by rw [hpw]; omega
  have hph0 : 0 ≤ (layout_geometry d).paint_rect.height := by rw [hph]; omega
  have hprod0 : 0 ≤ (layout_geometry d).paint_rect.width *
      (layout_geometry d).paint_rect.height := Int.mul_nonneg hpw0 hph0
  rw [layout_unfold]
  by_cases hre : (layout_geometry d).cairo_buffer = none ∨
      (layout_geometry d).paint_rect.width ≠ d.paint_rect.width ∨
      (layout_geometry d).paint_rect.height ≠ d.paint_rect.height
  · rw [if_pos hre]
    rw [VIPS_MIN_int, VIPS_MIN_int, ← hpw, ← hph, g4]
    by_cases hz : (layout_geometry d).paint_rect.width *
        (layout_geometry d).paint_rect.height * 4 = 0
    · have hm : g_malloc0 ((layout_geometry d).paint_rect.width *
          (layout_geometry d).paint_rect.height * 4) = none := by
        unfold g_malloc0
        rw [if_pos (by omega)]
      obtain ⟨out, hout, -⟩ := init_buffer_returns []
        (layout_geometry d).paint_rect.width (layout_geometry d).paint_rect.height
        d.cairo_buffer d.paint_rect.width d.paint_rect.height hfit hpw0 hph0
        (by rw [hz]; rfl)
      refine ⟨none, ?_, ?_, ?_⟩
      · rw [hm]
        simp only [Option.getD_none, Option.map_none']
        rw [hout]
      · exact ⟨fun _ => hz, fun _ => rfl⟩
      · intro b hb
        cases hb
    · have hm : g_malloc0 ((layout_geometry d).paint_rect.width *
          (layout_geometry d).paint_rect.height * 4) =
          some (List.replicate ((layout_geometry d).paint_rect.width *
            (layout_geometry d).paint_rect.height * 4).toNat 0) := by
        unfold g_malloc0
        rw [if_neg (by omega)]
      obtain ⟨out, hout, houtlen⟩ := init_buffer_returns
        (List.replicate ((layout_geometry d).paint_rect.width *
            (layout_geometry d).paint_rect.height * 4).toNat 0)
        (layout_geometry d).paint_rect.width (layout_geometry d).paint_rect.height
        d.cairo_buffer d.paint_rect.width d.paint_rect.height hfit hpw0 hph0
        (by rw [List.length_replicate]; omega)
      refine ⟨some out, ?_, ?_, ?_⟩
      · rw [hm]
        simp only [Option.getD_some, Option.map_some']
        rw [hout]
      · constructor
        · intro h
          cases h
        · intro h
          exact absurd h hz
      · intro b hb
        cases hb
        rw [houtlen, List.length_replicate]
        omega
  · rw [if_neg hre]
    have hre1 : (layout_geometry d).cairo_buffer ≠ none := fun h => hre (Or.inl h)
    have hre2 : (layout_geometry d).paint_rect.width = d.paint_rect.width := by
      by_contra h
      exact hre (Or.inr (Or.inl h))
    have hre3 : (layout_geometry d).paint_rect.height = d.paint_rect.height := by
      by_contra h
      exact hre (Or.inr (Or.inr h))
    refine ⟨(layout_geometry d).cairo_buffer, rfl, ?_, ?_⟩
    · constructor
      · intro h
        exact absurd h hre1
      · intro h
        exfalso
        rw [g4] at hre1
        cases hcb : d.cairo_buffer with
        | none => exact hre1 hcb
        | some b =>
          obtain ⟨h1, h2, -⟩ := hfit b hcb
          rw [hre2, hre3] at h
          have := Int.mul_pos h1 h2
          omega
    · intro b hb
      rw [g4] at hb
      obtain ⟨-, -, h3⟩ := hfit b hb
      rw [hre2, hre3]
      exact h3

theorem LayoutInv.fits {d : Imagedisplay} (h : LayoutInv d) : BufferFits d := by
  obtain ⟨-, -, -, -, hpw, hph, hnone, hlen⟩ := h
  intro b hb
  have hne : d.paint_rect.width * d.paint_rect.height * 4 ≠ 0 := by
    intro hz
    rw [hnone.mpr hz] at hb
    cases hb
  have hw : d.paint_rect.width ≠ 0 := by
    intro hz
    rw [hz] at hne
    simp at hne
  have hh : d.paint_rect.height ≠ 0 := by
    intro hz
    rw [hz] at hne
    simp at hne
  exact ⟨by omega, by omega, hlen b hb⟩

theorem layout_establishes_inv (d : Imagedisplay)
    (hww : 0 ≤ d.widget_rect.width) (hwh : 0 ≤ d.widget_rect.height)
    (hiw : 0 ≤ d.image_rect.width) (hih : 0 ≤ d.image_rect.height)
    (hfit : BufferFits d) :
    ∃ d1, imagedisplay_layout d = some d1 ∧ LayoutInv d1 := by
  obtain ⟨cb, hlay, hnone, hlen⟩ := layout_spec d hww hwh hiw hih hfit
  obtain ⟨g1, g2, g3, -, -⟩ := layout_geometry_fields d
  refine ⟨_, hlay, ?_⟩
  have hpw : (layout_geometry d).paint_rect.width
      = min d.widget_rect.width d.image_rect.width := by rw [g3]
  have hph : (layout_geometry d).paint_rect.height
      = min d.widget_rect.height d.image_rect.height := by rw [g3]
  refine ⟨?_, ?_, ?_, ?_, ?_, ?_, hnone, hlen⟩
  · show 0 ≤ (layout_geometry d).widget_rect.width
    rw [g2]; exact hww
  · show 0 ≤ (layout_geometry d).widget_rect.height
    rw [g2]; exact hwh
  · show 0 ≤ (layout_geometry d).image_rect.width
    rw [g1]; exact hiw
  · show 0 ≤ (layout_geometry d).image_rect.height
    rw [g1]; exact hih
  · show 0 ≤ (layout_geometry d).paint_rect.width
    rw [hpw]; omega
  · show 0 ≤ (layout_geometry d).paint_rect.height
    rw [hph]; omega

theorem deliver_preserves_inv (e : LayoutEvent) (d : Imagedisplay)
    (he : e.nonneg) (hd : LayoutInv d) :
    ∃ d1, e.deliver d = some d1 ∧ LayoutInv d1 := by
  have hfit := hd.fits
  obtain ⟨hww, hwh, hiw, hih, -, -, -, -⟩ := hd
  cases e with
  | resize w h =>
    exact layout_establishes_inv
      { d with widget_rect := { d.widget_rect with width := w, height := h } }
      he.1 he.2 hiw hih hfit
  | display_changed xs ys =>
    exact layout_establishes_inv
      { d with image_rect := { d.image_rect with width := xs, height := ys } }
      hww hwh he.1 he.2 hfit

theorem deliver_all_preserves_inv (es : List LayoutEvent) :
    ∀ d : Imagedisplay, (∀ e ∈ es, e.nonneg) → LayoutInv d →
      ∃ d1, deliver_all es d = some d1 ∧ LayoutInv d1 := by
  induction es with
  | nil =>
    intro d _ hd
    exact ⟨d, rfl, hd⟩
  | cons e es ih =>
    intro d hes hd
    obtain ⟨d1, h1, hd1⟩ := deliver_preserves_inv e d (hes e (List.mem_cons_self _ _)) hd
    obtain ⟨d2, h2, hd2⟩ := ih d1 (fun e1 he1 => hes e1 (List.mem_cons_of_mem _ he1)) hd1
    refine ⟨d2, ?_, hd2⟩
    rw [deliver_all, h1]
    exact h2

theorem zeroed_inv : LayoutInv imagedisplay_zeroed := by
  refine ⟨by decide, by decide, by decide, by decide, by decide, by decide, ?_, ?_⟩
  · exact ⟨fun _ => by decide, fun _ => rfl⟩
  · intro b hb
    cases hb

/-- C3: for an old buffer of old_width x old_height pixels (both positive) and a
new buffer of new_width x new_height pixels, imagedisplay_init_buffer returns,
and every pixel (x, y) of the new buffer equals the pixel
(x mod old_width, y mod old_height) of the old buffer; so when every old pixel
is X, every new pixel is X. -/
theorem imagedisplay_init_buffer_tiles (new_buffer old : Buf)
    (new_width new_height old_width old_height : Int)
    (how : 0 < old_width) (hoh : 0 < old_height)
    (hold : (old.length : Int) = old_width * old_height * 4)
    (hnw : 0 ≤ new_width) (hnh : 0 ≤ new_height)
    (hnew : (new_buffer.length : Int) = new_width * new_height * 4) :
    ∃ out, imagedisplay_init_buffer new_buffer new_width new_height (some old)
        old_width old_height = some out ∧
      out.length = new_buffer.length ∧
      (∀ x y : Int, 0 ≤ x → x < new_width → 0 ≤ y → y < new_height →
        ∃ px, load out (4 * (y * new_width + x)) 4 = some px ∧
          load old (4 * ((y % old_height) * old_width + x % old_width)) 4 = some px) ∧
      (∀ X : List Nat,
        (∀ x y : Int, 0 ≤ x → x < old_width → 0 ≤ y → y < old_height →
          load old (4 * (y * old_width + x)) 4 = some X) →
        ∀ x y : Int, 0 ≤ x → x < new_width → 0 ≤ y → y < new_height →
          load out (4 * (y * new_width + x)) 4 = some X) := by
  have hlen0 : 4 * ((0 + ((new_height.toNat : Nat) : Int)) * new_width)
      ≤ (new_buffer.length : Int) := by
    have : ((new_height.toNat : Nat) : Int) = new_height := by omega
    rw [this, hnew]
    have : (0 + new_height) * new_width = new_width * new_height := by ring
    omega
  obtain ⟨out, hout, houtlen, -, hpix⟩ :=
    init_buffer_rows_spec new_width old old_width old_height how hoh hnw hold
      new_height.toNat 0 new_buffer (le_refl 0) hlen0
  have key : ∀ x y : Int, 0 ≤ x → x < new_width → 0 ≤ y → y < new_height →
      ∃ px, load out (4 * (y * new_width + x)) 4 = some px ∧
        load old (4 * ((y % old_height) * old_width + x % old_width)) 4 = some px := by
    intro x y hx0 hx1 hy0 hy1
    have hyn : 0 ≤ y * new_width := Int.mul_nonneg hy0 hnw
    obtain ⟨hs0, hs1⟩ := tmod_row_bounds old_width old_height y how hoh hy0
    have htm : Int.tmod y old_height = y % old_height :=
      Int.tmod_eq_emod hy0 (by omega)
    rw [htm] at hs0 hs1
    have hx2 : 0 ≤ x % old_width := Int.emod_nonneg _ (by omega)
    have hx3 : x % old_width < old_width := Int.emod_lt_of_pos _ how
    apply load4_congr
    · omega
    · omega
    · omega
    · intro c hc0 hc1
      have := hpix y x c hy0 (by omega) hx0 hx1 hc0 hc1
      rw [pixel_mod x old_width c how hc0 hc1, htm] at this
      rw [this]
      congr 2
      ring
  refine ⟨out, hout, houtlen, key, ?_⟩
  intro X hX x y hx0 hx1 hy0 hy1
  obtain ⟨px, h1, h2⟩ := key x y hx0 hx1 hy0 hy1
  have := hX (x % old_width) (y % old_height) (Int.emod_nonneg _ (by omega))
    (Int.emod_lt_of_pos _ how) (Int.emod_nonneg _ (by omega)) (Int.emod_lt_of_pos _ hoh)
  rw [h2] at this
  rw [h1, this]

theorem load_replicate (n : Nat) (v : Nat) (off : Int) (k : Nat) (h0 : 0 ≤ off)
    (h1 : off + k ≤ n) : load (List.replicate n v) off k = some (List.replicate k v) := by
  rw [load_eq_some h0 (by rw [List.length_replicate]; exact h1)]
  congr 1
  rw [List.drop_replicate, List.take_replicate]
  congr 1
  omega

theorem imagedisplay_init_buffer_tiles_50x30_80x30 :
    ∃ out, imagedisplay_init_buffer (List.replicate 9600 0) 80 30
        (some (List.replicate 6000 77)) 50 30 = some out ∧
      out.length = 9600 ∧
      ∀ x y : Int, 0 ≤ x → x < 80 → 0 ≤ y → y < 30 →
        load out (4 * (y * 80 + x)) 4 = some [77, 77, 77, 77] := by
  obtain ⟨out, h1, h2, -, h4⟩ :=
    imagedisplay_init_buffer_tiles (List.replicate 9600 0) (List.replicate 6000 77)
      80 30 50 30 (by decide) (by decide) (by rw [List.length_replicate]; rfl) (by decide)
      (by decide) (by rw [List.length_replicate]; rfl)
  refine ⟨out, h1, by rw [h2, List.length_replicate], ?_⟩
  apply h4
  intro x y hx0 hx1 hy0 hy1
  exact load_replicate 6000 77 _ 4 (by omega) (by omega)

/-! ## Scroll ranges -/

theorem VIPS_MAX_rat (a b : ℚ) : VIPS_MAX a b = max a b := by
  unfold VIPS_MAX
  split
  · rename_i h
    exact (max_eq_left (le_of_lt h)).symm
  · rename_i h
    exact (max_eq_right (not_lt.mp h)).symm

theorem VIPS_MIN_rat (a b : ℚ) : VIPS_MIN a b = min a b := by
  unfold VIPS_MIN
  split
  · rename_i h
    exact (min_eq_left (le_of_lt h)).symm
  · rename_i h
    exact (min_eq_right (not_lt.mp h)).symm

theorem VIPS_CLIP_rat (a v b : ℚ) : VIPS_CLIP a v b = max a (min b v) := by
  unfold VIPS_CLIP
  rw [VIPS_MIN_rat, VIPS_MAX_rat]

/-- What imagedisplay_set_adjustment_values leaves in one adjustment. -/
theorem set_adjustment_values_spec (a : GtkAdjustment) (axis_size window_size : Int) :
    (imagedisplay_set_adjustment_values a axis_size window_size).adjustment =
      { value := max 0 (min a.value (max (axis_size : ℚ) window_size - window_size)),
        lower := 0,
        upper := max (axis_size : ℚ) window_size,
        page_size := window_size,
        step_increment := (window_size : ℚ) * (1 / 10),
        page_increment := (window_size : ℚ) * (9 / 10) } ∧
    ((imagedisplay_set_adjustment_values a axis_size window_size).set_value_called = true ↔
      (a.value < 0 ∨ max (axis_size : ℚ) window_size - window_size < a.value)) ∧
    ((imagedisplay_set_adjustment_values a axis_size window_size).value_changed =
      (imagedisplay_set_adjustment_values a axis_size window_size).set_value_called) := by
  have hU : (0 : ℚ) ≤ max (axis_size : ℚ) window_size - window_size :=
    sub_nonneg.mpr (le_max_right _ _)
  unfold imagedisplay_set_adjustment_values gtk_adjustment_set_value
  simp only [VIPS_CLIP_rat, VIPS_MAX_rat]
  generalize max (axis_size : ℚ) window_size - window_size = R at hU
  by_cases hin : max 0 (min R a.value) = a.value
  · rw [if_neg (not_not.mpr hin)]
    have h0 : 0 ≤ a.value := by rw [← hin]; exact le_max_left _ _
    have h1 : a.value ≤ R := by
      rcases le_total R a.value with h | h
      · rw [min_eq_left h, max_eq_right hU] at hin
        exact le_of_eq hin.symm
      · exact h
    refine ⟨?_, ?_, rfl⟩
    · rw [min_eq_left h1, max_eq_right h0]
    · constructor
      · intro h
        cases h
      · rintro (h | h)
        · exact absurd h (not_lt.mpr h0)
        · exact absurd h (not_lt.mpr h1)
  · rw [if_pos hin]
    have hout : a.value < 0 ∨ R < a.value := by
      by_contra hc
      push_neg at hc
      exact hin (by rw [min_eq_right hc.2, max_eq_right hc.1])
    have hc0 : (0 : ℚ) ≤ max 0 (min R a.value) := le_max_left _ _
    have hc1 : max 0 (min R a.value) ≤ R := max_le hU (min_le_left _ _)
    rw [min_eq_left hc1, max_eq_left hc0, if_pos (Ne.symm hin)]
    refine ⟨?_, ?_, rfl⟩
    · rw [min_comm]
    · exact ⟨fun _ => hout, fun _ => rfl⟩

/-- The range left in an adjustment by imagedisplay_set_adjustment_values. -/
theorem set_adjustment_values_range (a : GtkAdjustment) (axis_size window_size : Int) :
    (imagedisplay_set_adjustment_values a axis_size window_size).adjustment.lower = 0 ∧
    (imagedisplay_set_adjustment_values a axis_size window_size).adjustment.page_size
      = window_size ∧
    (imagedisplay_set_adjustment_values a axis_size window_size).adjustment.upper
      = max (axis_size : ℚ) window_size ∧
    0 ≤ (imagedisplay_set_adjustment_values a axis_size window_size).adjustment.value ∧
    (imagedisplay_set_adjustment_values a axis_size window_size).adjustment.value
      ≤ max (axis_size : ℚ) window_size - window_size := by
  have hU : (0 : ℚ) ≤ max (axis_size : ℚ) window_size - window_size :=
    sub_nonneg.mpr (le_max_right _ _)
  rw [(set_adjustment_values_spec a axis_size window_size).1]
  exact ⟨rfl, rfl, rfl, le_max_left _ _, max_le hU (min_le_right _ _)⟩

/-- C4: imagedisplay_set_adjustment_values leaves the value at
max(0, min(v, upper - page_size)), which lies in [0, upper - page_size];
gtk_adjustment_set_value is called exactly when the old value v lies outside
that range, and otherwise the value is unchanged and no "value-changed" is
emitted. -/
theorem imagedisplay_set_adjustment_values_clamps (a : GtkAdjustment)
    (axis_size window_size : Int) :
    (imagedisplay_set_adjustment_values a axis_size window_size).adjustment.page_size
      = window_size ∧
    (imagedisplay_set_adjustment_values a axis_size window_size).adjustment.upper
      = max (axis_size : ℚ) window_size ∧
    (imagedisplay_set_adjustment_values a axis_size window_size).adjustment.value
      = max 0 (min a.value
          ((imagedisplay_set_adjustment_values a axis_size window_size).adjustment.upper -
           (imagedisplay_set_adjustment_values a axis_size window_size).adjustment.page_size)) ∧
    0 ≤ (imagedisplay_set_adjustment_values a axis_size window_size).adjustment.value ∧
    (imagedisplay_set_adjustment_values a axis_size window_size).adjustment.value
      ≤ (imagedisplay_set_adjustment_values a axis_size window_size).adjustment.upper -
        (imagedisplay_set_adjustment_values a axis_size window_size).adjustment.page_size ∧
    ((imagedisplay_set_adjustment_values a axis_size window_size).set_value_called = true ↔
      (a.value < 0 ∨
        (imagedisplay_set_adjustment_values a axis_size window_size).adjustment.upper -
        (imagedisplay_set_adjustment_values a axis_size window_size).adjustment.page_size
          < a.value)) ∧
    ((imagedisplay_set_adjustment_values a axis_size window_size).set_value_called = false →
      (imagedisplay_set_adjustment_values a axis_size window_size).adjustment.value = a.value ∧
      (imagedisplay_set_adjustment_values a axis_size window_size).value_changed = false) := by
  obtain ⟨hadj, hcalled, hchanged⟩ := set_adjustment_values_spec a axis_size window_size
  obtain ⟨-, hps, hup, hv0, hv1⟩ := set_adjustment_values_range a axis_size window_size
  have hval : (imagedisplay_set_adjustment_values a axis_size window_size).adjustment.value
      = max 0 (min a.value (max (axis_size : ℚ) window_size - window_size)) := by
    rw [hadj]
  rw [hps, hup]
  refine ⟨rfl, rfl, hval, hv0, hv1, hcalled, ?_⟩
  intro hnot
  have hin : ¬ (a.value < 0 ∨ max (axis_size : ℚ) window_size - window_size < a.value) := by
    intro h
    rw [hcalled.mpr h] at hnot
    cases hnot
  push_neg at hin
  refine ⟨?_, by rw [hchanged, hnot]⟩
  rw [hval, min_eq_left hin.2, max_eq_right hin.1]

/-- A block whose bytes from `off` on are those of `bs` loads `bs` there. -/
theorem load_eq_of_getElem? (buf : Buf) (off : Int) (bs : List Nat) (h0 : 0 ≤ off)
    (hl : off + bs.length ≤ buf.length)
    (h : ∀ k : Nat, k < bs.length → buf[off.toNat + k]? = bs[k]?) :
    load buf off bs.length = some bs := by
  rw [load_eq_some h0 hl]
  congr 1
  apply List.ext_getElem?
  intro k
  by_cases hk : k < bs.length
  · rw [List.getElem?_take, if_pos hk, List.getElem?_drop, h k hk]
  · rw [List.getElem?_take, if_neg hk]
    exact (List.getElem?_eq_none_iff.mpr (by omega)).symm

/-- Loading depends only on the bytes in the range. -/
theorem load_congr (a b : Buf) (off : Int) (n : Nat) (hlen : a.length = b.length)
    (h : ∀ i : Nat, off ≤ (i : Int) → (i : Int) < off + n → a[i]? = b[i]?) :
    load a off n = load b off n := by
  unfold load
  rw [hlen]
  split
  · rename_i hb
    congr 1
    apply List.ext_getElem?
    intro k
    by_cases hk : k < n
    · rw [List.getElem?_take, if_pos hk, List.getElem?_drop,
        List.getElem?_take, if_pos hk, List.getElem?_drop]
      exact h _ (by omega) (by omega)
    · rw [List.getElem?_take, if_neg hk, List.getElem?_take, if_neg hk]
  · rfl

theorem load_store_same (buf : Buf) (off : Int) (bs : List Nat) (out : Buf)
    (h : store buf off bs = some out) : load out off bs.length = some bs := by
  obtain ⟨h0, h1, -⟩ := store_some_iff.mp h
  apply load_eq_of_getElem? out off bs h0 (by rw [store_length h]; exact h1)
  intro k hk
  rw [store_getElem? h, if_pos (by omega)]
  congr 1
  omega

theorem list_length_four (bs : List Nat) (h : bs.length = 4) :
    ∃ a b c d, bs = [a, b, c, d] := by
  match bs, h with
  | [a, b, c, d], _ => exact ⟨a, b, c, d, rfl⟩

theorem list_length_three (bs : List Nat) (h : bs.length = 3) :
    ∃ a b c, bs = [a, b, c] := by
  match bs, h with
  | [a, b, c], _ => exact ⟨a, b, c, rfl⟩

/-- One row of imagedisplay_rgba_to_cairo: it returns, touches only the `4 * n`
bytes from `q` on, and pixel `k` of the row is the converted source pixel. -/
theorem rgba_to_cairo_row_spec (vips : Buf) :
    ∀ (n : Nat) (p q : Int) (cairo : Buf), 0 ≤ p → p + 4 * n ≤ vips.length →
      0 ≤ q → q + 4 * n ≤ cairo.length →
      ∃ out, imagedisplay_rgba_to_cairo_row vips n p q cairo = some out ∧
        out.length = cairo.length ∧
        (∀ i : Nat, ¬ (q ≤ (i : Int) ∧ (i : Int) < q + 4 * n) → out[i]? = cairo[i]?) ∧
        ∀ k : Nat, k < n → ∀ p0 p1 p2 p3 : Nat,
          load vips (p + 4 * k) 4 = some [p0, p1, p2, p3] →
          load out (q + 4 * k) 4 =
            some [to_uchar (Int.tdiv ((p2 : Int) * p3) 255),
                  to_uchar (Int.tdiv ((p1 : Int) * p3) 255),
                  to_uchar (Int.tdiv ((p0 : Int) * p3) 255), to_uchar (p3 : Int)] := by
  intro n
  induction n with
  | zero =>
    intro p q cairo _ _ _ _
    refine ⟨cairo, rfl, rfl, fun _ _ => rfl, ?_⟩
    intro k hk
    exact absurd hk (Nat.not_lt_zero k)
  | succ n ih =>
    intro p q cairo hp0 hp1 hq0 hq1
    push_cast at hp1 hq1
    have hl : load vips p 4 = some ((vips.drop p.toNat).take 4) :=
      load_eq_some hp0 (by push_cast; omega)
    obtain ⟨a0, a1, a2, a3, ha⟩ := list_length_four _ (load_length hl)
    rw [ha] at hl
    have hst : ∃ c1, store cairo q
        [to_uchar (Int.tdiv ((a2 : Int) * a3) 255), to_uchar (Int.tdiv ((a1 : Int) * a3) 255),
         to_uchar (Int.tdiv ((a0 : Int) * a3) 255), to_uchar (a3 : Int)] = some c1 :=
      ⟨_, store_some_iff.mpr ⟨hq0, by simp only [List.length_cons, List.length_nil]; omega, rfl⟩⟩
    obtain ⟨c1, hc1⟩ := hst
    have hc1len := store_length hc1
    obtain ⟨out, hout, houtlen, hframe, hpix⟩ :=
      ih (p + 4) (q + 4) c1 (by omega) (by omega) (by omega) (by omega)
    refine ⟨out, ?_, by omega, ?_, ?_⟩
    · rw [imagedisplay_rgba_to_cairo_row, hl]
      simp only [hc1]
      exact hout
    · intro i hi
      push_cast at hi
      rw [hframe i (by omega), store_getElem? hc1 i, if_neg]
      simp only [List.length_cons, List.length_nil]
      omega
    · intro k hk p0 p1 p2 p3 hsrc
      cases k with
      | zero =>
        simp only [Nat.cast_zero, mul_zero, add_zero] at hsrc ⊢
        rw [hl] at hsrc
        injection hsrc with hsrc
        injection hsrc with e0 hsrc
        injection hsrc with e1 hsrc
        injection hsrc with e2 hsrc
        injection hsrc with e3 _
        subst e0 e1 e2 e3
        have := load_store_same cairo q _ c1 hc1
        simp only [List.length_cons, List.length_nil] at this
        rw [← this]
        apply load_congr _ _ _ _ (by omega)
        intro i hi0 hi1
        exact hframe i (by omega)
      | succ k =>
        have e1 : p + 4 * ((k + 1 : Nat) : Int) = p + 4 + 4 * (k : Int) := by
          push_cast; ring
        have e2 : q + 4 * ((k + 1 : Nat) : Int) = q + 4 + 4 * (k : Int) := by
          push_cast; ring
        rw [e1] at hsrc
        rw [e2]
        exact hpix k (by omega) p0 p1 p2 p3 hsrc

/-- The rows of imagedisplay_rgba_to_cairo from row `y` on: the loop returns,
touches only the bytes of the rows it converts, and every pixel of those
rows is the converted source pixel. -/
theorem rgba_to_cairo_rows_spec (vips : Buf) (vips_start cairo_start : Int)
    (width cairo_stride vips_stride : Int)
    (hw : 0 ≤ width) (hcs : 4 * width ≤ cairo_stride) (hvs : 0 ≤ vips_stride)
    (hc0 : 0 ≤ cairo_start) (hv0 : 0 ≤ vips_start) :
    ∀ (rows : Nat) (y : Int) (cairo : Buf), 0 ≤ y →
      (∀ y1 : Int, y ≤ y1 → y1 < y + rows →
        cairo_start + y1 * cairo_stride + 4 * width ≤ cairo.length) →
      (∀ y1 : Int, y ≤ y1 → y1 < y + rows →
        vips_start + y1 * vips_stride + 4 * width ≤ vips.length) →
      ∃ out, imagedisplay_rgba_to_cairo_rows vips vips_start cairo_start
          width cairo_stride vips_stride rows y cairo = some out ∧
        out.length = cairo.length ∧
        (∀ i : Nat, (∀ y1 : Int, y ≤ y1 → y1 < y + rows →
            ¬ (cairo_start + y1 * cairo_stride ≤ (i : Int) ∧
              (i : Int) < cairo_start + y1 * cairo_stride + 4 * width)) →
          out[i]? = cairo[i]?) ∧
        ∀ y1 x1 : Int, y ≤ y1 → y1 < y + rows → 0 ≤ x1 → x1 < width →
          ∀ p0 p1 p2 p3 : Nat,
          load vips (vips_start + y1 * vips_stride + 4 * x1) 4 = some [p0, p1, p2, p3] →
          load out (cairo_start + y1 * cairo_stride + 4 * x1) 4 =
            some [to_uchar (Int.tdiv ((p2 : Int) * p3) 255),
                  to_uchar (Int.tdiv ((p1 : Int) * p3) 255),
                  to_uchar (Int.tdiv ((p0 : Int) * p3) 255), to_uchar (p3 : Int)] := by
  intro rows
  induction rows with
  | zero =>
    intro y cairo _ _ _
    refine ⟨cairo, rfl, rfl, fun _ _ => rfl, ?_⟩
    intro y1 x1 h1 h2
    exact absurd h2 (by simp only [Nat.cast_zero]; omega)
  | succ rows ih =>
    intro y cairo hy hcl hvl
    have hyc : 0 ≤ y * cairo_stride := Int.mul_nonneg hy (by omega)
    have hyv : 0 ≤ y * vips_stride := Int.mul_nonneg hy hvs
    have hwn : ((width.toNat : Nat) : Int) = width := by omega
    have hcy := hcl y (le_refl y) (by push_cast; omega)
    have hvy := hvl y (le_refl y) (by push_cast; omega)
    obtain ⟨b1, hb1, hb1len, hb1frame, hb1pix⟩ :=
      rgba_to_cairo_row_spec vips width.toNat (vips_start + y * vips_stride)
        (cairo_start + y * cairo_stride) cairo (by omega) (by omega) (by omega) (by omega)
    have hnext : ∀ y1 : Int, y + 1 ≤ y1 → (y + 1) * cairo_stride ≤ y1 * cairo_stride :=
      fun y1 h => Int.mul_le_mul_of_nonneg_right h (by omega)
    have e1 : (y + 1) * cairo_stride = y * cairo_stride + cairo_stride := by ring
    obtain ⟨out, hout, houtlen, hframe, hpix⟩ := ih (y + 1) b1 (by omega)
      (fun y1 h1 h2 => by rw [hb1len]; exact hcl y1 (by omega) (by push_cast; omega))
      (fun y1 h1 h2 => hvl y1 (by omega) (by push_cast; omega))
    refine ⟨out, ?_, by omega, ?_, ?_⟩
    · rw [imagedisplay_rgba_to_cairo_rows, hb1]
      exact hout
    · intro i hi
      rw [hframe i (fun y1 h1 h2 => hi y1 (by omega) (by push_cast; omega))]
      apply hb1frame i
      have := hi y (le_refl y) (by push_cast; omega)
      omega
    · intro y1 x1 h1 h2 hx0 hx1 p0 p1 p2 p3 hsrc
      by_cases hy1 : y1 = y
      · subst hy1
        have hk := hb1pix x1.toNat (by omega) p0 p1 p2 p3
          (by
            have : ((x1.toNat : Nat) : Int) = x1 := by omega
            rw [this]; exact hsrc)
        have hx : ((x1.toNat : Nat) : Int) = x1 := by omega
        rw [hx] at hk
        rw [← hk]
        apply load_congr _ _ _ _ (by omega)
        intro i hi0 hi1
        apply hframe i
        intro y2 h3 h4
        have := hnext y2 h3
        omega
      · exact hpix y1 x1 (by omega) (by push_cast at h2; omega) hx0 hx1 p0 p1 p2 p3 hsrc

theorem to_uchar_byte (a : Nat) (ha : a ≤ 255) : to_uchar (a : Int) = a := by
  unfold to_uchar
  omega

theorem to_uchar_premultiplied (b a : Nat) (hb : b ≤ 255) (ha : a ≤ 255) :
    to_uchar (Int.tdiv ((b : Int) * a) 255) = b * a / 255 := by
  have hm : b * a ≤ 255 * 255 := Nat.mul_le_mul hb ha
  have e : (b : Int) * (a : Int) = ((b * a : Nat) : Int) := by push_cast; rfl
  rw [e, Int.tdiv_eq_ediv (by omega) (by omega)]
  unfold to_uchar
  omega

/-- C6: for a width x height rectangle that lies inside both blocks (destination
rows not overlapping), imagedisplay_rgba_to_cairo returns, and for every pixel
of the rectangle whose source bytes are (r, g, b, a), each in 0..255, the four
output bytes are (b*a/255, g*a/255, r*a/255, a) with truncating division. -/
theorem imagedisplay_rgba_to_cairo_premultiplies (cairo vips : Buf)
    (cairo_start vips_start width height cairo_stride vips_stride : Int)
    (hw : 0 ≤ width) (hcs : 4 * width ≤ cairo_stride) (hvs : 0 ≤ vips_stride)
    (hc0 : 0 ≤ cairo_start) (hv0 : 0 ≤ vips_start)
    (hcl : ∀ y : Int, 0 ≤ y → y < height →
      cairo_start + y * cairo_stride + 4 * width ≤ cairo.length)
    (hvl : ∀ y : Int, 0 ≤ y → y < height →
      vips_start + y * vips_stride + 4 * width ≤ vips.length) :
    ∃ out, imagedisplay_rgba_to_cairo cairo cairo_start vips vips_start
        width height cairo_stride vips_stride = some out ∧
      out.length = cairo.length ∧
      ∀ x y : Int, 0 ≤ x → x < width → 0 ≤ y → y < height →
        ∀ r g b a : Nat, r ≤ 255 → g ≤ 255 → b ≤ 255 → a ≤ 255 →
        load vips (vips_start + y * vips_stride + 4 * x) 4 = some [r, g, b, a] →
        load out (cairo_start + y * cairo_stride + 4 * x) 4 =
          some [b * a / 255, g * a / 255, r * a / 255, a] := by
  obtain ⟨out, hout, houtlen, -, hpix⟩ :=
    rgba_to_cairo_rows_spec vips vips_start cairo_start width cairo_stride vips_stride
      hw hcs hvs hc0 hv0 height.toNat 0 cairo (le_refl 0)
      (fun y1 h1 h2 => hcl y1 h1 (by omega)) (fun y1 h1 h2 => hvl y1 h1 (by omega))
  refine ⟨out, hout, houtlen, ?_⟩
  intro x y hx0 hx1 hy0 hy1 r g b a hr hg hb ha hsrc
  rw [hpix y x hy0 (by omega) hx0 hx1 r g b a hsrc,
    to_uchar_premultiplied b a hb ha, to_uchar_premultiplied g a hg ha,
    to_uchar_premultiplied r a hr ha, to_uchar_byte a ha]

theorem imagedisplay_rgba_to_cairo_premultiplies_boundary :
    ∃ out, imagedisplay_rgba_to_cairo (List.replicate 16 0) 0
        [255, 255, 255, 0, 255, 255, 255, 1, 255, 255, 255, 254, 255, 255, 255, 255] 0
        4 1 16 16 = some out ∧
      load out 0 4 = some [0, 0, 0, 0] ∧ load out 4 4 = some [1, 1, 1, 1] ∧
      load out 8 4 = some [254, 254, 254, 254] ∧
      load out 12 4 = some [255, 255, 255, 255] := by
  obtain ⟨out, h, -, hp⟩ := imagedisplay_rgba_to_cairo_premultiplies (List.replicate 16 0)
    [255, 255, 255, 0, 255, 255, 255, 1, 255, 255, 255, 254, 255, 255, 255, 255]
    0 0 4 1 16 16 (by decide) (by decide) (by decide) (by decide) (by decide)
    (by intro y h0 h1; have : y = 0 := by omega
        subst this; decide)
    (by intro y h0 h1; have : y = 0 := by omega
        subst this; decide)
  refine ⟨out, h, ?_, ?_, ?_, ?_⟩
  · exact hp 0 0 (by decide) (by decide) (by decide) (by decide) 255 255 255 0
      (by decide) (by decide) (by decide) (by decide) (by decide)
  · exact hp 1 0 (by decide) (by decide) (by decide) (by decide) 255 255 255 1
      (by decide) (by decide) (by decide) (by decide) (by decide)
  · exact hp 2 0 (by decide) (by decide) (by decide) (by decide) 255 255 255 254
      (by decide) (by decide) (by decide) (by decide) (by decide)
  · exact hp 3 0 (by decide) (by decide) (by decide) (by decide) 255 255 255 255
      (by decide) (by decide) (by decide) (by decide) (by decide)

/-- One row of imagedisplay_rgb_to_cairo: it returns, touches only the `4 * n`
bytes from `q` on, and pixel `k` of the row is the reordered source pixel with
alpha 255. -/
theorem rgb_to_cairo_row_spec (vips : Buf) :
    ∀ (n : Nat) (p q : Int) (cairo : Buf), 0 ≤ p → p + 3 * n ≤ vips.length →
      0 ≤ q → q + 4 * n ≤ cairo.length →
      ∃ out, imagedisplay_rgb_to_cairo_row vips n p q cairo = some out ∧
        out.length = cairo.length ∧
        (∀ i : Nat, ¬ (q ≤ (i : Int) ∧ (i : Int) < q + 4 * n) → out[i]? = cairo[i]?) ∧
        ∀ k : Nat, k < n → ∀ p0 p1 p2 : Nat,
          load vips (p + 3 * k) 3 = some [p0, p1, p2] →
          load out (q + 4 * k) 4 =
            some [to_uchar (p2 : Int), to_uchar (p1 : Int), to_uchar (p0 : Int),
                  to_uchar 255] := by
  intro n
  induction n with
  | zero =>
    intro p q cairo _ _ _ _
    refine ⟨cairo, rfl, rfl, fun _ _ => rfl, ?_⟩
    intro k hk
    exact absurd hk (Nat.not_lt_zero k)
  | succ n ih =>
    intro p q cairo hp0 hp1 hq0 hq1
    push_cast at hp1 hq1
    have hl : load vips p 3 = some ((vips.drop p.toNat).take 3) :=
      load_eq_some hp0 (by push_cast; omega)
    obtain ⟨a0, a1, a2, ha⟩ := list_length_three _ (load_length hl)
    rw [ha] at hl
    have hst : ∃ c1, store cairo q
        [to_uchar (a2 : Int), to_uchar (a1 : Int), to_uchar (a0 : Int), to_uchar 255]
          = some c1 :=
      ⟨_, store_some_iff.mpr ⟨hq0, by simp only [List.length_cons, List.length_nil]; omega, rfl⟩⟩
    obtain ⟨c1, hc1⟩ := hst
    have hc1len := store_length hc1
    obtain ⟨out, hout, houtlen, hframe, hpix⟩ :=
      ih (p + 3) (q + 4) c1 (by omega) (by omega) (by omega) (by omega)
    refine ⟨out, ?_, by omega, ?_, ?_⟩
    · rw [imagedisplay_rgb_to_cairo_row, hl]
      simp only [hc1]
      exact hout
    · intro i hi
      push_cast at hi
      rw [hframe i (by omega), store_getElem? hc1 i, if_neg]
      simp only [List.length_cons, List.length_nil]
      omega
    · intro k hk p0 p1 p2 hsrc
      cases k with
      | zero =>
        simp only [Nat.cast_zero, mul_zero, add_zero] at hsrc ⊢
        rw [hl] at hsrc
        injection hsrc with hsrc
        injection hsrc with e0 hsrc
        injection hsrc with e1 hsrc
        injection hsrc with e2 _
        subst e0 e1 e2
        have := load_store_same cairo q _ c1 hc1
        simp only [List.length_cons, List.length_nil] at this
        rw [← this]
        apply load_congr _ _ _ _ (by omega)
        intro i hi0 hi1
        exact hframe i (by omega)
      | succ k =>
        have e1 : p + 3 * ((k + 1 : Nat) : Int) = p + 3 + 3 * (k : Int) := by
          push_cast; ring
        have e2 : q + 4 * ((k + 1 : Nat) : Int) = q + 4 + 4 * (k : Int) := by
          push_cast; ring
        rw [e1] at hsrc
        rw [e2]
        exact hpix k (by omega) p0 p1 p2 hsrc

/-- The rows of imagedisplay_rgb_to_cairo from row `y` on. -/
theorem rgb_to_cairo_rows_spec (vips : Buf) (vips_start cairo_start : Int)
    (width cairo_stride vips_stride : Int)
    (hw : 0 ≤ width) (hcs : 4 * width ≤ cairo_stride) (hvs : 0 ≤ vips_stride)
    (hc0 : 0 ≤ cairo_start) (hv0 : 0 ≤ vips_start) :
    ∀ (rows : Nat) (y : Int) (cairo : Buf), 0 ≤ y →
      (∀ y1 : Int, y ≤ y1 → y1 < y + rows →
        cairo_start + y1 * cairo_stride + 4 * width ≤ cairo.length) →
      (∀ y1 : Int, y ≤ y1 → y1 < y + rows →
        vips_start + y1 * vips_stride + 3 * width ≤ vips.length) →
      ∃ out, imagedisplay_rgb_to_cairo_rows vips vips_start cairo_start
          width cairo_stride vips_stride rows y cairo = some out ∧
        out.length = cairo.length ∧
        (∀ i : Nat, (∀ y1 : Int, y ≤ y1 → y1 < y + rows →
            ¬ (cairo_start + y1 * cairo_stride ≤ (i : Int) ∧
              (i : Int) < cairo_start + y1 * cairo_stride + 4 * width)) →
          out[i]? = cairo[i]?) ∧
        ∀ y1 x1 : Int, y ≤ y1 → y1 < y + rows → 0 ≤ x1 → x1 < width →
          ∀ p0 p1 p2 : Nat,
          load vips (vips_start + y1 * vips_stride + 3 * x1) 3 = some [p0, p1, p2] →
          load out (cairo_start + y1 * cairo_stride + 4 * x1) 4 =
            some [to_uchar (p2 : Int), to_uchar (p1 : Int), to_uchar (p0 : Int),
                  to_uchar 255] := by
  intro rows
  induction rows with
  | zero =>
    intro y cairo _ _ _
    refine ⟨cairo, rfl, rfl, fun _ _ => rfl, ?_⟩
    intro y1 x1 h1 h2
    exact absurd h2 (by simp only [Nat.cast_zero]; omega)
  | succ rows ih =>
    intro y cairo hy hcl hvl
    have hyc : 0 ≤ y * cairo_stride := Int.mul_nonneg hy (by omega)
    have hyv : 0 ≤ y * vips_stride := Int.mul_nonneg hy hvs
    have hwn : ((width.toNat : Nat) : Int) = width := by omega
    have hcy := hcl y (le_refl y) (by push_cast; omega)
    have hvy := hvl y (le_refl y) (by push_cast; omega)
    obtain ⟨b1, hb1, hb1len, hb1frame, hb1pix⟩ :=
      rgb_to_cairo_row_spec vips width.toNat (vips_start + y * vips_stride)
        (cairo_start + y * cairo_stride) cairo (by omega) (by omega) (by omega) (by omega)
    have hnext : ∀ y1 : Int, y + 1 ≤ y1 → (y + 1) * cairo_stride ≤ y1 * cairo_stride :=
      fun y1 h => Int.mul_le_mul_of_nonneg_right h (by omega)
    have e1 : (y + 1) * cairo_stride = y * cairo_stride + cairo_stride := by ring
    obtain ⟨out, hout, houtlen, hframe, hpix⟩ := ih (y + 1) b1 (by omega)
      (fun y1 h1 h2 => by rw [hb1len]; exact hcl y1 (by omega) (by push_cast; omega))
      (fun y1 h1 h2 => hvl y1 (by omega) (by push_cast; omega))
    refine ⟨out, ?_, by omega, ?_, ?_⟩
    · rw [imagedisplay_rgb_to_cairo_rows, hb1]
      exact hout
    · intro i hi
      rw [hframe i (fun y1 h1 h2 => hi y1 (by omega) (by push_cast; omega))]
      apply hb1frame i
      have := hi y (le_refl y) (by push_cast; omega)
      omega
    · intro y1 x1 h1 h2 hx0 hx1 p0 p1 p2 hsrc
      by_cases hy1 : y1 = y
      · subst hy1
        have hx : ((x1.toNat : Nat) : Int) = x1 := by omega
        have hk := hb1pix x1.toNat (by omega) p0 p1 p2 (by rw [hx]; exact hsrc)
        rw [hx] at hk
        rw [← hk]
        apply load_congr _ _ _ _ (by omega)
        intro i hi0 hi1
        apply hframe i
        intro y2 h3 h4
        have := hnext y2 h3
        omega
      · exact hpix y1 x1 (by omega) (by push_cast at h2; omega) hx0 hx1 p0 p1 p2 hsrc

/-- C7: for a width x height rectangle that lies inside both blocks (destination
rows not overlapping), imagedisplay_rgb_to_cairo returns, and for every pixel
of the rectangle whose source bytes are (r, g, b) the four output bytes are
(b, g, r, 255): the channels are reordered and alpha is 255 whatever the
input. -/
theorem imagedisplay_rgb_to_cairo_opaque (cairo vips : Buf)
    (cairo_start vips_start width height cairo_stride vips_stride : Int)
    (hw : 0 ≤ width) (hcs : 4 * width ≤ cairo_stride) (hvs : 0 ≤ vips_stride)
    (hc0 : 0 ≤ cairo_start) (hv0 : 0 ≤ vips_start)
    (hcl : ∀ y : Int, 0 ≤ y → y < height →
      cairo_start + y * cairo_stride + 4 * width ≤ cairo.length)
    (hvl : ∀ y : Int, 0 ≤ y → y < height →
      vips_start + y * vips_stride + 3 * width ≤ vips.length) :
    ∃ out, imagedisplay_rgb_to_cairo cairo cairo_start vips vips_start
        width height cairo_stride vips_stride = some out ∧
      out.length = cairo.length ∧
      ∀ x y : Int, 0 ≤ x → x < width → 0 ≤ y → y < height →
        ∀ r g b : Nat, r ≤ 255 → g ≤ 255 → b ≤ 255 →
        load vips (vips_start + y * vips_stride + 3 * x) 3 = some [r, g, b] →
        load out (cairo_start + y * cairo_stride + 4 * x) 4 = some [b, g, r, 255] := by
  obtain ⟨out, hout, houtlen, -, hpix⟩ :=
    rgb_to_cairo_rows_spec vips vips_start cairo_start width cairo_stride vips_stride
      hw hcs hvs hc0 hv0 height.toNat 0 cairo (le_refl 0)
      (fun y1 h1 h2 => hcl y1 h1 (by omega)) (fun y1 h1 h2 => hvl y1 h1 (by omega))
  refine ⟨out, hout, houtlen, ?_⟩
  intro x y hx0 hx1 hy0 hy1 r g b hr hg hb hsrc
  rw [hpix y x hy0 (by omega) hx0 hx1 r g b hsrc,
    to_uchar_byte b hb, to_uchar_byte g hg, to_uchar_byte r hr]
  rfl

theorem imagedisplay_rgb_to_cairo_opaque_2x2 :
    ∃ out, imagedisplay_rgb_to_cairo (List.replicate 16 0) 0
        [1, 2, 3, 4, 5, 6, 0, 0, 7, 8, 9, 10, 11, 12] 0 2 2 8 8 = some out ∧
      load out 0 4 = some [3, 2, 1, 255] ∧ load out 4 4 = some [6, 5, 4, 255] ∧
      load out 8 4 = some [9, 8, 7, 255] ∧ load out 12 4 = some [12, 11, 10, 255] := by
  obtain ⟨out, h, -, hp⟩ := imagedisplay_rgb_to_cairo_opaque (List.replicate 16 0)
    [1, 2, 3, 4, 5, 6, 0, 0, 7, 8, 9, 10, 11, 12]
    0 0 2 2 8 8 (by decide) (by decide) (by decide) (by decide) (by decide)
    (by intro y h0 h1
        have : y = 0 ∨ y = 1 := by omega
        rcases this with rfl | rfl <;> decide)
    (by intro y h0 h1
        have : y = 0 ∨ y = 1 := by omega
        rcases this with rfl | rfl <;> decide)
  refine ⟨out, h, ?_, ?_, ?_, ?_⟩
  · exact hp 0 0 (by decide) (by decide) (by decide) (by decide) 1 2 3
      (by decide) (by decide) (by decide) (by decide)
  · exact hp 1 0 (by decide) (by decide) (by decide) (by decide) 4 5 6
      (by decide) (by decide) (by decide) (by decide)
  · exact hp 0 1 (by decide) (by decide) (by decide) (by decide) 7 8 9
      (by decide) (by decide) (by decide) (by decide)
  · exact hp 1 1 (by decide) (by decide) (by decide) (by decide) 10 11 12
      (by decide) (by decide) (by decide) (by decide)

/-! ## Coordinate spaces -/

theorem intersectrect_fields (r1 r2 : VipsRect) :
    (vips_rect_intersectrect r1 r2).left = max r1.left r2.left ∧
    (vips_rect_intersectrect r1 r2).top = max r1.top r2.top ∧
    (vips_rect_intersectrect r1 r2).width =
      max 0 (min (r1.left + r1.width) (r2.left + r2.width) - max r1.left r2.left) ∧
    (vips_rect_intersectrect r1 r2).height =
      max 0 (min (r1.top + r1.height) (r2.top + r2.height) - max r1.top r2.top) := by
  unfold vips_rect_intersectrect VIPS_RECT_RIGHT VIPS_RECT_BOTTOM
  simp only [VIPS_MAX_int, VIPS_MIN_int]
  exact ⟨trivial, trivial, trivial, trivial⟩

theorem isempty_false_iff (r : VipsRect) :
    vips_rect_isempty r = false ↔ 0 < r.width ∧ 0 < r.height := by
  unfold vips_rect_isempty
  rw [Bool.or_eq_false_iff, decide_eq_false_iff_not, decide_eq_false_iff_not]
  omega

theorem isempty_true_iff (r : VipsRect) :
    vips_rect_isempty r = true ↔ r.width ≤ 0 ∨ r.height ≤ 0 := by
  unfold vips_rect_isempty
  rw [Bool.or_eq_true, decide_eq_true_iff, decide_eq_true_iff]

theorem includesrect_iff (r1 r2 : VipsRect) :
    vips_rect_includesrect r1 r2 = true ↔
      r1.left ≤ r2.left ∧ r1.top ≤ r2.top ∧
      r2.left + r2.width ≤ r1.left + r1.width ∧
      r2.top + r2.height ≤ r1.top + r1.height := by
  unfold vips_rect_includesrect
  simp only [Bool.and_eq_true, decide_eq_true_iff, ge_iff_le]
  tauto

theorem image_to_buffer_fields (d : Imagedisplay) (r : VipsRect) :
    (imagedisplay_image_to_buffer d r).left =
      max (r.left - d.left + d.paint_rect.left) d.paint_rect.left - d.paint_rect.left ∧
    (imagedisplay_image_to_buffer d r).top =
      max (r.top - d.top + d.paint_rect.top) d.paint_rect.top - d.paint_rect.top ∧
    (imagedisplay_image_to_buffer d r).width =
      max 0 (min (r.left - d.left + d.paint_rect.left + r.width)
        (d.paint_rect.left + d.paint_rect.width) -
        max (r.left - d.left + d.paint_rect.left) d.paint_rect.left) ∧
    (imagedisplay_image_to_buffer d r).height =
      max 0 (min (r.top - d.top + d.paint_rect.top + r.height)
        (d.paint_rect.top + d.paint_rect.height) -
        max (r.top - d.top + d.paint_rect.top) d.paint_rect.top) := by
  unfold imagedisplay_image_to_buffer imagedisplay_gtk_to_buffer imagedisplay_image_to_gtk
  simp only [intersectrect_fields]
  exact ⟨trivial, trivial, trivial, trivial⟩

theorem buffer_to_image_fields (d : Imagedisplay) (r : VipsRect) :
    (imagedisplay_buffer_to_image d r).left =
      max (r.left + d.paint_rect.left - d.paint_rect.left + d.left) d.image_rect.left ∧
    (imagedisplay_buffer_to_image d r).top =
      max (r.top + d.paint_rect.top - d.paint_rect.top + d.top) d.image_rect.top ∧
    (imagedisplay_buffer_to_image d r).width =
      max 0 (min (r.left + d.paint_rect.left - d.paint_rect.left + d.left + r.width)
        (d.image_rect.left + d.image_rect.width) -
        max (r.left + d.paint_rect.left - d.paint_rect.left + d.left) d.image_rect.left) ∧
    (imagedisplay_buffer_to_image d r).height =
      max 0 (min (r.top + d.paint_rect.top - d.paint_rect.top + d.top + r.height)
        (d.image_rect.top + d.image_rect.height) -
        max (r.top + d.paint_rect.top - d.paint_rect.top + d.top) d.image_rect.top) := by
  unfold imagedisplay_buffer_to_image imagedisplay_gtk_to_image imagedisplay_buffer_to_gtk
  simp only [intersectrect_fields]
  exact ⟨trivial, trivial, trivial, trivial⟩

/-- One axis of the round trip buffer -> image -> buffer: `l`, `w` are the start
and extent of the rectangle, `s` the scroll offset, `pl`, `pw` and `il`, `iw`
the start and extent of paint_rect and image_rect. -/
theorem round_trip_axis (l w s pl pw il iw bl bw tl tw : Int)
    (hbl : bl = max (l + pl - pl + s) il)
    (hbw : bw = max 0 (min (l + pl - pl + s + w) (il + iw) - max (l + pl - pl + s) il))
    (htl : tl = max (bl - s + pl) pl - pl)
    (htw : tw = max 0 (min (bl - s + pl + bw) (pl + pw) - max (bl - s + pl) pl)) :
    l ≤ tl ∧ tw ≤ max 0 w ∧ (0 < tw → tl + tw ≤ l + w) ∧
      (0 ≤ w → 0 ≤ l → il - s ≤ l + w → tl + tw ≤ l + w) := by
  subst htl htw
  have h1 : l + s ≤ bl := by omega
  have h2 : bw ≤ max 0 w := by omega
  have h3 : 0 < bw → bl + bw ≤ l + s + w := by omega
  have h4 : 0 ≤ bw := by omega
  have h5 : bl = max (l + s) il := by omega
  clear hbl hbw
  refine ⟨by omega, by omega, ?_, ?_⟩
  · intro h
    omega
  · intro hw hl hil
    omega

/-- C10: for a buffer-space rectangle r within the extent of paint_rect, the round
trip imagedisplay_image_to_buffer (imagedisplay_buffer_to_image r) is contained
in r: each of its pixels is a pixel of r, it is no wider and no taller than
r, when it is not empty vips_rect_includesrect holds, and so it does for
every r of non-negative size whose far edges reach the image origin as seen
from the buffer (always so for an image at (0, 0) and non-negative scroll
offsets). -/
theorem image_to_buffer_of_buffer_to_image_within (d : Imagedisplay) (r : VipsRect)
    (hr : vips_rect_includesrect ⟨0, 0, d.paint_rect.width, d.paint_rect.height⟩ r = true) :
    (∀ x y : Int,
      (imagedisplay_image_to_buffer d (imagedisplay_buffer_to_image d r)).has_pixel x y →
        r.has_pixel x y) ∧
    (imagedisplay_image_to_buffer d (imagedisplay_buffer_to_image d r)).width
      ≤ max 0 r.width ∧
    (imagedisplay_image_to_buffer d (imagedisplay_buffer_to_image d r)).height
      ≤ max 0 r.height ∧
    (vips_rect_isempty
        (imagedisplay_image_to_buffer d (imagedisplay_buffer_to_image d r)) = false →
      vips_rect_includesrect r
        (imagedisplay_image_to_buffer d (imagedisplay_buffer_to_image d r)) = true) ∧
    (0 ≤ r.width → 0 ≤ r.height →
      d.image_rect.left - d.left ≤ r.left + r.width →
      d.image_rect.top - d.top ≤ r.top + r.height →
      vips_rect_includesrect r
        (imagedisplay_image_to_buffer d (imagedisplay_buffer_to_image d r)) = true) := by
  obtain ⟨a1, a2, a3, a4⟩ := image_to_buffer_fields d (imagedisplay_buffer_to_image d r)
  obtain ⟨b1, b2, b3, b4⟩ := buffer_to_image_fields d r
  obtain ⟨x1, x2, x3, x4⟩ := round_trip_axis r.left r.width d.left d.paint_rect.left
    d.paint_rect.width d.image_rect.left d.image_rect.width _ _ _ _ b1 b3 a1 a3
  obtain ⟨y1, y2, y3, y4⟩ := round_trip_axis r.top r.height d.top d.paint_rect.top
    d.paint_rect.height d.image_rect.top d.image_rect.height _ _ _ _ b2 b4 a2 a4
  clear a1 a2 a3 a4 b1 b2 b3 b4
  rw [includesrect_iff] at hr
  simp only at hr
  refine ⟨?_, x2, y2, ?_, ?_⟩
  · intro x y h
    unfold VipsRect.has_pixel at h ⊢
    omega
  · intro h
    rw [isempty_false_iff] at h
    rw [includesrect_iff]
    omega
  · intro hw hh hx hy
    rw [includesrect_iff]
    have := x4 hw (by omega) hx
    have := y4 hh (by omega) hy
    omega

theorem image_to_buffer_of_buffer_to_image_within_example :
    vips_rect_includesrect ⟨0, 0, 50, 50⟩ ⟨0, 0, 50, 50⟩ = true ∧
    imagedisplay_image_to_buffer
      { imagedisplay_zeroed with
          image_rect := ⟨0, 0, 100, 100⟩, widget_rect := ⟨0, 0, 50, 50⟩,
          paint_rect := ⟨0, 0, 50, 50⟩, left := 60 }
      (imagedisplay_buffer_to_image
        { imagedisplay_zeroed with
          image_rect := ⟨0, 0, 100, 100⟩, widget_rect := ⟨0, 0, 50, 50⟩,
          paint_rect := ⟨0, 0, 50, 50⟩, left := 60 } ⟨0, 0, 50, 50⟩) = ⟨0, 0, 40, 50⟩ ∧
    vips_rect_includesrect ⟨0, 0, 50, 50⟩
      (imagedisplay_image_to_buffer
        { imagedisplay_zeroed with
          image_rect := ⟨0, 0, 100, 100⟩, widget_rect := ⟨0, 0, 50, 50⟩,
          paint_rect := ⟨0, 0, 50, 50⟩, left := 60 }
        (imagedisplay_buffer_to_image
          { imagedisplay_zeroed with
            image_rect := ⟨0, 0, 100, 100⟩, widget_rect := ⟨0, 0, 50, 50⟩,
            paint_rect := ⟨0, 0, 50, 50⟩, left := 60 } ⟨0, 0, 50, 50⟩)) = true :=
  ⟨by decide, by decide,
    (image_to_buffer_of_buffer_to_image_within
      { imagedisplay_zeroed with
          image_rect := ⟨0, 0, 100, 100⟩, widget_rect := ⟨0, 0, 50, 50⟩,
          paint_rect := ⟨0, 0, 50, 50⟩, left := 60 } ⟨0, 0, 50, 50⟩ (by decide)).2.2.2.1
      (by decide)⟩

/-! ## The tile fill -/

theorem halt_requests (p : Paint) (s : FillStatus) : (p.halt s).requests = p.requests := by
  unfold Paint.halt
  split <;> rfl

theorem halt_cairo_buffer (p : Paint) (s : FillStatus) :
    (p.halt s).cairo_buffer = p.cairo_buffer := by
  unfold Paint.halt
  split <;> rfl

/-- The requests of one imagedisplay_fill_tile call: they are appended to the
log, and each asks for the round-trip clip of the tile, which is then not
empty. -/
theorem fill_tile_requests (env : Env) (d : Imagedisplay) (tile : VipsRect) (p : Paint) :
    ∃ new, (imagedisplay_fill_tile env d tile p).requests = p.requests ++ new ∧
      ∀ q ∈ new,
        q.rect = imagedisplay_buffer_to_image d (imagedisplay_image_to_buffer d tile) ∧
        vips_rect_isempty
          (imagedisplay_buffer_to_image d (imagedisplay_image_to_buffer d tile)) = false := by
  unfold imagedisplay_fill_tile
  split
  · exact ⟨[], (List.append_nil _).symm, fun q hq => by cases hq⟩
  split
  · exact ⟨[], by rw [halt_requests, List.append_nil], fun q hq => by cases hq⟩
  dsimp only
  split
  · exact ⟨[], (List.append_nil _).symm, fun q hq => by cases hq⟩
  rename_i hne
  have hne1 : vips_rect_isempty
      (imagedisplay_buffer_to_image d (imagedisplay_image_to_buffer d tile)) = false := by
    simpa using hne
  have hone : ∀ q ∈ [Request.mask
      (imagedisplay_buffer_to_image d (imagedisplay_image_to_buffer d tile))],
      q.rect = imagedisplay_buffer_to_image d (imagedisplay_image_to_buffer d tile) ∧
      vips_rect_isempty
        (imagedisplay_buffer_to_image d (imagedisplay_image_to_buffer d tile)) = false := by
    intro q hq
    rw [List.mem_singleton] at hq
    subst hq
    exact ⟨rfl, hne1⟩
  have htwo : ∀ q ∈ [Request.mask
      (imagedisplay_buffer_to_image d (imagedisplay_image_to_buffer d tile)),
      Request.rgb (imagedisplay_buffer_to_image d (imagedisplay_image_to_buffer d tile))],
      q.rect = imagedisplay_buffer_to_image d (imagedisplay_image_to_buffer d tile) ∧
      vips_rect_isempty
        (imagedisplay_buffer_to_image d (imagedisplay_image_to_buffer d tile)) = false := by
    intro q hq
    simp only [List.mem_cons, List.mem_singleton, List.not_mem_nil, or_false] at hq
    rcases hq with rfl | rfl <;> exact ⟨rfl, hne1⟩
  split
  · exact ⟨_, rfl, hone⟩
  split
  · exact ⟨_, List.append_assoc _ _ _, htwo⟩
  split
  · split
    · split
      · exact ⟨_, by rw [halt_requests]; exact List.append_assoc _ _ _, htwo⟩
      · split
        · exact ⟨_, by rw [halt_requests]; exact List.append_assoc _ _ _, htwo⟩
        · exact ⟨_, List.append_assoc _ _ _, htwo⟩
    · exact ⟨_, List.append_assoc _ _ _, htwo⟩
  · exact ⟨_, by rw [halt_requests]; exact List.append_assoc _ _ _, htwo⟩

/-- A tile whose round-trip clip is empty, or whose g_assert fails, changes
neither the log nor the buffer. -/
theorem fill_tile_unchanged (env : Env) (d : Imagedisplay) (tile : VipsRect) (p : Paint)
    (h : vips_rect_isempty
      (imagedisplay_buffer_to_image d (imagedisplay_image_to_buffer d tile)) = true) :
    (imagedisplay_fill_tile env d tile p).requests = p.requests ∧
      (imagedisplay_fill_tile env d tile p).cairo_buffer = p.cairo_buffer := by
  unfold imagedisplay_fill_tile
  split
  · exact ⟨rfl, rfl⟩
  split
  · exact ⟨halt_requests _ _, halt_cairo_buffer _ _⟩
  dsimp only
  rw [if_pos h]
  exact ⟨rfl, rfl⟩

theorem fill_rect_row_steps (env : Env) (d : Imagedisplay) (expose : VipsRect)
    (R : Paint → Paint → Prop) (hrefl : ∀ p, R p p)
    (htrans : ∀ a b c, R a b → R b c → R a c) (hhalt : ∀ p s, R p (p.halt s))
    (htile : ∀ clip p, IsClippedTile env expose clip →
      R p (imagedisplay_fill_tile env d clip p))
    (tile_top right : Int) :
    ∀ (fuel : Nat) (x : Int) (p : Paint),
      R p (imagedisplay_fill_rect_row env d expose tile_top right fuel x p) := by
  intro fuel
  induction fuel with
  | zero =>
    intro x p
    unfold imagedisplay_fill_rect_row
    split
    · exact hhalt p _
    · exact hrefl p
  | succ fuel ih =>
    intro x p
    unfold imagedisplay_fill_rect_row
    split
    · dsimp only
      refine htrans _ _ _ ?_ (ih _ _)
      split
      · rename_i hne
        exact htile _ p ⟨x, tile_top, rfl, by simpa using hne⟩
      · exact hrefl p
    · exact hrefl p

theorem fill_rect_column_steps (env : Env) (d : Imagedisplay) (expose : VipsRect)
    (R : Paint → Paint → Prop) (hrefl : ∀ p, R p p)
    (htrans : ∀ a b c, R a b → R b c → R a c) (hhalt : ∀ p s, R p (p.halt s))
    (htile : ∀ clip p, IsClippedTile env expose clip →
      R p (imagedisplay_fill_tile env d clip p))
    (tile_left bottom : Int) :
    ∀ (fuel : Nat) (y : Int) (p : Paint),
      R p (imagedisplay_fill_rect_column env d expose tile_left bottom fuel y p) := by
  intro fuel
  induction fuel with
  | zero =>
    intro y p
    unfold imagedisplay_fill_rect_column
    split
    · exact hhalt p _
    · exact hrefl p
  | succ fuel ih =>
    intro y p
    unfold imagedisplay_fill_rect_column
    split
    · dsimp only
      refine htrans _ _ _ ?_ (ih _ _)
      split
      · rename_i hne
        exact htile _ p ⟨tile_left, y, rfl, by simpa using hne⟩
      · exact hrefl p
    · exact hrefl p

theorem fill_rect_loop_steps (env : Env) (d : Imagedisplay) (expose : VipsRect)
    (R : Paint → Paint → Prop) (hrefl : ∀ p, R p p)
    (htrans : ∀ a b c, R a b → R b c → R a c) (hhalt : ∀ p s, R p (p.halt s))
    (htile : ∀ clip p, IsClippedTile env expose clip →
      R p (imagedisplay_fill_tile env d clip p)) :
    ∀ (fuel : Nat) (left top right bottom : Int) (p : Paint),
      R p (imagedisplay_fill_rect_loop env d expose fuel left top right bottom p) := by
  intro fuel
  have hrow := fill_rect_row_steps env d expose R hrefl htrans hhalt htile
  have hcol := fill_rect_column_steps env d expose R hrefl htrans hhalt htile
  induction fuel with
  | zero =>
    intro left top right bottom p
    unfold imagedisplay_fill_rect_loop
    split
    · exact hrefl p
    · exact hhalt p _
  | succ fuel ih =>
    intro left top right bottom p
    unfold imagedisplay_fill_rect_loop
    split
    · exact hrefl p
    dsimp only
    split
    · exact hrow _ _ _ _ _
    split
    · exact htrans _ _ _ (hrow _ _ _ _ _) (hrow _ _ _ _ _)
    split
    · exact htrans _ _ _ (hrow _ _ _ _ _) (htrans _ _ _ (hrow _ _ _ _ _) (hcol _ _ _ _ _))
    split
    · exact htrans _ _ _ (hrow _ _ _ _ _) (htrans _ _ _ (hrow _ _ _ _ _)
        (htrans _ _ _ (hcol _ _ _ _ _) (hcol _ _ _ _ _)))
    · exact htrans _ _ _ (hrow _ _ _ _ _) (htrans _ _ _ (hrow _ _ _ _ _)
        (htrans _ _ _ (hcol _ _ _ _ _) (htrans _ _ _ (hcol _ _ _ _ _) (ih _ _ _ _ _))))

/-- Whatever relation between the state before and after is kept by one tile
fill, by stopping, and by chaining, is kept by imagedisplay_fill_rect. -/
theorem fill_rect_steps (env : Env) (d : Imagedisplay) (expose : VipsRect)
    (R : Paint → Paint → Prop) (hrefl : ∀ p, R p p)
    (htrans : ∀ a b c, R a b → R b c → R a c) (hhalt : ∀ p s, R p (p.halt s))
    (htile : ∀ clip p, IsClippedTile env expose clip →
      R p (imagedisplay_fill_tile env d clip p))
    (p : Paint) : R p (imagedisplay_fill_rect env d expose p) := by
  unfold imagedisplay_fill_rect
  exact fill_rect_loop_steps env d expose R hrefl htrans hhalt htile _ _ _ _ _ _

/-- One axis of the round trip image -> buffer -> image of a tile: `l`, `w` are
the start and extent of the tile, `s` the scroll offset, `pl`, `pw` and `il`,
`iw` the start and extent of paint_rect and image_rect. -/
theorem round_trip_axis_image (l w s pl pw il iw tl tw cl cw : Int)
    (htl : tl = max (l - s + pl) pl - pl)
    (htw : tw = max 0 (min (l - s + pl + w) (pl + pw) - max (l - s + pl) pl))
    (hcl : cl = max (tl + pl - pl + s) il)
    (hcw : cw = max 0 (min (tl + pl - pl + s + tw) (il + iw) - max (tl + pl - pl + s) il)) :
    cw ≤ max 0 w ∧ il ≤ cl ∧ (0 < cw → cl + cw ≤ il + iw ∧ l ≤ cl ∧ cl + cw ≤ l + w) := by
  subst hcl hcw
  have h1 : l - s ≤ tl := by omega
  have h2 : tw ≤ max 0 w := by omega
  have h3 : 0 < tw → tl + tw ≤ l - s + w := by omega
  have h4 : 0 ≤ tw := by omega
  clear htl htw
  refine ⟨by omega, by omega, ?_⟩
  intro h
  omega

/-- The round-trip clip of a tile, when it is not empty, lies in image_rect and in
the tile. -/
theorem round_trip_clip (d : Imagedisplay) (tile : VipsRect)
    (h : vips_rect_isempty
      (imagedisplay_buffer_to_image d (imagedisplay_image_to_buffer d tile)) = false) :
    vips_rect_includesrect d.image_rect
      (imagedisplay_buffer_to_image d (imagedisplay_image_to_buffer d tile)) = true ∧
    vips_rect_includesrect tile
      (imagedisplay_buffer_to_image d (imagedisplay_image_to_buffer d tile)) = true := by
  obtain ⟨a1, a2, a3, a4⟩ := image_to_buffer_fields d tile
  obtain ⟨b1, b2, b3, b4⟩ := buffer_to_image_fields d (imagedisplay_image_to_buffer d tile)
  obtain ⟨-, x2, x3⟩ := round_trip_axis_image tile.left tile.width d.left d.paint_rect.left
    d.paint_rect.width d.image_rect.left d.image_rect.width _ _ _ _ a1 a3 b1 b3
  obtain ⟨-, y2, y3⟩ := round_trip_axis_image tile.top tile.height d.top d.paint_rect.top
    d.paint_rect.height d.image_rect.top d.image_rect.height _ _ _ _ a2 a4 b2 b4
  clear a1 a2 a3 a4 b1 b2 b3 b4
  rw [isempty_false_iff] at h
  rw [includesrect_iff, includesrect_iff]
  have := x3 h.1
  have := y3 h.2
  omega

/-- A clipped tile is no wider and no taller than TILE_SIZE and lies in
`expose`. -/
theorem clipped_tile_bounds (env : Env) (expose clip : VipsRect)
    (h : IsClippedTile env expose clip) :
    clip.width ≤ env.TILE_SIZE ∧ clip.height ≤ env.TILE_SIZE ∧
      vips_rect_includesrect expose clip = true := by
  obtain ⟨x, y, hclip, hne⟩ := h
  obtain ⟨c1, c2, c3, c4⟩ := intersectrect_fields
    { left := x, top := y, width := env.TILE_SIZE, height := env.TILE_SIZE } expose
  rw [← hclip] at c1 c2 c3 c4
  rw [isempty_false_iff] at hne
  rw [includesrect_iff]
  simp only at c1 c2 c3 c4
  omega

/-- C8: whatever the geometry and the rectangle, every rectangle for which
imagedisplay_fill_rect issues a vips_region_prepare (on the mask region or
the rgb region) is at most TILE_SIZE wide and high and lies in image_rect. -/
theorem fill_rect_requests_within_tile_and_image (env : Env) (d : Imagedisplay)
    (expose : VipsRect) (p : Paint) :
    ∃ new, (imagedisplay_fill_rect env d expose p).requests = p.requests ++ new ∧
      ∀ q ∈ new, q.rect.width ≤ env.TILE_SIZE ∧ q.rect.height ≤ env.TILE_SIZE ∧
        vips_rect_includesrect d.image_rect q.rect = true := by
  apply fill_rect_steps env d expose
    (fun a b => ∃ new, b.requests = a.requests ++ new ∧
      ∀ q ∈ new, q.rect.width ≤ env.TILE_SIZE ∧ q.rect.height ≤ env.TILE_SIZE ∧
        vips_rect_includesrect d.image_rect q.rect = true)
  · intro a
    exact ⟨[], (List.append_nil _).symm, fun q hq => by cases hq⟩
  · rintro a b c ⟨n1, h1, hp1⟩ ⟨n2, h2, hp2⟩
    refine ⟨n1 ++ n2, by rw [h2, h1, List.append_assoc], ?_⟩
    intro q hq
    rcases List.mem_append.mp hq with h | h
    · exact hp1 q h
    · exact hp2 q h
  · intro a s
    exact ⟨[], by rw [halt_requests, List.append_nil], fun q hq => by cases hq⟩
  · intro clip a hclip
    obtain ⟨new, hnew, hq⟩ := fill_tile_requests env d clip a
    refine ⟨new, hnew, ?_⟩
    intro q hmem
    obtain ⟨hrect, hne⟩ := hq q hmem
    obtain ⟨hin, hsub⟩ := round_trip_clip d clip hne
    obtain ⟨hw, hh, -⟩ := clipped_tile_bounds env expose clip hclip
    rw [hrect]
    refine ⟨?_, ?_, hin⟩
    · rw [includesrect_iff] at hsub
      omega
    · rw [includesrect_iff] at hsub
      omega

/-- C9: for a rectangle that does not intersect image_rect,
imagedisplay_fill_rect issues no vips_region_prepare and leaves the backing
buffer as it was. -/
theorem fill_rect_outside_image (env : Env) (d : Imagedisplay) (expose : VipsRect)
    (p : Paint)
    (hout : vips_rect_isempty (vips_rect_intersectrect expose d.image_rect) = true) :
    (imagedisplay_fill_rect env d expose p).requests = p.requests ∧
      (imagedisplay_fill_rect env d expose p).cairo_buffer = p.cairo_buffer := by
  apply fill_rect_steps env d expose
    (fun a b => b.requests = a.requests ∧ b.cairo_buffer = a.cairo_buffer)
  · intro a
    exact ⟨rfl, rfl⟩
  · rintro a b c ⟨h1, h2⟩ ⟨h3, h4⟩
    exact ⟨h3.trans h1, h4.trans h2⟩
  · intro a s
    exact ⟨halt_requests a s, halt_cairo_buffer a s⟩
  · intro clip a hclip
    apply fill_tile_unchanged
    by_contra hne
    have hne1 : vips_rect_isempty
        (imagedisplay_buffer_to_image d (imagedisplay_image_to_buffer d clip)) = false := by
      simpa using hne
    obtain ⟨hin, hsub⟩ := round_trip_clip d clip hne1
    obtain ⟨-, -, hexp⟩ := clipped_tile_bounds env expose clip hclip
    rw [isempty_false_iff] at hne1
    rw [includesrect_iff] at hin hsub hexp
    rw [isempty_true_iff] at hout
    obtain ⟨c1, c2, c3, c4⟩ := intersectrect_fields expose d.image_rect
    omega

theorem fill_rect_outside_image_example :
    vips_rect_isempty (vips_rect_intersectrect ⟨200, 0, 50, 50⟩
      ({ imagedisplay_zeroed with
          image_rect := ⟨0, 0, 100, 100⟩, widget_rect := ⟨0, 0, 50, 50⟩,
          paint_rect := ⟨0, 0, 50, 50⟩ } : Imagedisplay).image_rect) = true ∧
    (imagedisplay_fill_rect
      ⟨16, false, ⟨3, fun _ _ => none, fun _ _ => none⟩⟩
      { imagedisplay_zeroed with
          image_rect := ⟨0, 0, 100, 100⟩, widget_rect := ⟨0, 0, 50, 50⟩,
          paint_rect := ⟨0, 0, 50, 50⟩ }
      ⟨200, 0, 50, 50⟩ ⟨some (List.replicate 10000 0), [], .running⟩).requests = [] ∧
    (imagedisplay_fill_rect
      ⟨16, false, ⟨3, fun _ _ => none, fun _ _ => none⟩⟩
      { imagedisplay_zeroed with
          image_rect := ⟨0, 0, 100, 100⟩, widget_rect := ⟨0, 0, 50, 50⟩,
          paint_rect := ⟨0, 0, 50, 50⟩ }
      ⟨200, 0, 50, 50⟩ ⟨some (List.replicate 10000 0), [], .running⟩).cairo_buffer
        = some (List.replicate 10000 0) :=
  ⟨by decide, fill_rect_outside_image _ _ _ _ (by decide)⟩

/-- With g_assert compiled in, a non-empty rectangle outside image_rect stops the
fill at the containment assertion of imagedisplay_fill_tile. -/
theorem outside_image_stops_at_g_assert :
    (imagedisplay_fill_rect
      ⟨16, true, ⟨3, fun _ _ => none, fun _ _ => none⟩⟩
      { imagedisplay_zeroed with
          image_rect := ⟨0, 0, 100, 100⟩, widget_rect := ⟨0, 0, 50, 50⟩,
          paint_rect := ⟨0, 0, 50, 50⟩ }
      ⟨200, 0, 50, 50⟩ ⟨none, [], .running⟩).status = .assert_failed := by
  decide

/-! ## The clipping mappings and centring -/

theorem gtk_to_buffer_fields (d : Imagedisplay) (r : VipsRect) :
    (imagedisplay_gtk_to_buffer d r).left = max r.left d.paint_rect.left - d.paint_rect.left ∧
    (imagedisplay_gtk_to_buffer d r).top = max r.top d.paint_rect.top - d.paint_rect.top ∧
    (imagedisplay_gtk_to_buffer d r).width =
      max 0 (min (r.left + r.width) (d.paint_rect.left + d.paint_rect.width) -
        max r.left d.paint_rect.left) ∧
    (imagedisplay_gtk_to_buffer d r).height =
      max 0 (min (r.top + r.height) (d.paint_rect.top + d.paint_rect.height) -
        max r.top d.paint_rect.top) := by
  unfold imagedisplay_gtk_to_buffer
  simp only [intersectrect_fields]
  exact ⟨trivial, trivial, trivial, trivial⟩

theorem gtk_to_image_fields (d : Imagedisplay) (r : VipsRect) :
    (imagedisplay_gtk_to_image d r).left =
      max (r.left - d.paint_rect.left + d.left) d.image_rect.left ∧
    (imagedisplay_gtk_to_image d r).top =
      max (r.top - d.paint_rect.top + d.top) d.image_rect.top ∧
    (imagedisplay_gtk_to_image d r).width =
      max 0 (min (r.left - d.paint_rect.left + d.left + r.width)
        (d.image_rect.left + d.image_rect.width) -
        max (r.left - d.paint_rect.left + d.left) d.image_rect.left) ∧
    (imagedisplay_gtk_to_image d r).height =
      max 0 (min (r.top - d.paint_rect.top + d.top + r.height)
        (d.image_rect.top + d.image_rect.height) -
        max (r.top - d.paint_rect.top + d.top) d.image_rect.top) := by
  unfold imagedisplay_gtk_to_image
  simp only [intersectrect_fields]
  exact ⟨trivial, trivial, trivial, trivial⟩

/-- One axis of an intersection followed by the move to the origin `o` of the
clipping rectangle: the result starts at or after `b - o`, and when it is
not empty it ends at or before `b + e - o`. -/
theorem clip_axis (a w b e o rl rw : Int)
    (hl : rl = max a b - o)
    (hw : rw = max 0 (min (a + w) (b + e) - max a b)) :
    b - o ≤ rl ∧ (0 < rw → rl + rw ≤ b + e - o) := by
  omega

/-- C11: whatever the geometry and the rectangle r, also when r lies wholly outside,
every pixel of imagedisplay_gtk_to_buffer(r) is a pixel of the buffer extent
(0, 0, paint_rect.width, paint_rect.height) and every pixel of
imagedisplay_gtk_to_image(r) is a pixel of image_rect; a result that is not
empty is included in the sense of vips_rect_includesrect as well. -/
theorem gtk_to_buffer_and_gtk_to_image_within (d : Imagedisplay) (r : VipsRect) :
    (∀ x y : Int, (imagedisplay_gtk_to_buffer d r).has_pixel x y →
      (⟨0, 0, d.paint_rect.width, d.paint_rect.height⟩ : VipsRect).has_pixel x y) ∧
    (vips_rect_isempty (imagedisplay_gtk_to_buffer d r) = false →
      vips_rect_includesrect ⟨0, 0, d.paint_rect.width, d.paint_rect.height⟩
        (imagedisplay_gtk_to_buffer d r) = true) ∧
    (∀ x y : Int, (imagedisplay_gtk_to_image d r).has_pixel x y →
      d.image_rect.has_pixel x y) ∧
    (vips_rect_isempty (imagedisplay_gtk_to_image d r) = false →
      vips_rect_includesrect d.image_rect (imagedisplay_gtk_to_image d r) = true) := by
  obtain ⟨a1, a2, a3, a4⟩ := gtk_to_buffer_fields d r
  obtain ⟨b1, b2, b3, b4⟩ := gtk_to_image_fields d r
  obtain ⟨x1, x2⟩ := clip_axis r.left r.width d.paint_rect.left d.paint_rect.width
    d.paint_rect.left _ _ a1 a3
  obtain ⟨y1, y2⟩ := clip_axis r.top r.height d.paint_rect.top d.paint_rect.height
    d.paint_rect.top _ _ a2 a4
  obtain ⟨u1, u2⟩ := clip_axis (r.left - d.paint_rect.left + d.left) r.width
    d.image_rect.left d.image_rect.width 0 (imagedisplay_gtk_to_image d r).left _
    (by rw [b1]; omega) b3
  obtain ⟨v1, v2⟩ := clip_axis (r.top - d.paint_rect.top + d.top) r.height
    d.image_rect.top d.image_rect.height 0 (imagedisplay_gtk_to_image d r).top _
    (by rw [b2]; omega) b4
  clear a1 a2 a3 a4 b1 b2 b3 b4
  refine ⟨?_, ?_, ?_, ?_⟩
  · intro x y h
    unfold VipsRect.has_pixel at h ⊢
    simp only
    omega
  · intro h
    rw [isempty_false_iff] at h
    rw [includesrect_iff]
    simp only
    omega
  · intro x y h
    unfold VipsRect.has_pixel at h ⊢
    omega
  · intro h
    rw [isempty_false_iff] at h
    rw [includesrect_iff]
    omega

/-- An empty result keeps the corner the intersection gave it, which may lie
beyond the extent: for a 20x20 paint rectangle at (40, 40) the rectangle
(90, 90, 10, 10) maps to the empty (50, 50, 0, 0). -/
theorem gtk_to_buffer_empty_corner :
    imagedisplay_gtk_to_buffer
      { imagedisplay_zeroed with
          image_rect := ⟨0, 0, 20, 20⟩, widget_rect := ⟨0, 0, 100, 100⟩,
          paint_rect := ⟨40, 40, 20, 20⟩ } ⟨90, 90, 10, 10⟩ = ⟨50, 50, 0, 0⟩ := by
  decide

/-- C12 (amended): for every rectangle r of non-negative width and height that
vips_rect_includesrect places in image_rect,
imagedisplay_gtk_to_image(imagedisplay_image_to_gtk(r)) = r; and for every such
r in the buffer extent (0, 0, paint_rect.width, paint_rect.height),
imagedisplay_gtk_to_buffer(imagedisplay_buffer_to_gtk(r)) = r. -/
theorem paired_inverse_on_domain (d : Imagedisplay) (r : VipsRect)
    (hw : 0 ≤ r.width) (hh : 0 ≤ r.height) :
    (vips_rect_includesrect d.image_rect r = true →
      imagedisplay_gtk_to_image d (imagedisplay_image_to_gtk d r) = r) ∧
    (vips_rect_includesrect ⟨0, 0, d.paint_rect.width, d.paint_rect.height⟩ r = true →
      imagedisplay_gtk_to_buffer d (imagedisplay_buffer_to_gtk d r) = r) := by
  constructor
  · intro hin
    rw [includesrect_iff] at hin
    obtain ⟨b1, b2, b3, b4⟩ := gtk_to_image_fields d (imagedisplay_image_to_gtk d r)
    have e1 : (imagedisplay_image_to_gtk d r).left = r.left - d.left + d.paint_rect.left := rfl
    have e2 : (imagedisplay_image_to_gtk d r).top = r.top - d.top + d.paint_rect.top := rfl
    have e3 : (imagedisplay_image_to_gtk d r).width = r.width := rfl
    have e4 : (imagedisplay_image_to_gtk d r).height = r.height := rfl
    simp only [e1, e2, e3, e4] at b1 b2 b3 b4
    rcases hr : imagedisplay_gtk_to_image d (imagedisplay_image_to_gtk d r) with ⟨l, t, w, h⟩
    rw [hr] at b1 b2 b3 b4
    simp only at b1 b2 b3 b4
    rcases r with ⟨rl, rt, rw, rh⟩
    simp only at hin hw hh b1 b2 b3 b4
    simp only [VipsRect.mk.injEq]
    refine ⟨by omega, by omega, by omega, by omega⟩
  · intro hin
    rw [includesrect_iff] at hin
    simp only at hin
    obtain ⟨b1, b2, b3, b4⟩ := gtk_to_buffer_fields d (imagedisplay_buffer_to_gtk d r)
    have e1 : (imagedisplay_buffer_to_gtk d r).left = r.left + d.paint_rect.left := rfl
    have e2 : (imagedisplay_buffer_to_gtk d r).top = r.top + d.paint_rect.top := rfl
    have e3 : (imagedisplay_buffer_to_gtk d r).width = r.width := rfl
    have e4 : (imagedisplay_buffer_to_gtk d r).height = r.height := rfl
    simp only [e1, e2, e3, e4] at b1 b2 b3 b4
    rcases hr : imagedisplay_gtk_to_buffer d (imagedisplay_buffer_to_gtk d r) with ⟨l, t, w, h⟩
    rw [hr] at b1 b2 b3 b4
    simp only at b1 b2 b3 b4
    rcases r with ⟨rl, rt, rw, rh⟩
    simp only at hin hw hh b1 b2 b3 b4
    simp only [VipsRect.mk.injEq]
    refine ⟨by omega, by omega, by omega, by omega⟩

theorem paired_inverse_on_domain_example :
    ((0 : Int) ≤ (⟨10, 20, 30, 5⟩ : VipsRect).width ∧
      (0 : Int) ≤ (⟨10, 20, 30, 5⟩ : VipsRect).height) ∧
    (vips_rect_includesrect (⟨0, 0, 100, 100⟩ : VipsRect) ⟨10, 20, 30, 5⟩ = true ∧
      imagedisplay_gtk_to_image
        { imagedisplay_zeroed with
            image_rect := ⟨0, 0, 100, 100⟩, widget_rect := ⟨0, 0, 50, 50⟩,
            paint_rect := ⟨0, 0, 50, 50⟩, left := 7, top := 3 }
        (imagedisplay_image_to_gtk
          { imagedisplay_zeroed with
              image_rect := ⟨0, 0, 100, 100⟩, widget_rect := ⟨0, 0, 50, 50⟩,
              paint_rect := ⟨0, 0, 50, 50⟩, left := 7, top := 3 } ⟨10, 20, 30, 5⟩)
        = ⟨10, 20, 30, 5⟩) :=
  ⟨⟨by decide, by decide⟩, by decide,
    (paired_inverse_on_domain
      { imagedisplay_zeroed with
          image_rect := ⟨0, 0, 100, 100⟩, widget_rect := ⟨0, 0, 50, 50⟩,
          paint_rect := ⟨0, 0, 50, 50⟩, left := 7, top := 3 } ⟨10, 20, 30, 5⟩
      (by decide) (by decide)).1 (by decide)⟩

/-- C12 as stated fails: the rectangle (5, 5, -3, 2) is included in the image
(0, 0, 100, 100) by vips_rect_includesrect, and it is included in the buffer
extent (0, 0, 50, 50), yet both round trips return (5, 5, 0, 2): the
intersection clamps the negative width to zero. -/
theorem paired_inverse_negative_width :
    vips_rect_includesrect (⟨0, 0, 100, 100⟩ : VipsRect) ⟨5, 5, -3, 2⟩ = true ∧
    imagedisplay_gtk_to_image
      { imagedisplay_zeroed with
          image_rect := ⟨0, 0, 100, 100⟩, widget_rect := ⟨0, 0, 50, 50⟩,
          paint_rect := ⟨0, 0, 50, 50⟩ }
      (imagedisplay_image_to_gtk
        { imagedisplay_zeroed with
            image_rect := ⟨0, 0, 100, 100⟩, widget_rect := ⟨0, 0, 50, 50⟩,
            paint_rect := ⟨0, 0, 50, 50⟩ } ⟨5, 5, -3, 2⟩) = ⟨5, 5, 0, 2⟩ ∧
    imagedisplay_gtk_to_image
      { imagedisplay_zeroed with
          image_rect := ⟨0, 0, 100, 100⟩, widget_rect := ⟨0, 0, 50, 50⟩,
          paint_rect := ⟨0, 0, 50, 50⟩ }
      (imagedisplay_image_to_gtk
        { imagedisplay_zeroed with
            image_rect := ⟨0, 0, 100, 100⟩, widget_rect := ⟨0, 0, 50, 50⟩,
            paint_rect := ⟨0, 0, 50, 50⟩ } ⟨5, 5, -3, 2⟩) ≠ ⟨5, 5, -3, 2⟩ ∧
    vips_rect_includesrect (⟨0, 0, 50, 50⟩ : VipsRect) ⟨5, 5, -3, 2⟩ = true ∧
    imagedisplay_gtk_to_buffer
      { imagedisplay_zeroed with
          image_rect := ⟨0, 0, 100, 100⟩, widget_rect := ⟨0, 0, 50, 50⟩,
          paint_rect := ⟨0, 0, 50, 50⟩ }
      (imagedisplay_buffer_to_gtk
        { imagedisplay_zeroed with
            image_rect := ⟨0, 0, 100, 100⟩, widget_rect := ⟨0, 0, 50, 50⟩,
            paint_rect := ⟨0, 0, 50, 50⟩ } ⟨5, 5, -3, 2⟩) ≠ ⟨5, 5, -3, 2⟩ := by
  decide

theorem halt_of_running (p : Paint) (s : FillStatus) (h : p.status = .running) :
    p.halt s = { p with status := s } := by
  unfold Paint.halt
  rw [if_pos h]

/-- C16 (amended): a running fill that accepts the tile (its g_asserts hold or are
compiled out) and finds the round-trip clip not empty issues a mask request
for the clip; when that request fails it issues nothing more, and when it
succeeds it issues a colour request for the same clip next, whatever the
mask holds and whatever the colour request returns. -/
theorem fill_tile_requests_mask_then_rgb (env : Env) (d : Imagedisplay) (tile : VipsRect)
    (p : Paint) (hrun : p.status = .running)
    (hassert : env.asserts = true → imagedisplay_fill_tile_asserts env d tile = true)
    (hne : vips_rect_isempty
      (imagedisplay_buffer_to_image d (imagedisplay_image_to_buffer d tile)) = false) :
    (env.source.mask_prepare p.requests
        (imagedisplay_buffer_to_image d (imagedisplay_image_to_buffer d tile)) = none →
      (imagedisplay_fill_tile env d tile p).requests = p.requests ++
        [Request.mask (imagedisplay_buffer_to_image d (imagedisplay_image_to_buffer d tile))]) ∧
    (env.source.mask_prepare p.requests
        (imagedisplay_buffer_to_image d (imagedisplay_image_to_buffer d tile)) ≠ none →
      (imagedisplay_fill_tile env d tile p).requests = p.requests ++
        [Request.mask (imagedisplay_buffer_to_image d (imagedisplay_image_to_buffer d tile)),
         Request.rgb
          (imagedisplay_buffer_to_image d (imagedisplay_image_to_buffer d tile))]) := by
  have hgate : ¬ ((env.asserts && !imagedisplay_fill_tile_asserts env d tile) = true) := by
    intro h
    rw [Bool.and_eq_true] at h
    rw [hassert h.1] at h
    exact absurd h.2 (by decide)
  unfold imagedisplay_fill_tile
  rw [if_neg (by rw [hrun]; exact fun h => h rfl), if_neg hgate]
  dsimp only
  rw [if_neg (by rw [hne]; exact Bool.false_ne_true)]
  constructor
  · intro hm
    rw [hm]
  · intro hm
    split
    · rename_i hnone
      exact absurd hnone hm
    · split
      · exact List.append_assoc _ _ _
      · split
        · split
          · split
            · rw [halt_requests]
              exact List.append_assoc _ _ _
            · split
              · rw [halt_requests]
                exact List.append_assoc _ _ _
              · exact List.append_assoc _ _ _
          · exact List.append_assoc _ _ _
        · rw [halt_requests]
          exact List.append_assoc _ _ _

theorem fill_tile_requests_mask_then_rgb_example :
    (imagedisplay_fill_tile
      ⟨16, true, ⟨3, fun _ _ => some ⟨⟨0, 0, 16, 16⟩, 16, 1, List.replicate 256 0⟩,
        fun _ _ => none⟩⟩
      { imagedisplay_zeroed with
          image_rect := ⟨0, 0, 100, 100⟩, widget_rect := ⟨0, 0, 50, 50⟩,
          paint_rect := ⟨0, 0, 50, 50⟩ }
      ⟨0, 0, 16, 16⟩ ⟨none, [], .running⟩).requests
      = [] ++ [Request.mask ⟨0, 0, 16, 16⟩, Request.rgb ⟨0, 0, 16, 16⟩] :=
  (fill_tile_requests_mask_then_rgb
    ⟨16, true, ⟨3, fun _ _ => some ⟨⟨0, 0, 16, 16⟩, 16, 1, List.replicate 256 0⟩,
      fun _ _ => none⟩⟩
    { imagedisplay_zeroed with
        image_rect := ⟨0, 0, 100, 100⟩, widget_rect := ⟨0, 0, 50, 50⟩,
        paint_rect := ⟨0, 0, 50, 50⟩ }
    ⟨0, 0, 16, 16⟩ ⟨none, [], .running⟩ rfl (fun _ => by decide) (by decide)).2
    (Option.some_ne_none _)

/-- C16 as stated fails: when the mask request fails, imagedisplay_fill_tile returns
at once (lines 598-606) and the colour request is never issued, although the
round-trip clip (0, 0, 16, 16) is not empty. -/
theorem fill_tile_mask_failure_skips_rgb :
    vips_rect_isempty
      (imagedisplay_buffer_to_image
        { imagedisplay_zeroed with
            image_rect := ⟨0, 0, 100, 100⟩, widget_rect := ⟨0, 0, 50, 50⟩,
            paint_rect := ⟨0, 0, 50, 50⟩ }
        (imagedisplay_image_to_buffer
          { imagedisplay_zeroed with
              image_rect := ⟨0, 0, 100, 100⟩, widget_rect := ⟨0, 0, 50, 50⟩,
              paint_rect := ⟨0, 0, 50, 50⟩ } ⟨0, 0, 16, 16⟩)) = false ∧
    (imagedisplay_fill_tile
      ⟨16, true, ⟨3, fun _ _ => none,
        fun _ _ => some ⟨⟨0, 0, 16, 16⟩, 48, 3, List.replicate 768 0⟩⟩⟩
      { imagedisplay_zeroed with
          image_rect := ⟨0, 0, 100, 100⟩, widget_rect := ⟨0, 0, 50, 50⟩,
          paint_rect := ⟨0, 0, 50, 50⟩ }
      ⟨0, 0, 16, 16⟩ ⟨none, [], .running⟩).requests = [Request.mask ⟨0, 0, 16, 16⟩] ∧
    Request.rgb ⟨0, 0, 16, 16⟩ ∉
      (imagedisplay_fill_tile
        ⟨16, true, ⟨3, fun _ _ => none,
          fun _ _ => some ⟨⟨0, 0, 16, 16⟩, 48, 3, List.replicate 768 0⟩⟩⟩
        { imagedisplay_zeroed with
            image_rect := ⟨0, 0, 100, 100⟩, widget_rect := ⟨0, 0, 50, 50⟩,
            paint_rect := ⟨0, 0, 50, 50⟩ }
        ⟨0, 0, 16, 16⟩ ⟨none, [], .running⟩).requests := by
  refine ⟨by decide, by decide, ?_⟩
  decide


theorem fill_tiles_append (env : Env) (d : Imagedisplay) (expose : VipsRect)
    (l1 l2 : List VipsRect) (p : Paint) :
    fill_tiles env d expose (l1 ++ l2) p
      = fill_tiles env d expose l2 (fill_tiles env d expose l1 p) := by
  unfold fill_tiles
  rw [List.foldl_append]

theorem fill_rect_row_eq_fill_tiles (env : Env) (d : Imagedisplay) (expose : VipsRect)
    (hT : 0 < env.TILE_SIZE) (tile_top right : Int) :
    ∀ (fuel : Nat) (x : Int) (p : Paint), (right - x).toNat ≤ fuel →
      imagedisplay_fill_rect_row env d expose tile_top right fuel x p =
        fill_tiles env d expose
          (fill_rect_row_tiles env.TILE_SIZE expose tile_top right fuel x) p := by
  intro fuel
  induction fuel with
  | zero =>
    intro x p hf
    unfold imagedisplay_fill_rect_row fill_rect_row_tiles
    rw [if_neg (by omega), if_neg (by omega)]
    rfl
  | succ fuel ih =>
    intro x p hf
    unfold imagedisplay_fill_rect_row fill_rect_row_tiles
    by_cases hx : x < right
    · rw [if_pos hx, if_pos hx]
      dsimp only
      rw [fill_tiles_append, ih _ _ (by omega)]
      congr 1
      split <;> rfl
    · rw [if_neg hx, if_neg hx]
      rfl

theorem fill_rect_column_eq_fill_tiles (env : Env) (d : Imagedisplay) (expose : VipsRect)
    (hT : 0 < env.TILE_SIZE) (tile_left bottom : Int) :
    ∀ (fuel : Nat) (y : Int) (p : Paint), (bottom - y).toNat ≤ fuel →
      imagedisplay_fill_rect_column env d expose tile_left bottom fuel y p =
        fill_tiles env d expose
          (fill_rect_column_tiles env.TILE_SIZE expose tile_left bottom fuel y) p := by
  intro fuel
  induction fuel with
  | zero =>
    intro y p hf
    unfold imagedisplay_fill_rect_column fill_rect_column_tiles
    rw [if_neg (by omega), if_neg (by omega)]
    rfl
  | succ fuel ih =>
    intro y p hf
    unfold imagedisplay_fill_rect_column fill_rect_column_tiles
    by_cases hy : y < bottom
    · rw [if_pos hy, if_pos hy]
      dsimp only
      rw [fill_tiles_append, ih _ _ (by omega)]
      congr 1
      split <;> rfl
    · rw [if_neg hy, if_neg hy]
      rfl

theorem fill_rect_loop_eq_fill_tiles (env : Env) (d : Imagedisplay) (expose : VipsRect)
    (hT : 0 < env.TILE_SIZE) :
    ∀ (fuel : Nat) (left top right bottom : Int) (p : Paint), (right - left).toNat ≤ fuel →
      imagedisplay_fill_rect_loop env d expose fuel left top right bottom p =
        fill_tiles env d expose
          (fill_rect_loop_tiles env.TILE_SIZE expose fuel left top right bottom) p := by
  intro fuel
  have hrow := fill_rect_row_eq_fill_tiles env d expose hT
  have hcol := fill_rect_column_eq_fill_tiles env d expose hT
  induction fuel with
  | zero =>
    intro left top right bottom p hf
    unfold imagedisplay_fill_rect_loop fill_rect_loop_tiles
    rw [if_pos (Or.inl (by omega)), if_pos (Or.inl (by omega))]
    rfl
  | succ fuel ih =>
    intro left top right bottom p hf
    unfold imagedisplay_fill_rect_loop fill_rect_loop_tiles
    by_cases h0 : right - left ≤ 0 ∨ bottom - top ≤ 0
    · rw [if_pos h0, if_pos h0]
      rfl
    rw [if_neg h0, if_neg h0]
    dsimp only
    by_cases h1 : right - left ≤ 0 ∨ bottom - (top + env.TILE_SIZE) ≤ 0
    · rw [if_pos h1, if_pos h1]
      exact hrow _ _ _ _ _ (le_refl _)
    rw [if_neg h1, if_neg h1]
    by_cases h2 : right - left ≤ 0 ∨ bottom - env.TILE_SIZE - (top + env.TILE_SIZE) ≤ 0
    · rw [if_pos h2, if_pos h2, fill_tiles_append,
        hrow _ _ _ _ _ (le_refl _), hrow _ _ _ _ _ (le_refl _)]
    rw [if_neg h2, if_neg h2]
    by_cases h3 : right - (left + env.TILE_SIZE) ≤ 0 ∨
        bottom - env.TILE_SIZE - (top + env.TILE_SIZE) ≤ 0
    · rw [if_pos h3, if_pos h3, fill_tiles_append, fill_tiles_append,
        hrow _ _ _ _ _ (le_refl _), hrow _ _ _ _ _ (le_refl _), hcol _ _ _ _ _ (le_refl _)]
    rw [if_neg h3, if_neg h3]
    by_cases h4 : right - env.TILE_SIZE - (left + env.TILE_SIZE) ≤ 0 ∨
        bottom - env.TILE_SIZE - (top + env.TILE_SIZE) ≤ 0
    · rw [if_pos h4, if_pos h4, fill_tiles_append, fill_tiles_append, fill_tiles_append,
        hrow _ _ _ _ _ (le_refl _), hrow _ _ _ _ _ (le_refl _), hcol _ _ _ _ _ (le_refl _),
        hcol _ _ _ _ _ (le_refl _)]
    rw [if_neg h4, if_neg h4, fill_tiles_append, fill_tiles_append, fill_tiles_append,
      fill_tiles_append,
      hrow _ _ _ _ _ (le_refl _), hrow _ _ _ _ _ (le_refl _), hcol _ _ _ _ _ (le_refl _),
      hcol _ _ _ _ _ (le_refl _), ih _ _ _ _ _ (by omega)]

/-- For a positive TILE_SIZE imagedisplay_fill_rect is the run of
imagedisplay_fill_tile over the clipped tiles of fill_rect_tiles, in order. -/
theorem fill_rect_eq_fill_tiles (env : Env) (d : Imagedisplay) (expose : VipsRect)
    (hT : 0 < env.TILE_SIZE) (p : Paint) :
    imagedisplay_fill_rect env d expose p =
      fill_tiles env d expose (fill_rect_tiles env.TILE_SIZE expose) p := by
  unfold imagedisplay_fill_rect fill_rect_tiles
  exact fill_rect_loop_eq_fill_tiles env d expose hT _ _ _ _ _ _ (le_refl _)


theorem halt_status (p : Paint) (s : FillStatus) :
    (p.halt s).status = p.status ∨ (p.status = .running ∧ (p.halt s).status = s) := by
  unfold Paint.halt
  split
  · rename_i h
    exact Or.inr ⟨h, rfl⟩
  · exact Or.inl rfl

/-- The status after one imagedisplay_fill_tile call: unchanged, or a running fill
stopped by a failed g_assert or by a memory fault. -/
theorem fill_tile_status (env : Env) (d : Imagedisplay) (tile : VipsRect) (p : Paint) :
    (imagedisplay_fill_tile env d tile p).status = p.status ∨
      (p.status = .running ∧
        ((imagedisplay_fill_tile env d tile p).status = .assert_failed ∨
         (imagedisplay_fill_tile env d tile p).status = .fault)) := by
  unfold imagedisplay_fill_tile
  split
  · exact Or.inl rfl
  rename_i hrun
  have hrun1 : p.status = .running := by
    by_contra h
    exact hrun h
  split
  · rcases halt_status p .assert_failed with h | ⟨-, h⟩
    · exact Or.inl h
    · exact Or.inr ⟨hrun1, Or.inl h⟩
  dsimp only
  split
  · exact Or.inl rfl
  split
  · exact Or.inl rfl
  split
  · exact Or.inl rfl
  split
  · split
    · split
      · exact (halt_status _ _).elim (fun h => Or.inl h)
          (fun h => Or.inr ⟨hrun1, Or.inr h.2⟩)
      · split
        · exact (halt_status _ _).elim (fun h => Or.inl h)
            (fun h => Or.inr ⟨hrun1, Or.inr h.2⟩)
        · exact Or.inl rfl
    · exact Or.inl rfl
  · exact (halt_status _ _).elim (fun h => Or.inl h)
      (fun h => Or.inr ⟨hrun1, Or.inr h.2⟩)

theorem fill_tiles_not_diverged (env : Env) (d : Imagedisplay) (expose : VipsRect) :
    ∀ (tiles : List VipsRect) (p : Paint),
      (fill_tiles env d expose tiles p).status = .diverged → p.status = .diverged := by
  intro tiles
  induction tiles with
  | nil =>
    intro p h
    exact h
  | cons t ts ih =>
    intro p h
    have h1 : (imagedisplay_fill_tile env d (vips_rect_intersectrect t expose) p).status
        = .diverged := ih _ h
    rcases fill_tile_status env d (vips_rect_intersectrect t expose) p with h2 | ⟨-, h2 | h2⟩
    · rw [← h2]; exact h1
    · rw [h2] at h1; cases h1
    · rw [h2] at h1; cases h1

/-- With enough fuel for the width of the box, one more unit changes nothing. -/
theorem fill_rect_loop_fuel_succ (env : Env) (d : Imagedisplay) (expose : VipsRect)
    (hT : 0 < env.TILE_SIZE) :
    ∀ (fuel : Nat) (left top right bottom : Int) (p : Paint), (right - left).toNat ≤ fuel →
      imagedisplay_fill_rect_loop env d expose (fuel + 1) left top right bottom p =
        imagedisplay_fill_rect_loop env d expose fuel left top right bottom p := by
  intro fuel
  induction fuel with
  | zero =>
    intro left top right bottom p hf
    unfold imagedisplay_fill_rect_loop
    rw [if_pos (Or.inl (by omega)), if_pos (Or.inl (by omega))]
  | succ fuel ih =>
    intro left top right bottom p hf
    rw [imagedisplay_fill_rect_loop]
    conv_rhs => rw [imagedisplay_fill_rect_loop]
    by_cases h0 : right - left ≤ 0 ∨ bottom - top ≤ 0
    · rw [if_pos h0, if_pos h0]
    rw [if_neg h0, if_neg h0]
    dsimp only
    by_cases h1 : right - left ≤ 0 ∨ bottom - (top + env.TILE_SIZE) ≤ 0
    · rw [if_pos h1, if_pos h1]
    rw [if_neg h1, if_neg h1]
    by_cases h2 : right - left ≤ 0 ∨ bottom - env.TILE_SIZE - (top + env.TILE_SIZE) ≤ 0
    · rw [if_pos h2, if_pos h2]
    rw [if_neg h2, if_neg h2]
    by_cases h3 : right - (left + env.TILE_SIZE) ≤ 0 ∨
        bottom - env.TILE_SIZE - (top + env.TILE_SIZE) ≤ 0
    · rw [if_pos h3, if_pos h3]
    rw [if_neg h3, if_neg h3]
    by_cases h4 : right - env.TILE_SIZE - (left + env.TILE_SIZE) ≤ 0 ∨
        bottom - env.TILE_SIZE - (top + env.TILE_SIZE) ≤ 0
    · rw [if_pos h4, if_pos h4]
    rw [if_neg h4, if_neg h4]
    exact ih _ _ _ _ _ (by omega)

theorem fill_rect_loop_fuel_add (env : Env) (d : Imagedisplay) (expose : VipsRect)
    (hT : 0 < env.TILE_SIZE) (fuel : Nat) (left top right bottom : Int) (p : Paint)
    (hf : (right - left).toNat ≤ fuel) :
    ∀ extra : Nat,
      imagedisplay_fill_rect_loop env d expose (fuel + extra) left top right bottom p =
        imagedisplay_fill_rect_loop env d expose fuel left top right bottom p := by
  intro extra
  induction extra with
  | zero => rfl
  | succ n ih =>
    rw [← Nat.add_assoc, fill_rect_loop_fuel_succ env d expose hT _ _ _ _ _ _ (by omega)]
    exact ih

/-- C19: for TILE_SIZE > 0 and every rectangle the peeling loop of
imagedisplay_fill_rect ends: the rounds the function allows are enough (any
further allowance gives the same result), and the fill is never left in the
state of a loop that has not ended. -/
theorem fill_rect_terminates (env : Env) (d : Imagedisplay) (expose : VipsRect) (p : Paint)
    (hT : 0 < env.TILE_SIZE) :
    (∀ extra : Nat,
      imagedisplay_fill_rect_loop env d expose
        ((VIPS_ROUND_UP (VIPS_RECT_RIGHT expose) env.TILE_SIZE -
          VIPS_ROUND_DOWN expose.left env.TILE_SIZE).toNat + extra)
        (VIPS_ROUND_DOWN expose.left env.TILE_SIZE)
        (VIPS_ROUND_DOWN expose.top env.TILE_SIZE)
        (VIPS_ROUND_UP (VIPS_RECT_RIGHT expose) env.TILE_SIZE)
        (VIPS_ROUND_UP (VIPS_RECT_BOTTOM expose) env.TILE_SIZE) p
      = imagedisplay_fill_rect env d expose p) ∧
    ((imagedisplay_fill_rect env d expose p).status = .diverged → p.status = .diverged) := by
  constructor
  · intro extra
    exact fill_rect_loop_fuel_add env d expose hT _ _ _ _ _ p (le_refl _) extra
  · rw [fill_rect_eq_fill_tiles env d expose hT]
    exact fill_tiles_not_diverged env d expose _ p

theorem fill_rect_terminates_example :
    (0 : Int) < 16 ∧
    (imagedisplay_fill_rect
      ⟨16, true, ⟨3, fun _ _ => none, fun _ _ => none⟩⟩
      { imagedisplay_zeroed with
          image_rect := ⟨0, 0, 100, 100⟩, widget_rect := ⟨0, 0, 50, 50⟩,
          paint_rect := ⟨0, 0, 50, 50⟩, left := 10, top := 5 }
      ⟨10, 5, 50, 50⟩ ⟨none, [], .running⟩).status ≠ .diverged := by
  refine ⟨by decide, fun h => ?_⟩
  have := (fill_rect_terminates
    ⟨16, true, ⟨3, fun _ _ => none, fun _ _ => none⟩⟩
    { imagedisplay_zeroed with
        image_rect := ⟨0, 0, 100, 100⟩, widget_rect := ⟨0, 0, 50, 50⟩,
        paint_rect := ⟨0, 0, 50, 50⟩, left := 10, top := 5 }
    ⟨10, 5, 50, 50⟩ ⟨none, [], .running⟩ (by decide)).2 h
  cases this


theorem intersect_axis (a w b e l k x : Int)
    (hl : l = max a b) (hk : k = max 0 (min (a + w) (b + e) - max a b)) :
    (l ≤ x ∧ x < l + k) ↔ ((a ≤ x ∧ x < a + w) ∧ (b ≤ x ∧ x < b + e)) := by
  omega

/-- The pixels of an intersection are the pixels of both rectangles. -/
theorem intersectrect_has_pixel (a b : VipsRect) (x y : Int) :
    (vips_rect_intersectrect a b).has_pixel x y ↔ a.has_pixel x y ∧ b.has_pixel x y := by
  obtain ⟨c1, c2, c3, c4⟩ := intersectrect_fields a b
  have hx := intersect_axis a.left a.width b.left b.width _ _ x c1 c3
  have hy := intersect_axis a.top a.height b.top b.height _ _ y c2 c4
  unfold VipsRect.has_pixel
  constructor
  · intro h
    have h1 := hx.mp ⟨h.1, h.2.1⟩
    have h2 := hy.mp ⟨h.2.2.1, h.2.2.2⟩
    exact ⟨⟨h1.1.1, h1.1.2, h2.1.1, h2.1.2⟩, ⟨h1.2.1, h1.2.2, h2.2.1, h2.2.2⟩⟩
  · intro h
    have h1 := hx.mpr ⟨⟨h.1.1, h.1.2.1⟩, ⟨h.2.1, h.2.2.1⟩⟩
    have h2 := hy.mpr ⟨⟨h.1.2.2.1, h.1.2.2.2⟩, ⟨h.2.2.2.1, h.2.2.2.2⟩⟩
    exact ⟨h1.1, h1.2, h2.1, h2.2⟩

/-- A rectangle with a pixel is not empty. -/
theorem not_isempty_of_has_pixel (r : VipsRect) (x y : Int) (h : r.has_pixel x y) :
    vips_rect_isempty r = false := by
  rw [isempty_false_iff]
  unfold VipsRect.has_pixel at h
  omega

/-- A rectangle that is not empty has its corner pixel. -/
theorem has_pixel_of_not_isempty (r : VipsRect) (h : vips_rect_isempty r = false) :
    r.has_pixel r.left r.top := by
  rw [isempty_false_iff] at h
  unfold VipsRect.has_pixel
  omega

theorem tiles_cover_nil (T : Int) (expose : VipsRect) (left top right bottom : Int)
    (h : right ≤ left ∨ bottom ≤ top) : TilesCover T expose left top right bottom [] := by
  unfold TilesCover
  refine ⟨fun x hx => (by cases hx), ?_, List.Pairwise.nil⟩
  intro px py h1 h2 h3 h4
  omega

/-- Two covered boxes that do not overlap make a covered box when put together. -/
theorem tiles_cover_append (T : Int) (expose : VipsRect)
    (l1 t1 r1 b1 l2 t2 r2 b2 l t r b : Int) (tiles1 tiles2 : List VipsRect)
    (h1 : TilesCover T expose l1 t1 r1 b1 tiles1)
    (h2 : TilesCover T expose l2 t2 r2 b2 tiles2)
    (hin1 : tiles1 ≠ [] → l ≤ l1 ∧ r1 ≤ r ∧ t ≤ t1 ∧ b1 ≤ b)
    (hin2 : tiles2 ≠ [] → l ≤ l2 ∧ r2 ≤ r ∧ t ≤ t2 ∧ b2 ≤ b)
    (hdis : r1 ≤ l2 ∨ r2 ≤ l1 ∨ b1 ≤ t2 ∨ b2 ≤ t1)
    (hcov : ∀ px py : Int, l ≤ px → px < r → t ≤ py → py < b →
      (l1 ≤ px ∧ px < r1 ∧ t1 ≤ py ∧ py < b1) ∨ (l2 ≤ px ∧ px < r2 ∧ t2 ≤ py ∧ py < b2)) :
    TilesCover T expose l t r b (tiles1 ++ tiles2) := by
  obtain ⟨m1, c1, d1⟩ := h1
  obtain ⟨m2, c2, d2⟩ := h2
  refine ⟨?_, ?_, ?_⟩
  · intro x hx
    rcases List.mem_append.mp hx with h | h
    · obtain ⟨a1, a2, a3, a4, a5, a6, a7, a8, a9⟩ := m1 x h
      have := hin1 (List.ne_nil_of_mem h)
      exact ⟨a1, a2, a3, a4, by omega, by omega, by omega, by omega, a9⟩
    · obtain ⟨a1, a2, a3, a4, a5, a6, a7, a8, a9⟩ := m2 x h
      have := hin2 (List.ne_nil_of_mem h)
      exact ⟨a1, a2, a3, a4, by omega, by omega, by omega, by omega, a9⟩
  · intro px py p1 p2 p3 p4 hp
    rcases hcov px py p1 p2 p3 p4 with ⟨q1, q2, q3, q4⟩ | ⟨q1, q2, q3, q4⟩
    · obtain ⟨x, hx, hxp⟩ := c1 px py q1 q2 q3 q4 hp
      exact ⟨x, List.mem_append_left _ hx, hxp⟩
    · obtain ⟨x, hx, hxp⟩ := c2 px py q1 q2 q3 q4 hp
      exact ⟨x, List.mem_append_right _ hx, hxp⟩
  · rw [List.pairwise_append]
    refine ⟨d1, d2, ?_⟩
    intro a ha c hc px py hp
    obtain ⟨a1, a2, -, -, a5, a6, a7, a8, -⟩ := m1 a ha
    obtain ⟨e1, e2, -, -, e5, e6, e7, e8, -⟩ := m2 c hc
    unfold VipsRect.has_pixel at hp
    rw [a1, a2, e1, e2] at hp
    omega


/-- One grid tile, recorded when it meets `expose`, covers its own cell. -/
theorem tiles_cover_single (T : Int) (expose : VipsRect) (x y : Int)
    (hx : T ∣ x) (hy : T ∣ y) :
    TilesCover T expose x y (x + T) (y + T)
      (if !vips_rect_isempty (vips_rect_intersectrect
          { left := x, top := y, width := T, height := T } expose)
        then [({ left := x, top := y, width := T, height := T } : VipsRect)] else []) := by
  unfold TilesCover
  by_cases he : vips_rect_isempty (vips_rect_intersectrect
      { left := x, top := y, width := T, height := T } expose) = true
  · rw [he]
    refine ⟨fun a ha => (by cases ha), ?_, List.Pairwise.nil⟩
    intro px py h1 h2 h3 h4 hp
    have hh : (vips_rect_intersectrect
        { left := x, top := y, width := T, height := T } expose).has_pixel px py :=
      (intersectrect_has_pixel _ _ px py).mpr ⟨⟨h1, h2, h3, h4⟩, hp⟩
    rw [not_isempty_of_has_pixel _ px py hh] at he
    cases he
  · have he2 := Bool.eq_false_iff.mpr he
    rw [he2]
    refine ⟨?_, ?_, List.pairwise_singleton _ _⟩
    · intro a ha
      have ha2 : a = { left := x, top := y, width := T, height := T } := by simpa using ha
      subst ha2
      exact ⟨rfl, rfl, hx, hy, le_refl _, le_refl _, le_refl _, le_refl _, he2⟩
    · intro px py h1 h2 h3 h4 _
      exact ⟨_, List.mem_singleton.mpr rfl, ⟨h1, h2, h3, h4⟩⟩

theorem dvd_gap (T a b : Int) (ha : T ∣ a) (hb : T ∣ b) (h : a < b) :
    a + T ≤ b := by
  have h1 : T ∣ b - a := Int.dvd_sub hb ha
  have h2 := Int.le_of_dvd (by omega) h1
  omega

/-- The tiles of one row cover the strip of the row. -/
theorem fill_rect_row_tiles_cover (T : Int) (hT : 0 < T) (expose : VipsRect)
    (tile_top right : Int) (htop : T ∣ tile_top) (hright : T ∣ right) :
    ∀ (fuel : Nat) (x : Int), T ∣ x → (right - x).toNat ≤ fuel →
      TilesCover T expose x tile_top right (tile_top + T)
        (fill_rect_row_tiles T expose tile_top right fuel x) := by
  intro fuel
  induction fuel with
  | zero =>
    intro x _ hf
    unfold fill_rect_row_tiles
    by_cases hlt : x < right
    · omega
    · rw [if_neg hlt]
      exact tiles_cover_nil _ _ _ _ _ _ (Or.inl (by omega))
  | succ n ih =>
    intro x hx hf
    unfold fill_rect_row_tiles
    by_cases hlt : x < right
    · rw [if_pos hlt]
      have hgap := dvd_gap T x right hx hright hlt
      have h1 := tiles_cover_single T expose x tile_top hx htop
      have h2 := ih (x + T) (Int.dvd_add hx (dvd_refl T)) (by omega)
      exact tiles_cover_append T expose _ _ _ _ _ _ _ _ _ _ _ _ _ _ h1 h2
        (fun _ => by omega) (fun _ => by omega) (Or.inl (le_refl _))
        (fun px py _ _ _ _ => by omega)
    · rw [if_neg hlt]
      exact tiles_cover_nil _ _ _ _ _ _ (Or.inl (by omega))

/-- The tiles of one column cover the strip of the column. -/
theorem fill_rect_column_tiles_cover (T : Int) (hT : 0 < T) (expose : VipsRect)
    (tile_left bottom : Int) (hleft : T ∣ tile_left) (hbottom : T ∣ bottom) :
    ∀ (fuel : Nat) (y : Int), T ∣ y → (bottom - y).toNat ≤ fuel →
      TilesCover T expose tile_left y (tile_left + T) bottom
        (fill_rect_column_tiles T expose tile_left bottom fuel y) := by
  intro fuel
  induction fuel with
  | zero =>
    intro y _ hf
    unfold fill_rect_column_tiles
    by_cases hlt : y < bottom
    · omega
    · rw [if_neg hlt]
      exact tiles_cover_nil _ _ _ _ _ _ (Or.inr (by omega))
  | succ n ih =>
    intro y hy hf
    unfold fill_rect_column_tiles
    by_cases hlt : y < bottom
    · rw [if_pos hlt]
      have hgap := dvd_gap T y bottom hy hbottom hlt
      have h1 := tiles_cover_single T expose tile_left y hleft hy
      have h2 := ih (y + T) (Int.dvd_add hy (dvd_refl T)) (by omega)
      exact tiles_cover_append T expose _ _ _ _ _ _ _ _ _ _ _ _ _ _ h1 h2
        (fun _ => by omega) (fun _ => by omega) (Or.inr (Or.inr (Or.inl (le_refl _))))
        (fun px py _ _ _ _ => by omega)
    · rw [if_neg hlt]
      exact tiles_cover_nil _ _ _ _ _ _ (Or.inr (by omega))

/-- The tiles of the peeling loop cover the box of the loop. -/
theorem fill_rect_loop_tiles_cover (T : Int) (hT : 0 < T) (expose : VipsRect) :
    ∀ (fuel : Nat) (l t r b : Int), T ∣ l → T ∣ t → T ∣ r → T ∣ b →
      (r - l).toNat ≤ fuel →
      TilesCover T expose l t r b (fill_rect_loop_tiles T expose fuel l t r b) := by
  intro fuel
  induction fuel with
  | zero =>
    intro l t r b _ _ _ _ hf
    unfold fill_rect_loop_tiles
    rw [if_pos (Or.inl (by omega))]
    exact tiles_cover_nil _ _ _ _ _ _ (Or.inl (by omega))
  | succ n ih =>
    intro l t r b dl dt dr db hf
    unfold fill_rect_loop_tiles
    by_cases h0 : r - l ≤ 0 ∨ b - t ≤ 0
    · rw [if_pos h0]
      exact tiles_cover_nil _ _ _ _ _ _ (by omega)
    rw [if_neg h0]
    dsimp only
    have dT := dvd_refl T
    have dt1 : T ∣ t + T := Int.dvd_add dt dT
    have dl1 : T ∣ l + T := Int.dvd_add dl dT
    have db1 : T ∣ b - T := Int.dvd_sub db dT
    have dr1 : T ∣ r - T := Int.dvd_sub dr dT
    have g1 := dvd_gap T l r dl dr (by omega)
    have g2 := dvd_gap T t b dt db (by omega)
    have c1 := fill_rect_row_tiles_cover T hT expose t r dt dr (r - l).toNat l dl (le_refl _)
    by_cases h1 : r - l ≤ 0 ∨ b - (t + T) ≤ 0
    · rw [if_pos h1, ← List.append_nil (fill_rect_row_tiles T expose t r (r - l).toNat l)]
      exact tiles_cover_append T expose _ _ _ _ _ _ _ _ _ _ _ _ _ _ c1
        (tiles_cover_nil T expose l b r b (Or.inr (le_refl _)))
        (fun _ => by omega) (fun _ => by omega) (Or.inr (Or.inr (Or.inl (by omega))))
        (fun px py _ _ _ _ => by omega)
    rw [if_neg h1]
    have g3 := dvd_gap T (t + T) b dt1 db (by omega)
    have c2 := fill_rect_row_tiles_cover T hT expose (b - T) r db1 dr (r - l).toNat l dl
      (le_refl _)
    by_cases h2 : r - l ≤ 0 ∨ b - T - (t + T) ≤ 0
    · rw [if_pos h2]
      exact tiles_cover_append T expose _ _ _ _ _ _ _ _ _ _ _ _ _ _ c1 c2
        (fun _ => by omega) (fun _ => by omega) (Or.inr (Or.inr (Or.inl (by omega))))
        (fun px py _ _ _ _ => by omega)
    rw [if_neg h2]
    have g4 := dvd_gap T (t + T) (b - T) dt1 db1 (by omega)
    have c3 := fill_rect_column_tiles_cover T hT expose l (b - T) dl db1
      (b - T - (t + T)).toNat (t + T) dt1 (le_refl _)
    by_cases h3 : r - (l + T) ≤ 0 ∨ b - T - (t + T) ≤ 0
    · rw [if_pos h3]
      simp only [List.append_assoc]
      have c23 := tiles_cover_append T expose _ _ _ _ _ _ _ _ l (t + T) r b _ _ c2 c3
        (fun _ => by omega) (fun _ => by omega) (Or.inr (Or.inr (Or.inr (by omega))))
        (fun px py _ _ _ _ => by omega)
      exact tiles_cover_append T expose _ _ _ _ _ _ _ _ _ _ _ _ _ _ c1 c23
        (fun _ => by omega) (fun _ => by omega) (Or.inr (Or.inr (Or.inl (by omega))))
        (fun px py _ _ _ _ => by omega)
    rw [if_neg h3]
    have g5 := dvd_gap T (l + T) r dl1 dr (by omega)
    have c4 := fill_rect_column_tiles_cover T hT expose (r - T) (b - T) dr1 db1
      (b - T - (t + T)).toNat (t + T) dt1 (le_refl _)
    by_cases h4 : r - T - (l + T) ≤ 0 ∨ b - T - (t + T) ≤ 0
    · rw [if_pos h4]
      simp only [List.append_assoc]
      have c34 := tiles_cover_append T expose _ _ _ _ _ _ _ _ l (t + T) r (b - T) _ _ c3 c4
        (fun _ => by omega) (fun _ => by omega) (Or.inl (by omega))
        (fun px py _ _ _ _ => by omega)
      have c234 := tiles_cover_append T expose _ _ _ _ _ _ _ _ l (t + T) r b _ _ c2 c34
        (fun _ => by omega) (fun _ => by omega) (Or.inr (Or.inr (Or.inr (by omega))))
        (fun px py _ _ _ _ => by omega)
      exact tiles_cover_append T expose _ _ _ _ _ _ _ _ _ _ _ _ _ _ c1 c234
        (fun _ => by omega) (fun _ => by omega) (Or.inr (Or.inr (Or.inl (by omega))))
        (fun px py _ _ _ _ => by omega)
    rw [if_neg h4]
    simp only [List.append_assoc]
    have c5 := ih (l + T) (t + T) (r - T) (b - T) dl1 dt1 dr1 db1 (by omega)
    have c45 := tiles_cover_append T expose _ _ _ _ _ _ _ _ (l + T) (t + T) r (b - T) _ _
      c4 c5 (fun _ => by omega) (fun _ => by omega) (Or.inr (Or.inl (by omega)))
      (fun px py _ _ _ _ => by omega)
    have c345 := tiles_cover_append T expose _ _ _ _ _ _ _ _ l (t + T) r (b - T) _ _ c3 c45
      (fun _ => by omega) (fun _ => by omega) (Or.inl (by omega))
      (fun px py _ _ _ _ => by omega)
    have c2345 := tiles_cover_append T expose _ _ _ _ _ _ _ _ l (t + T) r b _ _ c2 c345
      (fun _ => by omega) (fun _ => by omega) (Or.inr (Or.inr (Or.inr (by omega))))
      (fun px py _ _ _ _ => by omega)
    exact tiles_cover_append T expose _ _ _ _ _ _ _ _ _ _ _ _ _ _ c1 c2345
      (fun _ => by omega) (fun _ => by omega) (Or.inr (Or.inr (Or.inl (by omega))))
      (fun px py _ _ _ _ => by omega)

theorem round_down_dvd (n T : Int) : T ∣ VIPS_ROUND_DOWN n T := by
  unfold VIPS_ROUND_DOWN
  exact ⟨n.tdiv T, by have := Int.tdiv_add_tmod n T; omega⟩

theorem round_up_dvd (n T : Int) : T ∣ VIPS_ROUND_UP n T := by
  unfold VIPS_ROUND_UP
  exact round_down_dvd _ _

/-- The tiles of a fill cover the tile-aligned box around `expose`. -/
theorem fill_rect_tiles_cover (T : Int) (hT : 0 < T) (expose : VipsRect) :
    TilesCover T expose (VIPS_ROUND_DOWN expose.left T) (VIPS_ROUND_DOWN expose.top T)
      (VIPS_ROUND_UP (VIPS_RECT_RIGHT expose) T) (VIPS_ROUND_UP (VIPS_RECT_BOTTOM expose) T)
      (fill_rect_tiles T expose) := by
  unfold fill_rect_tiles
  exact fill_rect_loop_tiles_cover T hT expose _ _ _ _ _ (round_down_dvd _ _)
    (round_down_dvd _ _) (round_up_dvd _ _) (round_up_dvd _ _) (le_refl _)


theorem quot_ge (T k K a : Int) (hT : 0 < T) (hK : K = k * T) (h : K ≤ a) : k ≤ a / T :=
  Int.le_ediv_of_mul_le hT (hK ▸ h)

theorem quot_eq (T k K a : Int) (hT : 0 < T) (hK : K = k * T) (h : a = K) : a / T = k := by
  rw [h, hK]
  exact Int.mul_ediv_cancel k (by omega)

theorem quot_gt (T k K a : Int) (hT : 0 < T) (hK : K = k * T) (h : K + T ≤ a) :
    k + 1 ≤ a / T := by
  apply Int.le_ediv_of_mul_le hT
  have : (k + 1) * T = k * T + T := by ring
  omega

/-- A tile of the top row of round k has depth k and edge 0. -/
theorem ring_rank_top (T L Tp R B k K : Int) (x : VipsRect) (hT : 0 < T) (hK : K = k * T)
    (h1 : K ≤ x.left - L) (h2 : K ≤ R - (x.left + T)) (h3 : x.top - Tp = K)
    (h4 : K ≤ B - (x.top + T)) : ring_rank T L Tp R B x = 4 * k := by
  have q1 := quot_ge T k K _ hT hK h1
  have q2 := quot_ge T k K _ hT hK h2
  have q3 := quot_eq T k K _ hT hK h3
  have q4 := quot_ge T k K _ hT hK h4
  unfold ring_rank ring_edge ring_depth
  generalize (x.left - L) / T = a at *
  generalize (R - (x.left + T)) / T = b at *
  generalize (x.top - Tp) / T = c at *
  generalize (B - (x.top + T)) / T = e at *
  split_ifs <;> omega

/-- A tile of the bottom row of round k, below the top row, has depth k and edge 1. -/
theorem ring_rank_bottom (T L Tp R B k K : Int) (x : VipsRect) (hT : 0 < T)
    (hK : K = k * T)
    (h1 : K ≤ x.left - L) (h2 : K ≤ R - (x.left + T)) (h3 : K + T ≤ x.top - Tp)
    (h4 : B - (x.top + T) = K) : ring_rank T L Tp R B x = 4 * k + 1 := by
  have q1 := quot_ge T k K _ hT hK h1
  have q2 := quot_ge T k K _ hT hK h2
  have q3 := quot_gt T k K _ hT hK h3
  have q4 := quot_eq T k K _ hT hK h4
  unfold ring_rank ring_edge ring_depth
  generalize (x.left - L) / T = a at *
  generalize (R - (x.left + T)) / T = b at *
  generalize (x.top - Tp) / T = c at *
  generalize (B - (x.top + T)) / T = e at *
  split_ifs <;> omega

/-- A tile of the left column of round k, between the rows, has depth k and edge 2. -/
theorem ring_rank_left (T L Tp R B k K : Int) (x : VipsRect) (hT : 0 < T)
    (hK : K = k * T)
    (h1 : x.left - L = K) (h2 : K ≤ R - (x.left + T)) (h3 : K + T ≤ x.top - Tp)
    (h4 : K + T ≤ B - (x.top + T)) : ring_rank T L Tp R B x = 4 * k + 2 := by
  have q1 := quot_eq T k K _ hT hK h1
  have q2 := quot_ge T k K _ hT hK h2
  have q3 := quot_gt T k K _ hT hK h3
  have q4 := quot_gt T k K _ hT hK h4
  unfold ring_rank ring_edge ring_depth
  generalize (x.left - L) / T = a at *
  generalize (R - (x.left + T)) / T = b at *
  generalize (x.top - Tp) / T = c at *
  generalize (B - (x.top + T)) / T = e at *
  split_ifs <;> omega

/-- A tile of the right column of round k, between the rows and right of the left
column, has depth k and edge 3. -/
theorem ring_rank_right (T L Tp R B k K : Int) (x : VipsRect) (hT : 0 < T)
    (hK : K = k * T)
    (h1 : K + T ≤ x.left - L) (h2 : R - (x.left + T) = K) (h3 : K + T ≤ x.top - Tp)
    (h4 : K + T ≤ B - (x.top + T)) : ring_rank T L Tp R B x = 4 * k + 3 := by
  have q1 := quot_gt T k K _ hT hK h1
  have q2 := quot_eq T k K _ hT hK h2
  have q3 := quot_gt T k K _ hT hK h3
  have q4 := quot_gt T k K _ hT hK h4
  unfold ring_rank ring_edge ring_depth
  generalize (x.left - L) / T = a at *
  generalize (R - (x.left + T)) / T = b at *
  generalize (x.top - Tp) / T = c at *
  generalize (B - (x.top + T)) / T = e at *
  split_ifs <;> omega

/-- The edge of a tile is one of 0, 1, 2, 3. -/
theorem ring_edge_range (T L Tp R B : Int) (x : VipsRect) :
    0 ≤ ring_edge T L Tp R B x ∧ ring_edge T L Tp R B x ≤ 3 := by
  unfold ring_edge
  split_ifs <;> omega

theorem sorted_const (f : VipsRect → Int) (c : Int) (l : List VipsRect)
    (h : ∀ x ∈ l, f x = c) :
    l.Pairwise (fun a b => f a ≤ f b) ∧ ∀ x ∈ l, c ≤ f x := by
  refine ⟨List.pairwise_of_forall_mem_list ?_, fun x hx => le_of_eq (h x hx).symm⟩
  intro a ha b hb
  rw [h a ha, h b hb]

theorem sorted_append_const (f : VipsRect → Int) (c lo : Int) (l1 l2 : List VipsRect)
    (h1 : ∀ x ∈ l1, f x = c)
    (h2 : l2.Pairwise (fun a b => f a ≤ f b) ∧ ∀ x ∈ l2, lo ≤ f x) (hc : c ≤ lo) :
    (l1 ++ l2).Pairwise (fun a b => f a ≤ f b) ∧ ∀ x ∈ l1 ++ l2, c ≤ f x := by
  refine ⟨?_, ?_⟩
  · rw [List.pairwise_append]
    refine ⟨(sorted_const f c l1 h1).1, h2.1, ?_⟩
    intro a ha b hb
    have := h2.2 b hb
    rw [h1 a ha]
    omega
  · intro x hx
    rcases List.mem_append.mp hx with h | h
    · exact le_of_eq (h1 x h).symm
    · have := h2.2 x h
      omega


/-- The tiles of the peeling loop, started at round k of the box (L, Tp, R, B), come
in non-decreasing rank, none below the first rank of round k. -/
theorem fill_rect_loop_tiles_sorted (T : Int) (hT : 0 < T) (expose : VipsRect)
    (L Tp R B : Int) :
    ∀ (fuel : Nat) (k K l t r b : Int), K = k * T →
      l = L + K → t = Tp + K → r = R - K → b = B - K →
      T ∣ l → T ∣ t → T ∣ r → T ∣ b →
      (fill_rect_loop_tiles T expose fuel l t r b).Pairwise
          (fun x y => ring_rank T L Tp R B x ≤ ring_rank T L Tp R B y) ∧
        ∀ x ∈ fill_rect_loop_tiles T expose fuel l t r b,
          4 * k ≤ ring_rank T L Tp R B x := by
  intro fuel
  induction fuel with
  | zero =>
    intro k K l t r b _ _ _ _ _ _ _ _ _
    unfold fill_rect_loop_tiles
    split
    · exact ⟨List.Pairwise.nil, fun x hx => (by cases hx)⟩
    · exact ⟨List.Pairwise.nil, fun x hx => (by cases hx)⟩
  | succ n ih =>
    intro k K l t r b hK el et er eb dl dt dr db
    unfold fill_rect_loop_tiles
    by_cases h0 : r - l ≤ 0 ∨ b - t ≤ 0
    · rw [if_pos h0]
      exact ⟨List.Pairwise.nil, fun x hx => (by cases hx)⟩
    rw [if_neg h0]
    dsimp only
    have dT := dvd_refl T
    have dt1 : T ∣ t + T := Int.dvd_add dt dT
    have dl1 : T ∣ l + T := Int.dvd_add dl dT
    have db1 : T ∣ b - T := Int.dvd_sub db dT
    have dr1 : T ∣ r - T := Int.dvd_sub dr dT
    have g1 := dvd_gap T l r dl dr (by omega)
    have g2 := dvd_gap T t b dt db (by omega)
    have c1 := (fill_rect_row_tiles_cover T hT expose t r dt dr (r - l).toNat l dl
      (le_refl _)).1
    have r1 : ∀ x ∈ fill_rect_row_tiles T expose t r (r - l).toNat l,
        ring_rank T L Tp R B x = 4 * k := by
      intro x hx
      obtain ⟨-, -, -, -, a5, a6, a7, a8, -⟩ := c1 x hx
      exact ring_rank_top T L Tp R B k K x hT hK (by omega) (by omega) (by omega) (by omega)
    by_cases h1 : r - l ≤ 0 ∨ b - (t + T) ≤ 0
    · rw [if_pos h1]
      exact sorted_const _ _ _ r1
    rw [if_neg h1]
    have g3 := dvd_gap T (t + T) b dt1 db (by omega)
    have c2 := (fill_rect_row_tiles_cover T hT expose (b - T) r db1 dr (r - l).toNat l dl
      (le_refl _)).1
    have r2 : ∀ x ∈ fill_rect_row_tiles T expose (b - T) r (r - l).toNat l,
        ring_rank T L Tp R B x = 4 * k + 1 := by
      intro x hx
      obtain ⟨-, -, -, -, a5, a6, a7, a8, -⟩ := c2 x hx
      exact ring_rank_bottom T L Tp R B k K x hT hK (by omega) (by omega) (by omega)
        (by omega)
    by_cases h2 : r - l ≤ 0 ∨ b - T - (t + T) ≤ 0
    · rw [if_pos h2]
      exact sorted_append_const _ _ _ _ _ r1 (sorted_const _ _ _ r2) (by omega)
    rw [if_neg h2]
    have g4 := dvd_gap T (t + T) (b - T) dt1 db1 (by omega)
    have c3 := (fill_rect_column_tiles_cover T hT expose l (b - T) dl db1
      (b - T - (t + T)).toNat (t + T) dt1 (le_refl _)).1
    have r3 : ∀ x ∈ fill_rect_column_tiles T expose l (b - T) (b - T - (t + T)).toNat
        (t + T), ring_rank T L Tp R B x = 4 * k + 2 := by
      intro x hx
      obtain ⟨-, -, -, -, a5, a6, a7, a8, -⟩ := c3 x hx
      exact ring_rank_left T L Tp R B k K x hT hK (by omega) (by omega) (by omega)
        (by omega)
    by_cases h3 : r - (l + T) ≤ 0 ∨ b - T - (t + T) ≤ 0
    · rw [if_pos h3]
      simp only [List.append_assoc]
      exact sorted_append_const _ _ _ _ _ r1
        (sorted_append_const _ _ _ _ _ r2 (sorted_const _ _ _ r3) (by omega)) (by omega)
    rw [if_neg h3]
    have g5 := dvd_gap T (l + T) r dl1 dr (by omega)
    have c4 := (fill_rect_column_tiles_cover T hT expose (r - T) (b - T) dr1 db1
      (b - T - (t + T)).toNat (t + T) dt1 (le_refl _)).1
    have r4 : ∀ x ∈ fill_rect_column_tiles T expose (r - T) (b - T)
        (b - T - (t + T)).toNat (t + T), ring_rank T L Tp R B x = 4 * k + 3 := by
      intro x hx
      obtain ⟨-, -, -, -, a5, a6, a7, a8, -⟩ := c4 x hx
      exact ring_rank_right T L Tp R B k K x hT hK (by omega) (by omega) (by omega)
        (by omega)
    by_cases h4 : r - T - (l + T) ≤ 0 ∨ b - T - (t + T) ≤ 0
    · rw [if_pos h4]
      simp only [List.append_assoc]
      exact sorted_append_const _ _ _ _ _ r1
        (sorted_append_const _ _ _ _ _ r2
          (sorted_append_const _ _ _ _ _ r3 (sorted_const _ _ _ r4) (by omega)) (by omega))
        (by omega)
    rw [if_neg h4]
    simp only [List.append_assoc]
    have r5 := ih (k + 1) (K + T) (l + T) (t + T) (r - T) (b - T)
      (by rw [hK]; ring) (by omega) (by omega) (by omega) (by omega) dl1 dt1 dr1 db1
    exact sorted_append_const _ _ _ _ _ r1
      (sorted_append_const _ _ _ _ _ r2
        (sorted_append_const _ _ _ _ _ r3
          (sorted_append_const _ _ (4 * (k + 1)) _ _ r4 r5 (by omega)) (by omega)) (by omega))
      (by omega)

/-- Claim C13: for a positive TILE_SIZE, imagedisplay_fill_rect is the run of
imagedisplay_fill_tile over the tiles of fill_rect_tiles in order, and of two
tiles of that list the earlier one has the smaller ring depth in the
tile-aligned box around `expose`, or the same depth and an edge that is not
later in the order top row, bottom row, left column, right column. -/
theorem fill_rect_tiles_ring_order (env : Env) (d : Imagedisplay) (expose : VipsRect)
    (p : Paint) (hT : 0 < env.TILE_SIZE) :
    imagedisplay_fill_rect env d expose p =
        fill_tiles env d expose (fill_rect_tiles env.TILE_SIZE expose) p ∧
      (fill_rect_tiles env.TILE_SIZE expose).Pairwise (fun a b =>
        fill_rect_depth env.TILE_SIZE expose a < fill_rect_depth env.TILE_SIZE expose b ∨
        (fill_rect_depth env.TILE_SIZE expose a = fill_rect_depth env.TILE_SIZE expose b ∧
         fill_rect_edge env.TILE_SIZE expose a ≤ fill_rect_edge env.TILE_SIZE expose b)) := by
  refine ⟨fill_rect_eq_fill_tiles env d expose hT p, ?_⟩
  have h := (fill_rect_loop_tiles_sorted env.TILE_SIZE hT expose
    (VIPS_ROUND_DOWN expose.left env.TILE_SIZE) (VIPS_ROUND_DOWN expose.top env.TILE_SIZE)
    (VIPS_ROUND_UP (VIPS_RECT_RIGHT expose) env.TILE_SIZE)
    (VIPS_ROUND_UP (VIPS_RECT_BOTTOM expose) env.TILE_SIZE)
    ((VIPS_ROUND_UP (VIPS_RECT_RIGHT expose) env.TILE_SIZE) -
      (VIPS_ROUND_DOWN expose.left env.TILE_SIZE)).toNat 0 0 _ _ _ _
    (by ring) (by ring) (by ring) (by ring) (by ring)
    (round_down_dvd _ _) (round_down_dvd _ _) (round_up_dvd _ _) (round_up_dvd _ _)).1
  unfold fill_rect_tiles
  refine h.imp ?_
  intro a b hab
  unfold ring_rank at hab
  unfold fill_rect_depth fill_rect_edge
  have ea := ring_edge_range env.TILE_SIZE (VIPS_ROUND_DOWN expose.left env.TILE_SIZE)
    (VIPS_ROUND_DOWN expose.top env.TILE_SIZE)
    (VIPS_ROUND_UP (VIPS_RECT_RIGHT expose) env.TILE_SIZE)
    (VIPS_ROUND_UP (VIPS_RECT_BOTTOM expose) env.TILE_SIZE) a
  have eb := ring_edge_range env.TILE_SIZE (VIPS_ROUND_DOWN expose.left env.TILE_SIZE)
    (VIPS_ROUND_DOWN expose.top env.TILE_SIZE)
    (VIPS_ROUND_UP (VIPS_RECT_RIGHT expose) env.TILE_SIZE)
    (VIPS_ROUND_UP (VIPS_RECT_BOTTOM expose) env.TILE_SIZE) b
  omega

theorem fill_rect_tiles_ring_order_example :
    (0 : Int) < 16 ∧
    (fill_rect_tiles 16 ⟨10, 5, 50, 50⟩).Pairwise (fun a b =>
      fill_rect_depth 16 ⟨10, 5, 50, 50⟩ a < fill_rect_depth 16 ⟨10, 5, 50, 50⟩ b ∨
      (fill_rect_depth 16 ⟨10, 5, 50, 50⟩ a = fill_rect_depth 16 ⟨10, 5, 50, 50⟩ b ∧
       fill_rect_edge 16 ⟨10, 5, 50, 50⟩ a ≤ fill_rect_edge 16 ⟨10, 5, 50, 50⟩ b)) ∧
    (fill_rect_tiles 16 ⟨10, 5, 50, 50⟩).map (fill_rect_depth 16 ⟨10, 5, 50, 50⟩)
      = [0, 0, 0, 0, 0, 0, 0, 0, 0, 0, 0, 0, 1, 1, 1, 1] ∧
    (fill_rect_tiles 16 ⟨10, 5, 50, 50⟩).map (fill_rect_edge 16 ⟨10, 5, 50, 50⟩)
      = [0, 0, 0, 0, 1, 1, 1, 1, 2, 2, 3, 3, 0, 0, 1, 1] :=
  ⟨by decide,
    (fill_rect_tiles_ring_order
      ⟨16, true, ⟨3, fun _ _ => none, fun _ _ => none⟩⟩
      { imagedisplay_zeroed with
          image_rect := ⟨0, 0, 100, 100⟩, widget_rect := ⟨0, 0, 50, 50⟩,
          paint_rect := ⟨0, 0, 50, 50⟩, left := 10, top := 5 }
      ⟨10, 5, 50, 50⟩ ⟨none, [], .running⟩ (by decide)).2,
    by decide, by decide⟩


/-- A tile whose mask prepare or colour prepare fails leaves cairo_buffer as it was,
and leaves the fill running when the g_asserts accept the tile. -/
theorem fill_tile_failed_prepare (env : Env) (d : Imagedisplay) (tile : VipsRect) (p : Paint)
    (hfail :
      env.source.mask_prepare p.requests
          (imagedisplay_buffer_to_image d (imagedisplay_image_to_buffer d tile)) = none ∨
      env.source.rgb_prepare
          (p.requests ++ [Request.mask
            (imagedisplay_buffer_to_image d (imagedisplay_image_to_buffer d tile))])
          (imagedisplay_buffer_to_image d (imagedisplay_image_to_buffer d tile)) = none) :
    (imagedisplay_fill_tile env d tile p).cairo_buffer = p.cairo_buffer ∧
      ((env.asserts = true → imagedisplay_fill_tile_asserts env d tile = true) →
        (imagedisplay_fill_tile env d tile p).status = p.status) := by
  unfold imagedisplay_fill_tile
  by_cases hrun : p.status ≠ .running
  · rw [if_pos hrun]
    exact ⟨rfl, fun _ => rfl⟩
  rw [if_neg hrun]
  by_cases hbad : (env.asserts && !imagedisplay_fill_tile_asserts env d tile) = true
  · rw [if_pos hbad]
    refine ⟨halt_cairo_buffer _ _, fun hok => ?_⟩
    simp only [Bool.and_eq_true, Bool.not_eq_true', ] at hbad
    rw [hok hbad.1] at hbad
    cases hbad.2
  rw [if_neg hbad]
  dsimp only
  by_cases hemp : vips_rect_isempty
      (imagedisplay_buffer_to_image d (imagedisplay_image_to_buffer d tile)) = true
  · rw [if_pos hemp]
    exact ⟨rfl, fun _ => rfl⟩
  rw [if_neg hemp]
  rcases hfail with hm | hr
  · rw [hm]
    exact ⟨rfl, fun _ => rfl⟩
  · cases hm : env.source.mask_prepare p.requests
        (imagedisplay_buffer_to_image d (imagedisplay_image_to_buffer d tile)) with
    | none => exact ⟨rfl, fun _ => rfl⟩
    | some mask_region =>
      dsimp only
      rw [hr]
      exact ⟨rfl, fun _ => rfl⟩

/-- Claim C15: for a positive TILE_SIZE and any pixel source, imagedisplay_fill_rect is
the run of imagedisplay_fill_tile over the clips of the tiles of
fill_rect_tiles, a list that does not depend on the pixel source; and a call of
imagedisplay_fill_tile whose mask prepare or colour prepare fails leaves
cairo_buffer unchanged and, for a tile the g_asserts accept, leaves the status
of the fill unchanged, so the run goes on to the next tile. -/
theorem fill_rect_continues_after_failed_prepare (T : Int) (hT : 0 < T) (asserts : Bool)
    (source : PixelSource) (d : Imagedisplay) (expose : VipsRect) (p : Paint) :
    imagedisplay_fill_rect ⟨T, asserts, source⟩ d expose p =
        fill_tiles ⟨T, asserts, source⟩ d expose (fill_rect_tiles T expose) p ∧
      ∀ (tile : VipsRect) (q : Paint),
        (source.mask_prepare q.requests
            (imagedisplay_buffer_to_image d (imagedisplay_image_to_buffer d tile)) = none ∨
          source.rgb_prepare
            (q.requests ++ [Request.mask
              (imagedisplay_buffer_to_image d (imagedisplay_image_to_buffer d tile))])
            (imagedisplay_buffer_to_image d (imagedisplay_image_to_buffer d tile)) = none) →
        (imagedisplay_fill_tile ⟨T, asserts, source⟩ d tile q).cairo_buffer = q.cairo_buffer ∧
          ((asserts = true →
              imagedisplay_fill_tile_asserts ⟨T, asserts, source⟩ d tile = true) →
            (imagedisplay_fill_tile ⟨T, asserts, source⟩ d tile q).status = q.status) :=
  ⟨fill_rect_eq_fill_tiles ⟨T, asserts, source⟩ d expose hT p,
    fun tile q hfail => fill_tile_failed_prepare ⟨T, asserts, source⟩ d tile q hfail⟩

set_option maxRecDepth 20000 in
theorem fill_rect_continues_after_failed_prepare_example :
    (0 : Int) < 16 ∧
    (imagedisplay_fill_rect ⟨16, true, ⟨3, fun _ _ => none, fun _ _ => none⟩⟩
        { imagedisplay_zeroed with
            image_rect := ⟨0, 0, 100, 100⟩, widget_rect := ⟨0, 0, 50, 50⟩,
            paint_rect := ⟨0, 0, 50, 50⟩, left := 10, top := 5 }
        ⟨10, 5, 50, 50⟩ ⟨none, [], .running⟩ =
      fill_tiles ⟨16, true, ⟨3, fun _ _ => none, fun _ _ => none⟩⟩
        { imagedisplay_zeroed with
            image_rect := ⟨0, 0, 100, 100⟩, widget_rect := ⟨0, 0, 50, 50⟩,
            paint_rect := ⟨0, 0, 50, 50⟩, left := 10, top := 5 }
        ⟨10, 5, 50, 50⟩ (fill_rect_tiles 16 ⟨10, 5, 50, 50⟩) ⟨none, [], .running⟩) ∧
    (imagedisplay_fill_rect ⟨16, true, ⟨3, fun _ _ => none, fun _ _ => none⟩⟩
        { imagedisplay_zeroed with
            image_rect := ⟨0, 0, 100, 100⟩, widget_rect := ⟨0, 0, 50, 50⟩,
            paint_rect := ⟨0, 0, 50, 50⟩, left := 10, top := 5 }
        ⟨10, 5, 50, 50⟩ ⟨none, [], .running⟩).requests.length = 16 ∧
    (imagedisplay_fill_rect ⟨16, true, ⟨3, fun _ _ => none, fun _ _ => none⟩⟩
        { imagedisplay_zeroed with
            image_rect := ⟨0, 0, 100, 100⟩, widget_rect := ⟨0, 0, 50, 50⟩,
            paint_rect := ⟨0, 0, 50, 50⟩, left := 10, top := 5 }
        ⟨10, 5, 50, 50⟩ ⟨none, [], .running⟩).status = .running :=
  ⟨by decide,
    (fill_rect_continues_after_failed_prepare 16 (by decide) true
      ⟨3, fun _ _ => none, fun _ _ => none⟩
      { imagedisplay_zeroed with
          image_rect := ⟨0, 0, 100, 100⟩, widget_rect := ⟨0, 0, 50, 50⟩,
          paint_rect := ⟨0, 0, 50, 50⟩, left := 10, top := 5 }
      ⟨10, 5, 50, 50⟩ ⟨none, [], .running⟩).1,
    by decide, by decide⟩


/-- A running fill of an accepted tile with a non-empty clip, both prepares
succeeding and a zero mask byte: only the two requests are recorded. -/
theorem fill_tile_mask_zero (env : Env) (d : Imagedisplay) (tile : VipsRect) (p : Paint)
    (mask_region rgb_region : VipsRegion)
    (hrun : p.status = .running)
    (hassert : env.asserts = true → imagedisplay_fill_tile_asserts env d tile = true)
    (hne : vips_rect_isempty
      (imagedisplay_buffer_to_image d (imagedisplay_image_to_buffer d tile)) = false)
    (hmask : env.source.mask_prepare p.requests
      (imagedisplay_buffer_to_image d (imagedisplay_image_to_buffer d tile)) = some mask_region)
    (hrgb : env.source.rgb_prepare
      (p.requests ++ [Request.mask
        (imagedisplay_buffer_to_image d (imagedisplay_image_to_buffer d tile))])
      (imagedisplay_buffer_to_image d (imagedisplay_image_to_buffer d tile)) = some rgb_region)
    (hbyte : load mask_region.data (VIPS_REGION_ADDR mask_region
      (imagedisplay_buffer_to_image d (imagedisplay_image_to_buffer d tile)).left
      (imagedisplay_buffer_to_image d (imagedisplay_image_to_buffer d tile)).top) 1 = some [0]) :
    imagedisplay_fill_tile env d tile p =
      { p with requests := p.requests ++
        [Request.mask (imagedisplay_buffer_to_image d (imagedisplay_image_to_buffer d tile))] ++
        [Request.rgb (imagedisplay_buffer_to_image d (imagedisplay_image_to_buffer d tile))] } := by
  have hgate : ¬ ((env.asserts && !imagedisplay_fill_tile_asserts env d tile) = true) := by
    intro h
    rw [Bool.and_eq_true] at h
    rw [hassert h.1] at h
    exact absurd h.2 (by decide)
  unfold imagedisplay_fill_tile
  rw [if_neg (by rw [hrun]; exact fun h => h rfl), if_neg hgate]
  dsimp only
  rw [if_neg (by rw [hne]; exact Bool.false_ne_true), hmask]
  dsimp only
  rw [hrgb]
  dsimp only
  rw [hbyte]
  dsimp only
  rw [if_neg (fun h => h rfl)]

/-- The same fill with a non-zero mask byte: the buffer becomes what the conversion
returns. -/
theorem fill_tile_mask_set (env : Env) (d : Imagedisplay) (tile : VipsRect) (p : Paint)
    (mask_region rgb_region : VipsRegion) (m : Nat) (cairo bytes : Buf)
    (hrun : p.status = .running)
    (hassert : env.asserts = true → imagedisplay_fill_tile_asserts env d tile = true)
    (hne : vips_rect_isempty
      (imagedisplay_buffer_to_image d (imagedisplay_image_to_buffer d tile)) = false)
    (hmask : env.source.mask_prepare p.requests
      (imagedisplay_buffer_to_image d (imagedisplay_image_to_buffer d tile)) = some mask_region)
    (hrgb : env.source.rgb_prepare
      (p.requests ++ [Request.mask
        (imagedisplay_buffer_to_image d (imagedisplay_image_to_buffer d tile))])
      (imagedisplay_buffer_to_image d (imagedisplay_image_to_buffer d tile)) = some rgb_region)
    (hbyte : load mask_region.data (VIPS_REGION_ADDR mask_region
      (imagedisplay_buffer_to_image d (imagedisplay_image_to_buffer d tile)).left
      (imagedisplay_buffer_to_image d (imagedisplay_image_to_buffer d tile)).top) 1 = some [m])
    (hm : m ≠ 0) (hbuf : p.cairo_buffer = some cairo)
    (hconv : (if env.source.Bands = 4 then
        imagedisplay_rgba_to_cairo cairo
          ((imagedisplay_image_to_buffer d tile).top * (4 * d.paint_rect.width) +
            (imagedisplay_image_to_buffer d tile).left * 4)
          rgb_region.data
          (VIPS_REGION_ADDR rgb_region
            (imagedisplay_buffer_to_image d (imagedisplay_image_to_buffer d tile)).left
            (imagedisplay_buffer_to_image d (imagedisplay_image_to_buffer d tile)).top)
          (imagedisplay_buffer_to_image d (imagedisplay_image_to_buffer d tile)).width
          (imagedisplay_buffer_to_image d (imagedisplay_image_to_buffer d tile)).height
          (4 * d.paint_rect.width) (VIPS_REGION_LSKIP rgb_region)
      else
        imagedisplay_rgb_to_cairo cairo
          ((imagedisplay_image_to_buffer d tile).top * (4 * d.paint_rect.width) +
            (imagedisplay_image_to_buffer d tile).left * 4)
          rgb_region.data
          (VIPS_REGION_ADDR rgb_region
            (imagedisplay_buffer_to_image d (imagedisplay_image_to_buffer d tile)).left
            (imagedisplay_buffer_to_image d (imagedisplay_image_to_buffer d tile)).top)
          (imagedisplay_buffer_to_image d (imagedisplay_image_to_buffer d tile)).width
          (imagedisplay_buffer_to_image d (imagedisplay_image_to_buffer d tile)).height
          (4 * d.paint_rect.width) (VIPS_REGION_LSKIP rgb_region)) = some bytes) :
    imagedisplay_fill_tile env d tile p =
      { cairo_buffer := some bytes,
        requests := p.requests ++
          [Request.mask (imagedisplay_buffer_to_image d (imagedisplay_image_to_buffer d tile))] ++
          [Request.rgb (imagedisplay_buffer_to_image d (imagedisplay_image_to_buffer d tile))],
        status := p.status } := by
  have hgate : ¬ ((env.asserts && !imagedisplay_fill_tile_asserts env d tile) = true) := by
    intro h
    rw [Bool.and_eq_true] at h
    rw [hassert h.1] at h
    exact absurd h.2 (by decide)
  unfold imagedisplay_fill_tile
  rw [if_neg (by rw [hrun]; exact fun h => h rfl), if_neg hgate]
  dsimp only
  rw [if_neg (by rw [hne]; exact Bool.false_ne_true), hmask]
  dsimp only
  rw [hrgb]
  dsimp only
  rw [hbyte]
  dsimp only
  rw [if_pos hm, hbuf]
  dsimp only
  rw [hconv]


/-- One axis of the clip of a tile that lies in the image: the clip is the target
moved by the scroll offset, and the target lies in the buffer. -/
theorem fill_axis (l w s pl pw il iw tl tw cl cw : Int)
    (htl : tl = max (l - s + pl) pl - pl)
    (htw : tw = max 0 (min (l - s + pl + w) (pl + pw) - max (l - s + pl) pl))
    (hcl : cl = max (tl + pl - pl + s) il)
    (hcw : cw = max 0 (min (tl + pl - pl + s + tw) (il + iw) - max (tl + pl - pl + s) il))
    (h1 : il ≤ l) (h2 : l + w ≤ il + iw) (hpos : 0 < cw) :
    cl = tl + s ∧ cw = tw ∧ 0 ≤ tl ∧ tl + tw ≤ pw := by
  subst hcl hcw
  have a1 : tl = max (l - s) 0 := by omega
  have a2 : tw = max 0 (min (l - s + w) pw - tl) := by omega
  clear htl htw
  omega

theorem row_fits (n w r b : Int) (hr : r < n) (hb : b ≤ w) (hw : 0 ≤ w) :
    r * w + b ≤ n * w := by
  have h : (r + 1) * w ≤ n * w := Int.mul_le_mul_of_nonneg_right (by omega) hw
  have e : (r + 1) * w = r * w + w := by ring
  omega

theorem row_unique (w r q tl cw bx : Int) (h0 : 0 ≤ tl) (h1 : tl + cw ≤ w)
    (hb0 : 0 ≤ bx) (hb1 : bx < w)
    (ha : r * w + tl ≤ q * w + bx) (hb : q * w + bx < r * w + tl + cw) : q = r := by
  have hw : 0 ≤ w := by omega
  rcases lt_trichotomy q r with h | h | h
  · have := row_fits r w q w h (le_refl _) hw
    omega
  · exact h
  · have := row_fits q w r w h (le_refl _) hw
    omega

/-- A byte of a buffer pixel outside the target rectangle lies in none of the
rows the conversion writes. -/
theorem frame_index (pw tl tt cw ch bx by1 y1 i : Int) (h0 : 0 ≤ tl) (h1 : tl + cw ≤ pw)
    (hb0 : 0 ≤ bx) (hb1 : bx < pw)
    (hnot : ¬ (tl ≤ bx ∧ bx < tl + cw ∧ tt ≤ by1 ∧ by1 < tt + ch))
    (hy0 : 0 ≤ y1) (hy1 : y1 < ch)
    (hi0 : (by1 * pw + bx) * 4 ≤ i) (hi1 : i < (by1 * pw + bx) * 4 + 4) :
    ¬ (tt * (4 * pw) + tl * 4 + y1 * (4 * pw) ≤ i ∧
      i < tt * (4 * pw) + tl * 4 + y1 * (4 * pw) + 4 * cw) := by
  rintro ⟨a, b⟩
  have e1 : tt * (4 * pw) + y1 * (4 * pw) = ((tt + y1) * pw) * 4 := by ring
  have e2 : (by1 * pw + bx) * 4 = (by1 * pw) * 4 + bx * 4 := by ring
  have hq : by1 = tt + y1 := row_unique pw (tt + y1) by1 tl cw bx h0 h1 hb0 hb1
    (by omega) (by omega)
  subst hq
  omega

/-- The rows of the target rectangle lie in a buffer of the size of paint_rect. -/
theorem buffer_row_fits (pw ph tl tt cw ch y1 : Int) (h0 : 0 ≤ tl) (h1 : tl + cw ≤ pw)
    (h2 : 0 ≤ tt) (h3 : tt + ch ≤ ph) (hcw : 0 ≤ cw) (hy1 : y1 < ch) :
    0 ≤ tt * (4 * pw) + tl * 4 ∧
      tt * (4 * pw) + tl * 4 + y1 * (4 * pw) + 4 * cw ≤ pw * ph * 4 := by
  have hw : 0 ≤ pw := by omega
  have a : 0 ≤ tt * pw := Int.mul_nonneg h2 hw
  have b := row_fits ph pw (tt + y1) (tl + cw) (by omega) h1 hw
  have e1 : tt * (4 * pw) = (tt * pw) * 4 := by ring
  have e2 : y1 * (4 * pw) = (y1 * pw) * 4 := by ring
  have e3 : (tt + y1) * pw = tt * pw + y1 * pw := by ring
  have e4 : pw * ph * 4 = (ph * pw) * 4 := by ring
  omega

/-- The rows of a rectangle a region holds lie in the data of the region. -/
theorem region_row_fits (bpl sp vl vt vw vh cl ct cw ch y1 len : Int)
    (i1 : vl ≤ cl) (i2 : cl + cw ≤ vl + vw) (i3 : vt ≤ ct) (i4 : ct + ch ≤ vt + vh)
    (hsp : 0 < sp) (hline : sp * vw ≤ bpl) (hdata : bpl * vh ≤ len)
    (hcw : 0 ≤ cw) (hy1 : y1 < ch) :
    0 ≤ bpl ∧ 0 ≤ (ct - vt) * bpl + (cl - vl) * sp ∧
      (ct - vt) * bpl + (cl - vl) * sp + y1 * bpl + sp * cw ≤ len := by
  have hvw : 0 ≤ vw := by omega
  have hb : 0 ≤ bpl := le_trans (Int.mul_nonneg (by omega) hvw) hline
  have a : 0 ≤ (ct - vt) * bpl := Int.mul_nonneg (by omega) hb
  have b : 0 ≤ (cl - vl) * sp := Int.mul_nonneg (by omega) (by omega)
  have c := row_fits vh bpl (ct - vt + y1) (sp * vw) (by omega) hline hb
  have dd : (cl - vl + cw) * sp ≤ vw * sp :=
    Int.mul_le_mul_of_nonneg_right (by omega) (by omega)
  have e1 : (ct - vt + y1) * bpl = (ct - vt) * bpl + y1 * bpl := by ring
  have e2 : (cl - vl + cw) * sp = (cl - vl) * sp + sp * cw := by ring
  have e3 : vw * sp = sp * vw := by ring
  have e4 : vh * bpl = bpl * vh := by ring
  refine ⟨hb, by omega, by omega⟩


/-- The four-band conversion of a rectangle a region holds into the target
rectangle of a buffer of the size of paint_rect: it returns, each pixel of
the target is the Cairo pixel of its source pel, and the pixels outside the
target stay as they were. -/
theorem rgba_to_cairo_into_buffer (cairo : Buf) (reg : VipsRegion)
    (pw ph tl tt cl ct cw ch : Int)
    (hlen : (cairo.length : Int) = pw * ph * 4)
    (h0 : 0 ≤ tl) (h1 : tl + cw ≤ pw) (h2 : 0 ≤ tt) (h3 : tt + ch ≤ ph)
    (hcw : 0 < cw) (hch : 0 < ch)
    (hreg : reg.holds ⟨cl, ct, cw, ch⟩) (hsp : reg.sizeof_pel = 4) :
    ∃ out, imagedisplay_rgba_to_cairo cairo (tt * (4 * pw) + tl * 4) reg.data
        (VIPS_REGION_ADDR reg cl ct) cw ch (4 * pw) (VIPS_REGION_LSKIP reg) = some out ∧
      out.length = cairo.length ∧
      (∀ x y : Int, 0 ≤ x → x < cw → 0 ≤ y → y < ch →
        ∃ px, cairo_pixel 4 reg (cl + x) (ct + y) = some px ∧
          load out (((tt + y) * pw + (tl + x)) * 4) 4 = some px) ∧
      (∀ bx by1 : Int, 0 ≤ bx → bx < pw → 0 ≤ by1 → by1 < ph →
        ¬ (tl ≤ bx ∧ bx < tl + cw ∧ tt ≤ by1 ∧ by1 < tt + ch) →
        load out ((by1 * pw + bx) * 4) 4 = load cairo ((by1 * pw + bx) * 4) 4) := by
  obtain ⟨hinc, hsp0, hline, hdata⟩ := hreg
  rw [includesrect_iff] at hinc
  dsimp only at hinc
  obtain ⟨i1, i3, i2, i4⟩ := hinc
  have hv : ∀ y1 : Int, 0 ≤ y1 → y1 < ch →
      0 ≤ reg.bpl ∧ 0 ≤ (ct - reg.valid.top) * reg.bpl + (cl - reg.valid.left) * 4 ∧
        (ct - reg.valid.top) * reg.bpl + (cl - reg.valid.left) * 4 + y1 * reg.bpl + 4 * cw
          ≤ reg.data.length := by
    intro y1 hy0 hy1
    have := region_row_fits reg.bpl reg.sizeof_pel reg.valid.left reg.valid.top
      reg.valid.width reg.valid.height cl ct cw ch y1 reg.data.length i1 i2 i3 i4 hsp0 hline
      hdata (by omega) hy1
    rw [hsp] at this
    exact this
  have hc : ∀ y1 : Int, 0 ≤ y1 → y1 < ch →
      0 ≤ tt * (4 * pw) + tl * 4 ∧
        tt * (4 * pw) + tl * 4 + y1 * (4 * pw) + 4 * cw ≤ cairo.length := by
    intro y1 hy0 hy1
    rw [hlen]
    exact buffer_row_fits pw ph tl tt cw ch y1 h0 h1 h2 h3 (by omega) hy1
  have haddr : VIPS_REGION_ADDR reg cl ct
      = (ct - reg.valid.top) * reg.bpl + (cl - reg.valid.left) * 4 := by
    unfold VIPS_REGION_ADDR
    rw [hsp]
  obtain ⟨out, hout, houtlen, hframe, hpix⟩ :=
    rgba_to_cairo_rows_spec reg.data (VIPS_REGION_ADDR reg cl ct) (tt * (4 * pw) + tl * 4)
      cw (4 * pw) (VIPS_REGION_LSKIP reg) (by omega) (by omega) (hv 0 (le_refl 0) hch).1
      (hc 0 (le_refl 0) hch).1 (by rw [haddr]; exact (hv 0 (le_refl 0) hch).2.1)
      ch.toNat 0 cairo (le_refl 0)
      (fun y1 a b => (hc y1 a (by omega)).2)
      (fun y1 a b => by
        rw [haddr]
        exact (hv y1 a (by omega)).2.2)
  refine ⟨out, hout, houtlen, ?_, ?_⟩
  · intro x y hx0 hx1 hy0 hy1
    have hb := hv y hy0 hy1
    have hyb : 0 ≤ y * reg.bpl := Int.mul_nonneg hy0 hb.1
    have e1 : VIPS_REGION_ADDR reg (cl + x) (ct + y)
        = VIPS_REGION_ADDR reg cl ct + y * VIPS_REGION_LSKIP reg + 4 * x := by
      unfold VIPS_REGION_ADDR VIPS_REGION_LSKIP
      rw [hsp]
      ring
    have e2 : ((tt + y) * pw + (tl + x)) * 4
        = tt * (4 * pw) + tl * 4 + y * (4 * pw) + 4 * x := by ring
    have hl : load reg.data (VIPS_REGION_ADDR reg (cl + x) (ct + y)) 4
        = some ((reg.data.drop (VIPS_REGION_ADDR reg (cl + x) (ct + y)).toNat).take 4) := by
      apply load_eq_some
      · rw [e1, haddr]
        unfold VIPS_REGION_LSKIP
        omega
      · rw [e1, haddr]
        unfold VIPS_REGION_LSKIP
        push_cast
        omega
    obtain ⟨a0, a1, a2, a3, ha⟩ := list_length_four _ (load_length hl)
    rw [ha] at hl
    refine ⟨[to_uchar (Int.tdiv ((a2 : Int) * a3) 255),
      to_uchar (Int.tdiv ((a1 : Int) * a3) 255), to_uchar (Int.tdiv ((a0 : Int) * a3) 255),
      to_uchar (a3 : Int)], ?_, ?_⟩
    · unfold cairo_pixel
      rw [if_pos rfl, hl]
    · rw [e1] at hl
      rw [e2]
      exact hpix y x hy0 (by omega) hx0 hx1 a0 a1 a2 a3 hl
  · intro bx by1 hb0 hb1 hy0 hy1 hnot
    apply load_congr out cairo _ 4 houtlen
    intro i hi0 hi1
    apply hframe i
    intro y1 a b
    exact frame_index pw tl tt cw ch bx by1 y1 i h0 h1 hb0 hb1 hnot a (by omega) hi0
      (by push_cast at hi1; omega)


/-- The three-band conversion of a rectangle a region holds into the target
rectangle of a buffer of the size of paint_rect: it returns, each pixel of
the target is the Cairo pixel of its source pel, and the pixels outside the
target stay as they were. -/
theorem rgb_to_cairo_into_buffer (cairo : Buf) (reg : VipsRegion) (Bands : Int)
    (pw ph tl tt cl ct cw ch : Int) (hB : Bands ≠ 4)
    (hlen : (cairo.length : Int) = pw * ph * 4)
    (h0 : 0 ≤ tl) (h1 : tl + cw ≤ pw) (h2 : 0 ≤ tt) (h3 : tt + ch ≤ ph)
    (hcw : 0 < cw) (hch : 0 < ch)
    (hreg : reg.holds ⟨cl, ct, cw, ch⟩) (hsp : reg.sizeof_pel = 3) :
    ∃ out, imagedisplay_rgb_to_cairo cairo (tt * (4 * pw) + tl * 4) reg.data
        (VIPS_REGION_ADDR reg cl ct) cw ch (4 * pw) (VIPS_REGION_LSKIP reg) = some out ∧
      out.length = cairo.length ∧
      (∀ x y : Int, 0 ≤ x → x < cw → 0 ≤ y → y < ch →
        ∃ px, cairo_pixel Bands reg (cl + x) (ct + y) = some px ∧
          load out (((tt + y) * pw + (tl + x)) * 4) 4 = some px) ∧
      (∀ bx by1 : Int, 0 ≤ bx → bx < pw → 0 ≤ by1 → by1 < ph →
        ¬ (tl ≤ bx ∧ bx < tl + cw ∧ tt ≤ by1 ∧ by1 < tt + ch) →
        load out ((by1 * pw + bx) * 4) 4 = load cairo ((by1 * pw + bx) * 4) 4) := by
  obtain ⟨hinc, hsp0, hline, hdata⟩ := hreg
  rw [includesrect_iff] at hinc
  dsimp only at hinc
  obtain ⟨i1, i3, i2, i4⟩ := hinc
  have hv : ∀ y1 : Int, 0 ≤ y1 → y1 < ch →
      0 ≤ reg.bpl ∧ 0 ≤ (ct - reg.valid.top) * reg.bpl + (cl - reg.valid.left) * 3 ∧
        (ct - reg.valid.top) * reg.bpl + (cl - reg.valid.left) * 3 + y1 * reg.bpl + 3 * cw
          ≤ reg.data.length := by
    intro y1 hy0 hy1
    have := region_row_fits reg.bpl reg.sizeof_pel reg.valid.left reg.valid.top
      reg.valid.width reg.valid.height cl ct cw ch y1 reg.data.length i1 i2 i3 i4 hsp0 hline
      hdata (by omega) hy1
    rw [hsp] at this
    exact this
  have hc : ∀ y1 : Int, 0 ≤ y1 → y1 < ch →
      0 ≤ tt * (4 * pw) + tl * 4 ∧
        tt * (4 * pw) + tl * 4 + y1 * (4 * pw) + 4 * cw ≤ cairo.length := by
    intro y1 hy0 hy1
    rw [hlen]
    exact buffer_row_fits pw ph tl tt cw ch y1 h0 h1 h2 h3 (by omega) hy1
  have haddr : VIPS_REGION_ADDR reg cl ct
      = (ct - reg.valid.top) * reg.bpl + (cl - reg.valid.left) * 3 := by
    unfold VIPS_REGION_ADDR
    rw [hsp]
  obtain ⟨out, hout, houtlen, hframe, hpix⟩ :=
    rgb_to_cairo_rows_spec reg.data (VIPS_REGION_ADDR reg cl ct) (tt * (4 * pw) + tl * 4)
      cw (4 * pw) (VIPS_REGION_LSKIP reg) (by omega) (by omega) (hv 0 (le_refl 0) hch).1
      (hc 0 (le_refl 0) hch).1 (by rw [haddr]; exact (hv 0 (le_refl 0) hch).2.1)
      ch.toNat 0 cairo (le_refl 0)
      (fun y1 a b => (hc y1 a (by omega)).2)
      (fun y1 a b => by
        rw [haddr]
        exact (hv y1 a (by omega)).2.2)
  refine ⟨out, hout, houtlen, ?_, ?_⟩
  · intro x y hx0 hx1 hy0 hy1
    have hb := hv y hy0 hy1
    have hyb : 0 ≤ y * reg.bpl := Int.mul_nonneg hy0 hb.1
    have e1 : VIPS_REGION_ADDR reg (cl + x) (ct + y)
        = VIPS_REGION_ADDR reg cl ct + y * VIPS_REGION_LSKIP reg + 3 * x := by
      unfold VIPS_REGION_ADDR VIPS_REGION_LSKIP
      rw [hsp]
      ring
    have e2 : ((tt + y) * pw + (tl + x)) * 4
        = tt * (4 * pw) + tl * 4 + y * (4 * pw) + 4 * x := by ring
    have hl : load reg.data (VIPS_REGION_ADDR reg (cl + x) (ct + y)) 3
        = some ((reg.data.drop (VIPS_REGION_ADDR reg (cl + x) (ct + y)).toNat).take 3) := by
      apply load_eq_some
      · rw [e1, haddr]
        unfold VIPS_REGION_LSKIP
        omega
      · rw [e1, haddr]
        unfold VIPS_REGION_LSKIP
        push_cast
        omega
    obtain ⟨a0, a1, a2, ha⟩ := list_length_three _ (load_length hl)
    rw [ha] at hl
    refine ⟨[to_uchar (a2 : Int), to_uchar (a1 : Int), to_uchar (a0 : Int), to_uchar 255],
      ?_, ?_⟩
    · unfold cairo_pixel
      rw [if_neg hB, hl]
    · rw [e1] at hl
      rw [e2]
      exact hpix y x hy0 (by omega) hx0 hx1 a0 a1 a2 hl
  · intro bx by1 hb0 hb1 hy0 hy1 hnot
    apply load_congr out cairo _ 4 houtlen
    intro i hi0 hi1
    apply hframe i
    intro y1 a b
    exact frame_index pw tl tt cw ch bx by1 y1 i h0 h1 hb0 hb1 hnot a (by omega) hi0
      (by push_cast at hi1; omega)


/-- Claim C14: a running fill is given a tile that lies in image_rect, that the
g_asserts accept where they are compiled in, and whose round-trip clip is not
empty; the mask prepare and the colour prepare succeed and the mask byte at
the top-left pixel of the clip is `m`. When `m` is zero, cairo_buffer is
unchanged. When `m` is not zero, cairo_buffer has the bytes of paint_rect and
the colour region holds the clip in pels of four bytes for four bands and
three bytes otherwise, then imagedisplay_fill_tile returns with the fill
still running, the buffer pixel at (x - left, y - top) is the Cairo pixel
of the source pel (x, y) for every image pixel (x, y) of the clip, and every
other pixel of the buffer is as it was. -/
theorem fill_tile_copies_converted_pixels (env : Env) (d : Imagedisplay) (tile : VipsRect)
    (p : Paint) (mask_region rgb_region : VipsRegion) (m : Nat)
    (hrun : p.status = .running)
    (hassert : env.asserts = true → imagedisplay_fill_tile_asserts env d tile = true)
    (hin : vips_rect_includesrect d.image_rect tile = true)
    (hne : vips_rect_isempty
      (imagedisplay_buffer_to_image d (imagedisplay_image_to_buffer d tile)) = false)
    (hmask : env.source.mask_prepare p.requests
      (imagedisplay_buffer_to_image d (imagedisplay_image_to_buffer d tile)) = some mask_region)
    (hrgb : env.source.rgb_prepare
      (p.requests ++ [Request.mask
        (imagedisplay_buffer_to_image d (imagedisplay_image_to_buffer d tile))])
      (imagedisplay_buffer_to_image d (imagedisplay_image_to_buffer d tile)) = some rgb_region)
    (hbyte : load mask_region.data (VIPS_REGION_ADDR mask_region
      (imagedisplay_buffer_to_image d (imagedisplay_image_to_buffer d tile)).left
      (imagedisplay_buffer_to_image d (imagedisplay_image_to_buffer d tile)).top) 1
        = some [m]) :
    (m = 0 → (imagedisplay_fill_tile env d tile p).cairo_buffer = p.cairo_buffer) ∧
    (m ≠ 0 → ∀ cairo : Buf, p.cairo_buffer = some cairo →
      (cairo.length : Int) = d.paint_rect.width * d.paint_rect.height * 4 →
      rgb_region.holds
        (imagedisplay_buffer_to_image d (imagedisplay_image_to_buffer d tile)) →
      rgb_region.sizeof_pel = (if env.source.Bands = 4 then 4 else 3) →
      ∃ out, (imagedisplay_fill_tile env d tile p).cairo_buffer = some out ∧
        (imagedisplay_fill_tile env d tile p).status = .running ∧
        out.length = cairo.length ∧
        (∀ x y : Int,
          (imagedisplay_buffer_to_image d (imagedisplay_image_to_buffer d tile)).has_pixel x y →
          ∃ px, cairo_pixel env.source.Bands rgb_region x y = some px ∧
            load out (((y - d.top) * d.paint_rect.width + (x - d.left)) * 4) 4 = some px) ∧
        (∀ bx by1 : Int, 0 ≤ bx → bx < d.paint_rect.width → 0 ≤ by1 →
          by1 < d.paint_rect.height →
          ¬ (imagedisplay_buffer_to_image d (imagedisplay_image_to_buffer d tile)).has_pixel
            (bx + d.left) (by1 + d.top) →
          load out ((by1 * d.paint_rect.width + bx) * 4) 4 =
            load cairo ((by1 * d.paint_rect.width + bx) * 4) 4)) := by
  constructor
  · intro hm
    subst hm
    rw [fill_tile_mask_zero env d tile p mask_region rgb_region hrun hassert hne hmask hrgb
      hbyte]
  intro hm cairo hbuf hlen hholds hpel
  obtain ⟨a1, a2, a3, a4⟩ := image_to_buffer_fields d tile
  obtain ⟨b1, b2, b3, b4⟩ := buffer_to_image_fields d (imagedisplay_image_to_buffer d tile)
  obtain ⟨j1, j2, j3, j4⟩ := (includesrect_iff _ _).mp hin
  obtain ⟨hw, hh⟩ := (isempty_false_iff _).mp hne
  obtain ⟨x1, x2, x3, x4⟩ := fill_axis tile.left tile.width d.left d.paint_rect.left
    d.paint_rect.width d.image_rect.left d.image_rect.width _ _ _ _ a1 a3 b1 b3 j1 j3 hw
  obtain ⟨y1, y2, y3, y4⟩ := fill_axis tile.top tile.height d.top d.paint_rect.top
    d.paint_rect.height d.image_rect.top d.image_rect.height _ _ _ _ a2 a4 b2 b4 j2 j4 hh
  clear a1 a2 a3 a4 b1 b2 b3 b4
  have hspec : ∃ out,
      (if env.source.Bands = 4 then
        imagedisplay_rgba_to_cairo cairo
          ((imagedisplay_image_to_buffer d tile).top * (4 * d.paint_rect.width) +
            (imagedisplay_image_to_buffer d tile).left * 4)
          rgb_region.data
          (VIPS_REGION_ADDR rgb_region
            (imagedisplay_buffer_to_image d (imagedisplay_image_to_buffer d tile)).left
            (imagedisplay_buffer_to_image d (imagedisplay_image_to_buffer d tile)).top)
          (imagedisplay_buffer_to_image d (imagedisplay_image_to_buffer d tile)).width
          (imagedisplay_buffer_to_image d (imagedisplay_image_to_buffer d tile)).height
          (4 * d.paint_rect.width) (VIPS_REGION_LSKIP rgb_region)
      else
        imagedisplay_rgb_to_cairo cairo
          ((imagedisplay_image_to_buffer d tile).top * (4 * d.paint_rect.width) +
            (imagedisplay_image_to_buffer d tile).left * 4)
          rgb_region.data
          (VIPS_REGION_ADDR rgb_region
            (imagedisplay_buffer_to_image d (imagedisplay_image_to_buffer d tile)).left
            (imagedisplay_buffer_to_image d (imagedisplay_image_to_buffer d tile)).top)
          (imagedisplay_buffer_to_image d (imagedisplay_image_to_buffer d tile)).width
          (imagedisplay_buffer_to_image d (imagedisplay_image_to_buffer d tile)).height
          (4 * d.paint_rect.width) (VIPS_REGION_LSKIP rgb_region)) = some out ∧
      out.length = cairo.length ∧
      (∀ x y : Int,
        0 ≤ x → x < (imagedisplay_buffer_to_image d (imagedisplay_image_to_buffer d tile)).width →
        0 ≤ y → y < (imagedisplay_buffer_to_image d (imagedisplay_image_to_buffer d tile)).height →
        ∃ px, cairo_pixel env.source.Bands rgb_region
            ((imagedisplay_buffer_to_image d (imagedisplay_image_to_buffer d tile)).left + x)
            ((imagedisplay_buffer_to_image d (imagedisplay_image_to_buffer d tile)).top + y)
              = some px ∧
          load out ((((imagedisplay_image_to_buffer d tile).top + y) * d.paint_rect.width +
            ((imagedisplay_image_to_buffer d tile).left + x)) * 4) 4 = some px) ∧
      (∀ bx by1 : Int, 0 ≤ bx → bx < d.paint_rect.width → 0 ≤ by1 →
        by1 < d.paint_rect.height →
        ¬ ((imagedisplay_image_to_buffer d tile).left ≤ bx ∧
          bx < (imagedisplay_image_to_buffer d tile).left +
            (imagedisplay_buffer_to_image d (imagedisplay_image_to_buffer d tile)).width ∧
          (imagedisplay_image_to_buffer d tile).top ≤ by1 ∧
          by1 < (imagedisplay_image_to_buffer d tile).top +
            (imagedisplay_buffer_to_image d (imagedisplay_image_to_buffer d tile)).height) →
        load out ((by1 * d.paint_rect.width + bx) * 4) 4 =
          load cairo ((by1 * d.paint_rect.width + bx) * 4) 4) := by
    by_cases hB : env.source.Bands = 4
    · rw [if_pos hB] at hpel
      rw [if_pos hB, hB]
      exact rgba_to_cairo_into_buffer cairo rgb_region _ _ _ _ _ _ _ _ hlen x3 (by omega) y3
        (by omega) hw hh hholds hpel
    · rw [if_neg hB] at hpel
      rw [if_neg hB]
      exact rgb_to_cairo_into_buffer cairo rgb_region env.source.Bands _ _ _ _ _ _ _ _ hB hlen
        x3 (by omega) y3 (by omega) hw hh hholds hpel
  obtain ⟨out, hout, houtlen, hpix, hframe⟩ := hspec
  rw [fill_tile_mask_set env d tile p mask_region rgb_region m cairo out hrun hassert hne hmask
    hrgb hbyte hm hbuf hout]
  refine ⟨out, rfl, hrun, houtlen, ?_, ?_⟩
  · intro x y hp
    unfold VipsRect.has_pixel at hp
    obtain ⟨px, e1, e2⟩ := hpix
      (x - (imagedisplay_buffer_to_image d (imagedisplay_image_to_buffer d tile)).left)
      (y - (imagedisplay_buffer_to_image d (imagedisplay_image_to_buffer d tile)).top)
      (by omega) (by omega) (by omega) (by omega)
    refine ⟨px, ?_, ?_⟩
    · rw [← e1]
      congr 1 <;> omega
    · rw [← e2]
      congr 2
      rw [x1, y1]
      ring
  · intro bx by1 hb0 hb1 hc0 hc1 hnot
    apply hframe bx by1 hb0 hb1 hc0 hc1
    intro hcontra
    apply hnot
    unfold VipsRect.has_pixel
    omega


theorem fill_tile_copies_converted_pixels_example :
    ∃ out, (imagedisplay_fill_tile
        ⟨16, true, ⟨3, fun _ _ => some ⟨⟨1, 1, 2, 2⟩, 2, 1, [255, 255, 255, 255]⟩,
          fun _ _ => some ⟨⟨1, 1, 2, 2⟩, 6, 3, [1, 2, 3, 4, 5, 6, 7, 8, 9, 10, 11, 12]⟩⟩⟩
        { imagedisplay_zeroed with
            image_rect := ⟨0, 0, 4, 4⟩, widget_rect := ⟨0, 0, 2, 2⟩,
            paint_rect := ⟨0, 0, 2, 2⟩, left := 1, top := 1 }
        ⟨0, 0, 4, 4⟩ ⟨some (List.replicate 16 0), [], .running⟩).cairo_buffer = some out ∧
      load out 4 4 = some [6, 5, 4, 255] := by
  obtain ⟨out, h1, -, -, hpix, -⟩ := (fill_tile_copies_converted_pixels
    ⟨16, true, ⟨3, fun _ _ => some ⟨⟨1, 1, 2, 2⟩, 2, 1, [255, 255, 255, 255]⟩,
      fun _ _ => some ⟨⟨1, 1, 2, 2⟩, 6, 3, [1, 2, 3, 4, 5, 6, 7, 8, 9, 10, 11, 12]⟩⟩⟩
    { imagedisplay_zeroed with
        image_rect := ⟨0, 0, 4, 4⟩, widget_rect := ⟨0, 0, 2, 2⟩,
        paint_rect := ⟨0, 0, 2, 2⟩, left := 1, top := 1 }
    ⟨0, 0, 4, 4⟩ ⟨some (List.replicate 16 0), [], .running⟩
    ⟨⟨1, 1, 2, 2⟩, 2, 1, [255, 255, 255, 255]⟩
    ⟨⟨1, 1, 2, 2⟩, 6, 3, [1, 2, 3, 4, 5, 6, 7, 8, 9, 10, 11, 12]⟩ 255
    rfl (fun _ => by decide) (by decide) (by decide) rfl rfl (by decide)).2 (by decide)
    (List.replicate 16 0) rfl (by decide)
    ⟨by decide, by decide, by decide, by decide⟩ (by decide)
  obtain ⟨px, e1, e2⟩ := hpix 2 1 ⟨by decide, by decide, by decide, by decide⟩
  have e3 : px = [6, 5, 4, 255] := by
    have e4 : cairo_pixel 3 ⟨⟨1, 1, 2, 2⟩, 6, 3, [1, 2, 3, 4, 5, 6, 7, 8, 9, 10, 11, 12]⟩ 2 1
        = some [6, 5, 4, 255] := by decide
    exact Option.some.inj (e1.symm.trans e4)
  rw [e3] at e2
  exact ⟨out, h1, e2⟩


theorem round_down_le (n T : Int) (hn : 0 ≤ n) : VIPS_ROUND_DOWN n T ≤ n := by
  unfold VIPS_ROUND_DOWN
  have := Int.tmod_nonneg T hn
  omega

theorem le_round_up (n T : Int) (hT : 0 < T) : n ≤ VIPS_ROUND_UP n T := by
  unfold VIPS_ROUND_UP VIPS_ROUND_DOWN
  have := Int.tmod_lt_of_pos (n + T - 1) hT
  omega

/-- Two grid cells holding the same coordinate start at the same place. -/
theorem aligned_eq (T a b px : Int) (ha : T ∣ a) (hb : T ∣ b)
    (h1 : a ≤ px) (h2 : px < a + T) (h3 : b ≤ px) (h4 : px < b + T) : a = b := by
  rcases lt_trichotomy a b with h | h | h
  · have := dvd_gap T a b ha hb h
    omega
  · exact h
  · have := dvd_gap T b a hb ha h
    omega

/-- The tiles of a cover are distinct. -/
theorem tiles_cover_nodup (T : Int) (hT : 0 < T) (expose : VipsRect) (l t r b : Int)
    (tiles : List VipsRect) (h : TilesCover T expose l t r b tiles) : tiles.Nodup := by
  obtain ⟨m, -, d⟩ := h
  refine List.Pairwise.imp_of_mem ?_ d
  intro a c ha _ hd hac
  subst hac
  obtain ⟨a1, a2, -⟩ := m a ha
  refine hd a.left a.top ⟨?_, ?_⟩ <;>
  · unfold VipsRect.has_pixel
    omega

/-- Claim C20: for a positive TILE_SIZE and a rectangle `expose` with left >= 0 and
top >= 0, imagedisplay_fill_rect is the run of imagedisplay_fill_tile over the
clips of the tiles of fill_rect_tiles, where every tile is a cell of the tile
grid that meets `expose`, every cell of the grid that meets `expose` occurs
exactly once, the clips passed are pairwise disjoint, and a pixel belongs to
`expose` exactly when it belongs to one of the clips. -/
theorem fill_rect_each_cell_once (env : Env) (d : Imagedisplay) (expose : VipsRect)
    (p : Paint) (hT : 0 < env.TILE_SIZE) (hl : 0 ≤ expose.left) (ht : 0 ≤ expose.top) :
    imagedisplay_fill_rect env d expose p =
        fill_tiles env d expose (fill_rect_tiles env.TILE_SIZE expose) p ∧
      (∀ tile ∈ fill_rect_tiles env.TILE_SIZE expose,
        tile.width = env.TILE_SIZE ∧ tile.height = env.TILE_SIZE ∧
        env.TILE_SIZE ∣ tile.left ∧ env.TILE_SIZE ∣ tile.top ∧
        vips_rect_isempty (vips_rect_intersectrect tile expose) = false) ∧
      (∀ i j : Int,
        vips_rect_isempty (vips_rect_intersectrect
          { left := i * env.TILE_SIZE, top := j * env.TILE_SIZE,
            width := env.TILE_SIZE, height := env.TILE_SIZE } expose) = false →
        (fill_rect_tiles env.TILE_SIZE expose).count
          { left := i * env.TILE_SIZE, top := j * env.TILE_SIZE,
            width := env.TILE_SIZE, height := env.TILE_SIZE } = 1) ∧
      ((fill_rect_tiles env.TILE_SIZE expose).map
        (fun tile => vips_rect_intersectrect tile expose)).Pairwise VipsRect.disjoint ∧
      (∀ x y : Int, expose.has_pixel x y ↔
        ∃ tile ∈ fill_rect_tiles env.TILE_SIZE expose,
          (vips_rect_intersectrect tile expose).has_pixel x y) := by
  have hc := fill_rect_tiles_cover env.TILE_SIZE hT expose
  have hnd := tiles_cover_nodup _ hT _ _ _ _ _ _ hc
  obtain ⟨m, c, dj⟩ := hc
  have hbox : ∀ x y : Int, expose.has_pixel x y →
      ∃ tile ∈ fill_rect_tiles env.TILE_SIZE expose, tile.has_pixel x y := by
    intro x y hp
    have hp2 := hp
    unfold VipsRect.has_pixel at hp2
    have b1 := round_down_le expose.left env.TILE_SIZE hl
    have b2 := round_down_le expose.top env.TILE_SIZE ht
    have b3 : expose.left + expose.width ≤
        VIPS_ROUND_UP (VIPS_RECT_RIGHT expose) env.TILE_SIZE := le_round_up _ _ hT
    have b4 : expose.top + expose.height ≤
        VIPS_ROUND_UP (VIPS_RECT_BOTTOM expose) env.TILE_SIZE := le_round_up _ _ hT
    exact c x y (by omega) (by omega) (by omega) (by omega) hp
  refine ⟨fill_rect_eq_fill_tiles env d expose hT p, ?_, ?_, ?_, ?_⟩
  · intro tile htile
    obtain ⟨a1, a2, a3, a4, -, -, -, -, a9⟩ := m tile htile
    exact ⟨a1, a2, a3, a4, a9⟩
  · intro i j hne
    have hp := has_pixel_of_not_isempty _ hne
    obtain ⟨hp1, hp2⟩ := (intersectrect_has_pixel _ _ _ _).mp hp
    obtain ⟨tile, htile, hp3⟩ := hbox _ _ hp2
    obtain ⟨a1, a2, a3, a4, -⟩ := m tile htile
    unfold VipsRect.has_pixel at hp1 hp3
    rw [a1, a2] at hp3
    dsimp only at hp1
    have e1 := aligned_eq env.TILE_SIZE tile.left (i * env.TILE_SIZE) _ a3
      (Dvd.intro_left i rfl) hp3.1 hp3.2.1 hp1.1 hp1.2.1
    have e2 := aligned_eq env.TILE_SIZE tile.top (j * env.TILE_SIZE) _ a4
      (Dvd.intro_left j rfl) hp3.2.2.1 hp3.2.2.2 hp1.2.2.1 hp1.2.2.2
    have e : tile = (⟨i * env.TILE_SIZE, j * env.TILE_SIZE, env.TILE_SIZE,
        env.TILE_SIZE⟩ : VipsRect) := by
      cases tile
      simp only [VipsRect.mk.injEq]
      exact ⟨e1, e2, a1, a2⟩
    rw [← e]
    exact List.count_eq_one_of_mem hnd htile
  · rw [List.pairwise_map]
    refine dj.imp ?_
    intro a b hab x y hxy
    exact hab x y ⟨((intersectrect_has_pixel _ _ _ _).mp hxy.1).1,
      ((intersectrect_has_pixel _ _ _ _).mp hxy.2).1⟩
  · intro x y
    constructor
    · intro hp
      obtain ⟨tile, htile, hp3⟩ := hbox x y hp
      exact ⟨tile, htile, (intersectrect_has_pixel _ _ _ _).mpr ⟨hp3, hp⟩⟩
    · rintro ⟨tile, -, hp⟩
      exact ((intersectrect_has_pixel _ _ _ _).mp hp).2

theorem fill_rect_each_cell_once_example :
    (0 : Int) < 16 ∧ (0 : Int) ≤ 10 ∧ (0 : Int) ≤ 5 ∧
    (fill_rect_tiles 16 ⟨10, 5, 50, 50⟩).count ⟨48, 16, 16, 16⟩ = 1 ∧
    (fill_rect_tiles 16 ⟨10, 5, 50, 50⟩).length = 16 := by
  refine ⟨by decide, by decide, by decide, ?_, by decide⟩
  exact (fill_rect_each_cell_once
    ⟨16, true, ⟨3, fun _ _ => none, fun _ _ => none⟩⟩
    { imagedisplay_zeroed with
        image_rect := ⟨0, 0, 100, 100⟩, widget_rect := ⟨0, 0, 50, 50⟩,
        paint_rect := ⟨0, 0, 50, 50⟩, left := 10, top := 5 }
    ⟨10, 5, 50, 50⟩ ⟨none, [], .running⟩ (by decide) (by decide) (by decide)).2.2.1 3 1
    (by decide)


/-- The premultiplied byte b * a / 255 of two bytes: it is the int the code computes,
it is at most the alpha byte, zero for alpha 0 and `b` for alpha 255. -/
theorem premultiplied_byte (b a : Nat) (hb : b ≤ 255) (ha : a ≤ 255) :
    ((b * a / 255 : Nat) : Int) = Int.tdiv ((b : Int) * a) 255 ∧ b * a / 255 ≤ a ∧
      (a = 0 → b * a / 255 = 0) ∧ (a = 255 → b * a / 255 = b) := by
  have e : (b : Int) * (a : Int) = ((b * a : Nat) : Int) := by push_cast; rfl
  refine ⟨?_, ?_, ?_, ?_⟩
  · rw [e, Int.tdiv_eq_ediv (by omega) (by omega)]
    omega
  · apply Nat.div_le_of_le_mul
    exact Nat.mul_le_mul_right a hb
  · intro h
    subst h
    rw [Nat.mul_zero, Nat.zero_div]
  · intro h
    subst h
    exact Nat.mul_div_cancel b (by decide)

/-- Claim C25: for a width x height rectangle inside both blocks,
imagedisplay_rgba_to_cairo returns, and for every pixel whose source bytes
(r, g, b, a) are in 0..255 the four bytes written (c0, c1, c2, c3) are the
ints the code computes, b*a/255, g*a/255, r*a/255 and a, with nothing lost in
the store; each colour byte is at most the alpha byte c3 = a, which is at most
255; alpha 0 gives (0, 0, 0, 0) and alpha 255 gives (b, g, r, 255). -/
theorem imagedisplay_rgba_to_cairo_valid_premultiplied (cairo vips : Buf)
    (cairo_start vips_start width height cairo_stride vips_stride : Int)
    (hw : 0 ≤ width) (hcs : 4 * width ≤ cairo_stride) (hvs : 0 ≤ vips_stride)
    (hc0 : 0 ≤ cairo_start) (hv0 : 0 ≤ vips_start)
    (hcl : ∀ y : Int, 0 ≤ y → y < height →
      cairo_start + y * cairo_stride + 4 * width ≤ cairo.length)
    (hvl : ∀ y : Int, 0 ≤ y → y < height →
      vips_start + y * vips_stride + 4 * width ≤ vips.length) :
    ∃ out, imagedisplay_rgba_to_cairo cairo cairo_start vips vips_start
        width height cairo_stride vips_stride = some out ∧
      ∀ x y : Int, 0 ≤ x → x < width → 0 ≤ y → y < height →
        ∀ r g b a : Nat, r ≤ 255 → g ≤ 255 → b ≤ 255 → a ≤ 255 →
        load vips (vips_start + y * vips_stride + 4 * x) 4 = some [r, g, b, a] →
        ∃ c0 c1 c2 c3 : Nat,
          load out (cairo_start + y * cairo_stride + 4 * x) 4 = some [c0, c1, c2, c3] ∧
          (c0 : Int) = Int.tdiv ((b : Int) * a) 255 ∧
          (c1 : Int) = Int.tdiv ((g : Int) * a) 255 ∧
          (c2 : Int) = Int.tdiv ((r : Int) * a) 255 ∧ c3 = a ∧
          c0 ≤ c3 ∧ c1 ≤ c3 ∧ c2 ≤ c3 ∧ c3 ≤ 255 ∧
          (a = 0 → c0 = 0 ∧ c1 = 0 ∧ c2 = 0 ∧ c3 = 0) ∧
          (a = 255 → c0 = b ∧ c1 = g ∧ c2 = r ∧ c3 = 255) := by
  obtain ⟨out, hout, -, -, hpix⟩ :=
    rgba_to_cairo_rows_spec vips vips_start cairo_start width cairo_stride vips_stride
      hw hcs hvs hc0 hv0 height.toNat 0 cairo (le_refl 0)
      (fun y1 h1 h2 => hcl y1 h1 (by omega)) (fun y1 h1 h2 => hvl y1 h1 (by omega))
  refine ⟨out, hout, ?_⟩
  intro x y hx0 hx1 hy0 hy1 r g b a hr hg hb ha hsrc
  obtain ⟨b1, b2, b3, b4⟩ := premultiplied_byte b a hb ha
  obtain ⟨g1, g2, g3, g4⟩ := premultiplied_byte g a hg ha
  obtain ⟨r1, r2, r3, r4⟩ := premultiplied_byte r a hr ha
  refine ⟨b * a / 255, g * a / 255, r * a / 255, a, ?_, b1, g1, r1, rfl, b2, g2, r2, ha, ?_, ?_⟩
  · rw [hpix y x hy0 (by omega) hx0 hx1 r g b a hsrc,
      to_uchar_premultiplied b a hb ha, to_uchar_premultiplied g a hg ha,
      to_uchar_premultiplied r a hr ha, to_uchar_byte a ha]
  · intro h
    exact ⟨b3 h, g3 h, r3 h, h⟩
  · intro h
    exact ⟨b4 h, g4 h, r4 h, h⟩

theorem imagedisplay_rgba_to_cairo_valid_premultiplied_example :
    ∃ out, imagedisplay_rgba_to_cairo (List.replicate 12 7) 0
        [10, 200, 255, 0, 10, 200, 255, 255, 10, 200, 255, 128] 0 3 1 12 12 = some out ∧
      load out 0 4 = some [0, 0, 0, 0] ∧ load out 4 4 = some [255, 200, 10, 255] ∧
      load out 8 4 = some [128, 100, 5, 128] := by
  obtain ⟨out, h, hp⟩ := imagedisplay_rgba_to_cairo_valid_premultiplied (List.replicate 12 7)
    [10, 200, 255, 0, 10, 200, 255, 255, 10, 200, 255, 128]
    0 0 3 1 12 12 (by decide) (by decide) (by decide) (by decide) (by decide)
    (fun y h1 h2 => by
      have : y = 0 := by omega
      subst this
      decide)
    (fun y h1 h2 => by
      have : y = 0 := by omega
      subst this
      decide)
  refine ⟨out, h, ?_, ?_, ?_⟩
  · obtain ⟨c0, c1, c2, c3, e, -, -, -, e3, -, -, -, -, z, -⟩ :=
      hp 0 0 (by decide) (by decide) (by decide) (by decide) 10 200 255 0
        (by decide) (by decide) (by decide) (by decide) (by decide)
    obtain ⟨z0, z1, z2, z3⟩ := z rfl
    rw [z0, z1, z2, z3] at e
    exact e
  · obtain ⟨c0, c1, c2, c3, e, -, -, -, e3, -, -, -, -, -, f⟩ :=
      hp 1 0 (by decide) (by decide) (by decide) (by decide) 10 200 255 255
        (by decide) (by decide) (by decide) (by decide) (by decide)
    obtain ⟨z0, z1, z2, z3⟩ := f rfl
    rw [z0, z1, z2, z3] at e
    exact e
  · obtain ⟨c0, c1, c2, c3, e, e0, e1, e2, e3, -⟩ :=
      hp 2 0 (by decide) (by decide) (by decide) (by decide) 10 200 255 128
        (by decide) (by decide) (by decide) (by decide) (by decide)
    have h0 : c0 = 128 := by
      have : Int.tdiv ((255 : Nat) * (128 : Nat) : Int) 255 = 128 := by decide
      omega
    have h1 : c1 = 100 := by
      have : Int.tdiv ((200 : Nat) * (128 : Nat) : Int) 255 = 100 := by decide
      omega
    have h2 : c2 = 5 := by
      have : Int.tdiv ((10 : Nat) * (128 : Nat) : Int) 255 = 5 := by decide
      omega
    rw [h0, h1, h2, e3] at e
    exact e


/-- The remainder of a truncating division by a positive number: it has the sign of
the dividend and is less than the divisor in size. -/
theorem tmod_bounds (a T : Int) (hT : 0 < T) :
    (0 ≤ a → 0 ≤ Int.tmod a T ∧ Int.tmod a T < T) ∧
      (a < 0 → -T < Int.tmod a T ∧ Int.tmod a T ≤ 0) := by
  constructor
  · intro h
    exact ⟨Int.tmod_nonneg T h, Int.tmod_lt_of_pos a hT⟩
  · intro h
    have e : Int.tmod a T = -(Int.tmod (-a) T) := by
      rw [Int.tmod_def, Int.tmod_def, Int.neg_tdiv]
      ring
    have h1 := Int.tmod_nonneg T (show 0 ≤ -a by omega)
    have h2 := Int.tmod_lt_of_pos (-a) hT
    omega

/-- The rounding g_assert of imagedisplay_fill_tile holds on an axis as soon as the
extent on that axis is positive. -/
theorem round_up_sub_round_down (T x y : Int) (hT : 0 < T) (hxy : x < y) :
    VIPS_ROUND_UP x T - VIPS_ROUND_DOWN y T ≤ T := by
  have d1 := round_up_dvd x T
  have d2 := round_down_dvd y T
  have b1 := tmod_bounds (x + T - 1) T hT
  have b2 := tmod_bounds y T hT
  by_contra hcon
  have hlt : VIPS_ROUND_DOWN y T + T < VIPS_ROUND_UP x T := by omega
  have hgap := dvd_gap T (VIPS_ROUND_DOWN y T + T) (VIPS_ROUND_UP x T)
    (Int.dvd_add d2 (dvd_refl T)) d1 hlt
  unfold VIPS_ROUND_UP VIPS_ROUND_DOWN at hgap
  omega


/-- The clip of a TILE_SIZE square against a rectangle in image_rect, when it is
not empty, passes the five g_asserts of imagedisplay_fill_tile. -/
theorem clipped_tile_asserts (env : Env) (d : Imagedisplay) (expose clip : VipsRect)
    (hT : 0 < env.TILE_SIZE)
    (hin : vips_rect_includesrect d.image_rect expose = true)
    (hclip : IsClippedTile env expose clip) :
    imagedisplay_fill_tile_asserts env d clip = true := by
  obtain ⟨hw, hh, hinc⟩ := clipped_tile_bounds env expose clip hclip
  obtain ⟨x, y, -, hne⟩ := hclip
  obtain ⟨hpw, hph⟩ := (isempty_false_iff clip).mp hne
  obtain ⟨i1, i2, i3, i4⟩ := (includesrect_iff _ _).mp hin
  obtain ⟨j1, j2, j3, j4⟩ := (includesrect_iff _ _).mp hinc
  have r1 := round_up_sub_round_down env.TILE_SIZE clip.left (VIPS_RECT_RIGHT clip) hT
    (by unfold VIPS_RECT_RIGHT; omega)
  have r2 := round_up_sub_round_down env.TILE_SIZE clip.top (VIPS_RECT_BOTTOM clip) hT
    (by unfold VIPS_RECT_BOTTOM; omega)
  unfold imagedisplay_fill_tile_asserts
  simp only [Bool.and_eq_true, decide_eq_true_iff]
  refine ⟨⟨⟨⟨hw, hh⟩, r1⟩, r2⟩, ?_⟩
  rw [includesrect_iff]
  omega

theorem halt_fault_ne_assert_failed (q : Paint) (h : q.status = .running) :
    (q.halt .fault).status ≠ .assert_failed := by
  rw [halt_of_running q _ h]
  intro h1
  cases h1

/-- The status after imagedisplay_fill_tile on a tile that passes the g_asserts:
unchanged, or a running fill stopped by a memory fault. -/
theorem fill_tile_status_of_asserts (env : Env) (d : Imagedisplay) (tile : VipsRect)
    (p : Paint) (hok : imagedisplay_fill_tile_asserts env d tile = true) :
    (imagedisplay_fill_tile env d tile p).status = p.status ∨
      (p.status = .running ∧ (imagedisplay_fill_tile env d tile p).status = .fault) := by
  have hgate : ¬ ((env.asserts && !imagedisplay_fill_tile_asserts env d tile) = true) := by
    rw [hok]
    simp
  rcases fill_tile_status env d tile p with h | ⟨hrun, h | h⟩
  · exact Or.inl h
  · exfalso
    unfold imagedisplay_fill_tile at h
    rw [if_neg (by rw [hrun]; exact fun h => h rfl), if_neg hgate] at h
    dsimp only at h
    revert h
    split
    · rw [hrun]; intro h; cases h
    split
    · rw [hrun]; intro h; cases h
    split
    · rw [hrun]; intro h; cases h
    split
    · split
      · split
        · exact halt_fault_ne_assert_failed _ hrun
        · split
          · exact halt_fault_ne_assert_failed _ hrun
          · rw [hrun]; intro h; cases h
      · rw [hrun]; intro h; cases h
    · exact halt_fault_ne_assert_failed _ hrun
  · exact Or.inr ⟨hrun, h⟩

/-- A run over tiles whose clips all pass the g_asserts never stops at a g_assert. -/
theorem fill_tiles_not_assert_failed (env : Env) (d : Imagedisplay) (expose : VipsRect) :
    ∀ (tiles : List VipsRect) (p : Paint),
      (∀ tile ∈ tiles,
        imagedisplay_fill_tile_asserts env d (vips_rect_intersectrect tile expose) = true) →
      (fill_tiles env d expose tiles p).status = .assert_failed →
      p.status = .assert_failed := by
  intro tiles
  induction tiles with
  | nil =>
    intro p _ h
    exact h
  | cons t ts ih =>
    intro p hall h
    have h1 : (imagedisplay_fill_tile env d (vips_rect_intersectrect t expose) p).status
        = .assert_failed := ih _ (fun tile ht => hall tile (List.mem_cons_of_mem _ ht)) h
    rcases fill_tile_status_of_asserts env d (vips_rect_intersectrect t expose) p
      (hall t (List.mem_cons_self _ _)) with h2 | ⟨-, h2⟩
    · rw [← h2]; exact h1
    · rw [h2] at h1; cases h1


/-- A rectangle that imagedisplay_gtk_to_image returns is contained in image_rect when
it is not empty. -/
theorem gtk_to_image_included (d : Imagedisplay) (r : VipsRect)
    (hne : vips_rect_isempty (imagedisplay_gtk_to_image d r) = false) :
    vips_rect_includesrect d.image_rect (imagedisplay_gtk_to_image d r) = true := by
  obtain ⟨hw, hh⟩ := (isempty_false_iff _).mp hne
  unfold imagedisplay_gtk_to_image at hw hh ⊢
  dsimp only at hw hh ⊢
  obtain ⟨c1, c2, c3, c4⟩ := intersectrect_fields
    { left := r.left - d.paint_rect.left + d.left, top := r.top - d.paint_rect.top + d.top,
      width := r.width, height := r.height } d.image_rect
  dsimp only at c1 c2 c3 c4
  rw [includesrect_iff]
  refine ⟨by omega, by omega, by omega, by omega⟩

/-- Claim C22: for a positive TILE_SIZE and a rectangle `expose` contained in
image_rect, imagedisplay_fill_rect is the run of imagedisplay_fill_tile over
the clips of the tiles of fill_rect_tiles, every one of those clips passes the
five g_asserts of imagedisplay_fill_tile (width and height at most TILE_SIZE,
the two rounding conditions, containment in image_rect), and the fill does
not end stopped by a g_assert unless it started so. The rectangles of the
draw handler are of that kind: a non-empty result of
imagedisplay_gtk_to_image is contained in image_rect. -/
theorem fill_rect_tiles_pass_asserts (env : Env) (d : Imagedisplay) (expose : VipsRect)
    (p : Paint) (hT : 0 < env.TILE_SIZE)
    (hin : vips_rect_includesrect d.image_rect expose = true) :
    imagedisplay_fill_rect env d expose p =
        fill_tiles env d expose (fill_rect_tiles env.TILE_SIZE expose) p ∧
      (∀ tile ∈ fill_rect_tiles env.TILE_SIZE expose,
        imagedisplay_fill_tile_asserts env d (vips_rect_intersectrect tile expose) = true) ∧
      ((imagedisplay_fill_rect env d expose p).status = .assert_failed →
        p.status = .assert_failed) ∧
      (∀ r : VipsRect, vips_rect_isempty (imagedisplay_gtk_to_image d r) = false →
        vips_rect_includesrect d.image_rect (imagedisplay_gtk_to_image d r) = true) := by
  have hall : ∀ tile ∈ fill_rect_tiles env.TILE_SIZE expose,
      imagedisplay_fill_tile_asserts env d (vips_rect_intersectrect tile expose) = true := by
    intro tile htile
    obtain ⟨a1, a2, -, -, -, -, -, -, a9⟩ :=
      (fill_rect_tiles_cover env.TILE_SIZE hT expose).1 tile htile
    apply clipped_tile_asserts env d expose _ hT hin
    refine ⟨tile.left, tile.top, ?_, a9⟩
    congr 1
    cases tile
    simp only [VipsRect.mk.injEq] at a1 a2 ⊢
    exact ⟨trivial, trivial, a1, a2⟩
  refine ⟨fill_rect_eq_fill_tiles env d expose hT p, hall, ?_, gtk_to_image_included d⟩
  rw [fill_rect_eq_fill_tiles env d expose hT p]
  exact fill_tiles_not_assert_failed env d expose _ p hall

theorem fill_rect_tiles_pass_asserts_example :
    (0 : Int) < 16 ∧
    vips_rect_includesrect (⟨0, 0, 100, 100⟩ : VipsRect) ⟨10, 5, 50, 50⟩ = true ∧
    (∀ tile ∈ fill_rect_tiles 16 ⟨10, 5, 50, 50⟩,
      imagedisplay_fill_tile_asserts
        ⟨16, true, ⟨3, fun _ _ => none, fun _ _ => none⟩⟩
        { imagedisplay_zeroed with
            image_rect := ⟨0, 0, 100, 100⟩, widget_rect := ⟨0, 0, 50, 50⟩,
            paint_rect := ⟨0, 0, 50, 50⟩, left := 10, top := 5 }
        (vips_rect_intersectrect tile ⟨10, 5, 50, 50⟩) = true) ∧
    imagedisplay_fill_tile_asserts
      ⟨16, true, ⟨3, fun _ _ => none, fun _ _ => none⟩⟩
      { imagedisplay_zeroed with
          image_rect := ⟨0, 0, 100, 100⟩, widget_rect := ⟨0, 0, 50, 50⟩,
          paint_rect := ⟨0, 0, 50, 50⟩, left := 10, top := 5 }
      ⟨90, 90, 16, 16⟩ = false :=
  ⟨by decide, by decide,
    (fill_rect_tiles_pass_asserts
      ⟨16, true, ⟨3, fun _ _ => none, fun _ _ => none⟩⟩
      { imagedisplay_zeroed with
          image_rect := ⟨0, 0, 100, 100⟩, widget_rect := ⟨0, 0, 50, 50⟩,
          paint_rect := ⟨0, 0, 50, 50⟩, left := 10, top := 5 }
      ⟨10, 5, 50, 50⟩ ⟨none, [], .running⟩ (by decide) (by decide)).2.1,
    by decide⟩


/-- The geometry a returning imagedisplay_layout leaves. -/
theorem layout_some_fields (d0 d1 : Imagedisplay) (h : imagedisplay_layout d0 = some d1) :
    d1.image_rect = d0.image_rect ∧ d1.widget_rect = d0.widget_rect ∧
      d1.paint_rect =
        { left := max 0 (Int.tdiv (d0.widget_rect.width -
            min d0.widget_rect.width d0.image_rect.width) 2),
          top := max 0 (Int.tdiv (d0.widget_rect.height -
            min d0.widget_rect.height d0.image_rect.height) 2),
          width := min d0.widget_rect.width d0.image_rect.width,
          height := min d0.widget_rect.height d0.image_rect.height } := by
  obtain ⟨g1, g2, g3, -, -⟩ := layout_geometry_fields d0
  rw [layout_unfold] at h
  split at h
  · split at h
    · cases h
    · cases h
      exact ⟨g1, g2, g3⟩
  · cases h
    exact ⟨g1, g2, g3⟩

/-- One axis of the draw path: `ww`, `iw` the widget and image extent, `pl`, `pw`
the paint rectangle of the layout, `s` the scroll offset, `dl`, `dw` the
damage, `el`, `ew` the image-space rectangle, `gl` the start of `gtk` and
`bl`, `bw` the buffer rectangle. -/
theorem draw_axis (ww iw pl pw s dl dw el ew gl bl bw : Int)
    (hpw : pw = min ww iw) (hpl : pl = max 0 (Int.tdiv (ww - min ww iw) 2))
    (hs0 : 0 ≤ s) (hs1 : s ≤ max 0 (iw - pw))
    (hd0 : 0 ≤ dl) (hd1 : dl + dw ≤ 0 + ww)
    (hel : el = max (dl - pl + s) 0)
    (hew : ew = max 0 (min (dl - pl + s + dw) (0 + iw) - max (dl - pl + s) 0))
    (hgl : gl = el - s + pl)
    (hbl : bl = max gl pl - pl)
    (hbw : bw = max 0 (min (gl + ew) (pl + pw) - max gl pl))
    (hpos : 0 < ew) :
    pl ≤ gl ∧ gl + ew ≤ pl + pw ∧ bl = gl - pl ∧ bw = ew := by
  have hpl0 : 0 ≤ pl := by rw [hpl]; exact le_max_left _ _
  have hcase : (pw = iw ∧ s = 0) ∨ (pw = ww ∧ pl = 0) := by
    by_cases h : ww ≤ iw
    · right
      rw [min_eq_left h] at hpw hpl
      refine ⟨hpw, ?_⟩
      rw [hpl, sub_self]
      decide
    · left
      have h1 : pw = iw := by rw [hpw]; exact min_eq_right (by omega)
      rw [h1, sub_self, max_self] at hs1
      exact ⟨h1, by omega⟩
  clear hpl hpw hs1
  subst hgl
  rcases hcase with ⟨c1, c2⟩ | ⟨c1, c2⟩
  · subst c1 c2
    have a1 : pl ≤ el - 0 + pl := by omega
    have a2 : el - 0 + pl + ew ≤ pl + pw := by omega
    exact ⟨a1, a2, by omega, by omega⟩
  · subst c1 c2
    have a1 : 0 ≤ el - s + 0 := by omega
    have a2 : el - s + 0 + ew ≤ 0 + pw := by omega
    exact ⟨a1, a2, by omega, by omega⟩

/-- Claim C23: imagedisplay_layout has returned the state d1, from a state whose
widget_rect and image_rect start at (0, 0) as the source documents them, and
the scroll offsets are then `left` and `top` with
0 <= left <= max(0, image_rect.width - paint_rect.width) and likewise top.
For a damage rectangle contained in widget_rect whose
imagedisplay_gtk_to_image is not empty, the rectangle `gtk` of
imagedisplay_draw_cairo is contained in paint_rect, the rectangle `buffer` has
the width and height of `gtk` and its origin is that of `gtk` minus that of
paint_rect, and the surface painted, also when reached through the handler
imagedisplay_draw, has that size and is set at the origin of `gtk`. -/
theorem draw_cairo_blit_aligned (d0 d1 : Imagedisplay) (left top : Int) (damage : VipsRect)
    (hlay : imagedisplay_layout d0 = some d1)
    (hw0 : d0.widget_rect.left = 0 ∧ d0.widget_rect.top = 0)
    (hi0 : d0.image_rect.left = 0 ∧ d0.image_rect.top = 0)
    (hleft : 0 ≤ left ∧ left ≤ max 0 (d1.image_rect.width - d1.paint_rect.width))
    (htop : 0 ≤ top ∧ top ≤ max 0 (d1.image_rect.height - d1.paint_rect.height))
    (hdamage : vips_rect_includesrect d1.widget_rect damage = true)
    (hne : vips_rect_isempty
      (imagedisplay_gtk_to_image { d1 with left := left, top := top } damage) = false) :
    vips_rect_includesrect d1.paint_rect
        (imagedisplay_draw_cairo_gtk { d1 with left := left, top := top }
          (imagedisplay_gtk_to_image { d1 with left := left, top := top } damage)) = true ∧
      imagedisplay_draw_cairo_buffer { d1 with left := left, top := top }
          (imagedisplay_gtk_to_image { d1 with left := left, top := top } damage) =
        { left := (imagedisplay_draw_cairo_gtk { d1 with left := left, top := top }
            (imagedisplay_gtk_to_image { d1 with left := left, top := top } damage)).left -
              d1.paint_rect.left,
          top := (imagedisplay_draw_cairo_gtk { d1 with left := left, top := top }
            (imagedisplay_gtk_to_image { d1 with left := left, top := top } damage)).top -
              d1.paint_rect.top,
          width := (imagedisplay_draw_cairo_gtk { d1 with left := left, top := top }
            (imagedisplay_gtk_to_image { d1 with left := left, top := top } damage)).width,
          height := (imagedisplay_draw_cairo_gtk { d1 with left := left, top := top }
            (imagedisplay_gtk_to_image { d1 with left := left, top := top } damage)).height } ∧
      ∃ blit, imagedisplay_draw_cairo { d1 with left := left, top := top }
          (imagedisplay_gtk_to_image { d1 with left := left, top := top } damage) = some blit ∧
        (∀ (env : Env) (p : Paint),
          (imagedisplay_draw_rectangle env { d1 with left := left, top := top } damage p).2
            = some blit) ∧
        blit.width = (imagedisplay_draw_cairo_gtk { d1 with left := left, top := top }
          (imagedisplay_gtk_to_image { d1 with left := left, top := top } damage)).width ∧
        blit.height = (imagedisplay_draw_cairo_gtk { d1 with left := left, top := top }
          (imagedisplay_gtk_to_image { d1 with left := left, top := top } damage)).height ∧
        blit.x - d1.paint_rect.left = (imagedisplay_draw_cairo_buffer
          { d1 with left := left, top := top }
          (imagedisplay_gtk_to_image { d1 with left := left, top := top } damage)).left ∧
        blit.y - d1.paint_rect.top = (imagedisplay_draw_cairo_buffer
          { d1 with left := left, top := top }
          (imagedisplay_gtk_to_image { d1 with left := left, top := top } damage)).top := by
  obtain ⟨f1, f2, f3⟩ := layout_some_fields d0 d1 hlay
  obtain ⟨e1, e2, e3, e4⟩ := gtk_to_image_fields { d1 with left := left, top := top } damage
  obtain ⟨b1, b2, b3, b4⟩ := gtk_to_buffer_fields { d1 with left := left, top := top }
    (imagedisplay_draw_cairo_gtk { d1 with left := left, top := top }
      (imagedisplay_gtk_to_image { d1 with left := left, top := top } damage))
  obtain ⟨hw, hh⟩ := (isempty_false_iff _).mp hne
  obtain ⟨j1, j2, j3, j4⟩ := (includesrect_iff _ _).mp hdamage
  have hwl : d1.widget_rect.left = 0 := by rw [f2]; exact hw0.1
  have hwt : d1.widget_rect.top = 0 := by rw [f2]; exact hw0.2
  have hil : d1.image_rect.left = 0 := by rw [f1]; exact hi0.1
  have hit : d1.image_rect.top = 0 := by rw [f1]; exact hi0.2
  have hpl : d1.paint_rect.left = max 0 (Int.tdiv (d1.widget_rect.width -
      min d1.widget_rect.width d1.image_rect.width) 2) := by rw [f3, f1, f2]
  have hpt : d1.paint_rect.top = max 0 (Int.tdiv (d1.widget_rect.height -
      min d1.widget_rect.height d1.image_rect.height) 2) := by rw [f3, f1, f2]
  have hpw : d1.paint_rect.width = min d1.widget_rect.width d1.image_rect.width := by
    rw [f3, f1, f2]
  have hph : d1.paint_rect.height = min d1.widget_rect.height d1.image_rect.height := by
    rw [f3, f1, f2]
  dsimp only at e1 e2 e3 e4 b1 b2 b3 b4
  rw [hil] at e1 e3
  rw [hit] at e2 e4
  rw [hwl] at j1 j3
  rw [hwt] at j2 j4
  have g1 : (imagedisplay_draw_cairo_gtk { d1 with left := left, top := top }
      (imagedisplay_gtk_to_image { d1 with left := left, top := top } damage)).left
      = (imagedisplay_gtk_to_image { d1 with left := left, top := top } damage).left
        - left + d1.paint_rect.left := rfl
  have g2 : (imagedisplay_draw_cairo_gtk { d1 with left := left, top := top }
      (imagedisplay_gtk_to_image { d1 with left := left, top := top } damage)).top
      = (imagedisplay_gtk_to_image { d1 with left := left, top := top } damage).top
        - top + d1.paint_rect.top := rfl
  have g3 : (imagedisplay_draw_cairo_gtk { d1 with left := left, top := top }
      (imagedisplay_gtk_to_image { d1 with left := left, top := top } damage)).width
      = (imagedisplay_gtk_to_image { d1 with left := left, top := top } damage).width := rfl
  have g4 : (imagedisplay_draw_cairo_gtk { d1 with left := left, top := top }
      (imagedisplay_gtk_to_image { d1 with left := left, top := top } damage)).height
      = (imagedisplay_gtk_to_image { d1 with left := left, top := top } damage).height := rfl
  rw [g3] at b3
  rw [g4] at b4
  obtain ⟨x1, x2, x3, x4⟩ := draw_axis d1.widget_rect.width d1.image_rect.width
    d1.paint_rect.left d1.paint_rect.width left damage.left damage.width _ _ _ _ _
    hpw hpl hleft.1 hleft.2 j1 j3 e1 e3 g1 b1 b3 hw
  obtain ⟨y1, y2, y3, y4⟩ := draw_axis d1.widget_rect.height d1.image_rect.height
    d1.paint_rect.top d1.paint_rect.height top damage.top damage.height _ _ _ _ _
    hph hpt htop.1 htop.2 j2 j4 e2 e4 g2 b2 b4 hh
  have hbuf : imagedisplay_draw_cairo_buffer { d1 with left := left, top := top }
      (imagedisplay_gtk_to_image { d1 with left := left, top := top } damage) =
      { left := (imagedisplay_draw_cairo_gtk { d1 with left := left, top := top }
          (imagedisplay_gtk_to_image { d1 with left := left, top := top } damage)).left -
            d1.paint_rect.left,
        top := (imagedisplay_draw_cairo_gtk { d1 with left := left, top := top }
          (imagedisplay_gtk_to_image { d1 with left := left, top := top } damage)).top -
            d1.paint_rect.top,
        width := (imagedisplay_draw_cairo_gtk { d1 with left := left, top := top }
          (imagedisplay_gtk_to_image { d1 with left := left, top := top } damage)).width,
        height := (imagedisplay_draw_cairo_gtk { d1 with left := left, top := top }
          (imagedisplay_gtk_to_image { d1 with left := left, top := top } damage)).height } := by
    have hx : ∀ a b : VipsRect, a.left = b.left → a.top = b.top → a.width = b.width →
        a.height = b.height → a = b := by
      intro a b h1 h2 h3 h4
      cases a
      cases b
      simp only [VipsRect.mk.injEq]
      exact ⟨h1, h2, h3, h4⟩
    apply hx
    · exact x3
    · exact y3
    · rw [g3]; exact x4
    · rw [g4]; exact y4
  refine ⟨?_, hbuf, ?_⟩
  · rw [includesrect_iff, g3, g4]
    exact ⟨x1, y1, x2, y2⟩
  · have hnb : vips_rect_isempty (imagedisplay_draw_cairo_buffer
        { d1 with left := left, top := top }
        (imagedisplay_gtk_to_image { d1 with left := left, top := top } damage)) = false := by
      rw [isempty_false_iff, hbuf]
      dsimp only
      rw [g3, g4]
      exact ⟨hw, hh⟩
    unfold imagedisplay_draw_rectangle imagedisplay_draw_cairo
    dsimp only
    rw [hnb, hne]
    refine ⟨_, rfl, fun _ _ => rfl, ?_, ?_, ?_, ?_⟩
    · dsimp only
      rw [hbuf]
    · dsimp only
      rw [hbuf]
    · dsimp only
      rw [hbuf]
    · dsimp only
      rw [hbuf]

theorem draw_cairo_blit_aligned_example :
    imagedisplay_layout
        { imagedisplay_zeroed with image_rect := ⟨0, 0, 2, 6⟩, widget_rect := ⟨0, 0, 4, 3⟩ }
      = some { imagedisplay_zeroed with
          image_rect := ⟨0, 0, 2, 6⟩, widget_rect := ⟨0, 0, 4, 3⟩, paint_rect := ⟨1, 0, 2, 3⟩,
          cairo_buffer := some (List.replicate 24 0) } ∧
    imagedisplay_gtk_to_image
        { imagedisplay_zeroed with
          image_rect := ⟨0, 0, 2, 6⟩, widget_rect := ⟨0, 0, 4, 3⟩, paint_rect := ⟨1, 0, 2, 3⟩,
          cairo_buffer := some (List.replicate 24 0), left := 0, top := 2 } ⟨0, 0, 4, 3⟩
      = ⟨0, 2, 2, 3⟩ ∧
    imagedisplay_draw_cairo_buffer
        { imagedisplay_zeroed with
          image_rect := ⟨0, 0, 2, 6⟩, widget_rect := ⟨0, 0, 4, 3⟩, paint_rect := ⟨1, 0, 2, 3⟩,
          cairo_buffer := some (List.replicate 24 0), left := 0, top := 2 } ⟨0, 2, 2, 3⟩
      = ⟨1 - 1, 0 - 0, 2, 3⟩ :=
  ⟨rfl, by decide,
    (draw_cairo_blit_aligned
      { imagedisplay_zeroed with image_rect := ⟨0, 0, 2, 6⟩, widget_rect := ⟨0, 0, 4, 3⟩ }
      { imagedisplay_zeroed with
          image_rect := ⟨0, 0, 2, 6⟩, widget_rect := ⟨0, 0, 4, 3⟩, paint_rect := ⟨1, 0, 2, 3⟩,
          cairo_buffer := some (List.replicate 24 0) }
      0 2 ⟨0, 0, 4, 3⟩ rfl (by decide) (by decide) (by decide) (by decide)
      (by decide) (by decide)).2.1⟩

/-- One axis of the target rectangle of imagedisplay_fill_tile: it starts at or
after 0, and when it is not empty it ends within the buffer. -/
theorem target_axis (l w s pl pw tl tw : Int)
    (htl : tl = max (l - s + pl) pl - pl)
    (htw : tw = max 0 (min (l - s + pl + w) (pl + pw) - max (l - s + pl) pl)) :
    0 ≤ tl ∧ 0 ≤ tw ∧ (0 < tw → tl + tw ≤ pw) := by
  omega

/-- One axis of the round-trip clip: it is no longer than the target. -/
theorem clip_le_target_axis (tl tw s pl il iw cw : Int) (htw : 0 ≤ tw)
    (hcw : cw = max 0 (min (tl + pl - pl + s + tw) (il + iw) - max (tl + pl - pl + s) il)) :
    cw ≤ tw := by
  omega

/-- One axis of the round-trip clip of a tile in the image: the clip is the target
moved by the scroll offset, with the same extent. -/
theorem clip_eq_target_axis (l w s pl pw il iw tl tw cl cw : Int)
    (htl : tl = max (l - s + pl) pl - pl)
    (htw : tw = max 0 (min (l - s + pl + w) (pl + pw) - max (l - s + pl) pl))
    (hcl : cl = max (tl + pl - pl + s) il)
    (hcw : cw = max 0 (min (tl + pl - pl + s + tw) (il + iw) - max (tl + pl - pl + s) il))
    (h1 : il ≤ l) (h2 : l + w ≤ il + iw) :
    cl = tl + s ∧ cw = tw := by
  subst hcl hcw
  have a1 : tl = max (l - s) 0 := by omega
  have a2 : tw = max 0 (min (l - s + w) pw - tl) := by omega
  clear htl htw
  omega

/-- The conversion imagedisplay_fill_tile runs returns when the target rectangle
lies in a buffer of the size of paint_rect, the clip is no larger than the
target, and the colour region holds the clip. -/
theorem fill_tile_conversion_returns (Bands : Int) (cairo : Buf) (reg : VipsRegion)
    (pw ph tl tt cl ct cw ch : Int)
    (hlen : (cairo.length : Int) = pw * ph * 4)
    (h0 : 0 ≤ tl) (h1 : tl + cw ≤ pw) (h2 : 0 ≤ tt) (h3 : tt + ch ≤ ph)
    (hcw : 0 < cw) (hch : 0 < ch)
    (hreg : reg.holds ⟨cl, ct, cw, ch⟩)
    (hsp : reg.sizeof_pel = (if Bands = 4 then 4 else 3)) :
    ∃ out,
      (if Bands = 4 then
        imagedisplay_rgba_to_cairo cairo (tt * (4 * pw) + tl * 4) reg.data
          (VIPS_REGION_ADDR reg cl ct) cw ch (4 * pw) (VIPS_REGION_LSKIP reg)
      else
        imagedisplay_rgb_to_cairo cairo (tt * (4 * pw) + tl * 4) reg.data
          (VIPS_REGION_ADDR reg cl ct) cw ch (4 * pw) (VIPS_REGION_LSKIP reg)) = some out ∧
      out.length = cairo.length := by
  by_cases hB : Bands = 4
  · rw [if_pos hB] at hsp
    rw [if_pos hB]
    obtain ⟨out, e1, e2, -⟩ := rgba_to_cairo_into_buffer cairo reg pw ph tl tt cl ct cw ch
      hlen h0 h1 h2 h3 hcw hch hreg hsp
    exact ⟨out, e1, e2⟩
  · rw [if_neg hB] at hsp
    rw [if_neg hB]
    obtain ⟨out, e1, e2, -⟩ := rgb_to_cairo_into_buffer cairo reg Bands pw ph tl tt cl ct cw ch
      hB hlen h0 h1 h2 h3 hcw hch hreg hsp
    exact ⟨out, e1, e2⟩


/-- Claim C21: the backing buffer `cairo` holds
paint_rect.width * paint_rect.height * 4 bytes. For every tile, every pixel of
the target rectangle of imagedisplay_fill_tile is a pixel of
(0, 0, paint_rect.width, paint_rect.height), and a target that is not empty
is included in it; the round-trip clip is no wider and no taller than the
target; for a tile contained in image_rect the clip is the target moved by
(left, top), with the same size. So when the clip is not empty, each row of
4 * clip.width bytes the conversion writes, starting at
cairo_start + y * cairo_stride for 0 <= y < clip.height, lies inside the
buffer; and a running fill of an accepted tile with both prepares succeeding,
a readable mask byte and a colour region that holds the clip returns with the
buffer at its old length and the fill still running, no store having left
the buffer. -/
theorem fill_tile_writes_inside_buffer (env : Env) (d : Imagedisplay) (tile : VipsRect)
    (cairo : Buf)
    (hlen : (cairo.length : Int) = d.paint_rect.width * d.paint_rect.height * 4) :
    (∀ x y : Int, (imagedisplay_image_to_buffer d tile).has_pixel x y →
      (⟨0, 0, d.paint_rect.width, d.paint_rect.height⟩ : VipsRect).has_pixel x y) ∧
    (vips_rect_isempty (imagedisplay_image_to_buffer d tile) = false →
      vips_rect_includesrect ⟨0, 0, d.paint_rect.width, d.paint_rect.height⟩
        (imagedisplay_image_to_buffer d tile) = true) ∧
    (imagedisplay_buffer_to_image d (imagedisplay_image_to_buffer d tile)).width ≤
      (imagedisplay_image_to_buffer d tile).width ∧
    (imagedisplay_buffer_to_image d (imagedisplay_image_to_buffer d tile)).height ≤
      (imagedisplay_image_to_buffer d tile).height ∧
    (vips_rect_includesrect d.image_rect tile = true →
      imagedisplay_buffer_to_image d (imagedisplay_image_to_buffer d tile) =
        { left := (imagedisplay_image_to_buffer d tile).left + d.left,
          top := (imagedisplay_image_to_buffer d tile).top + d.top,
          width := (imagedisplay_image_to_buffer d tile).width,
          height := (imagedisplay_image_to_buffer d tile).height }) ∧
    (vips_rect_isempty
        (imagedisplay_buffer_to_image d (imagedisplay_image_to_buffer d tile)) = false →
      ∀ y : Int, 0 ≤ y →
        y < (imagedisplay_buffer_to_image d (imagedisplay_image_to_buffer d tile)).height →
        0 ≤ (imagedisplay_image_to_buffer d tile).top * (4 * d.paint_rect.width) +
            (imagedisplay_image_to_buffer d tile).left * 4 + y * (4 * d.paint_rect.width) ∧
          (imagedisplay_image_to_buffer d tile).top * (4 * d.paint_rect.width) +
            (imagedisplay_image_to_buffer d tile).left * 4 + y * (4 * d.paint_rect.width) +
            4 * (imagedisplay_buffer_to_image d (imagedisplay_image_to_buffer d tile)).width
              ≤ cairo.length) ∧
    (∀ (p : Paint) (mask_region rgb_region : VipsRegion) (m : Nat),
      p.status = .running → p.cairo_buffer = some cairo →
      (env.asserts = true → imagedisplay_fill_tile_asserts env d tile = true) →
      vips_rect_isempty
        (imagedisplay_buffer_to_image d (imagedisplay_image_to_buffer d tile)) = false →
      env.source.mask_prepare p.requests
        (imagedisplay_buffer_to_image d (imagedisplay_image_to_buffer d tile))
          = some mask_region →
      env.source.rgb_prepare
        (p.requests ++ [Request.mask
          (imagedisplay_buffer_to_image d (imagedisplay_image_to_buffer d tile))])
        (imagedisplay_buffer_to_image d (imagedisplay_image_to_buffer d tile))
          = some rgb_region →
      load mask_region.data (VIPS_REGION_ADDR mask_region
        (imagedisplay_buffer_to_image d (imagedisplay_image_to_buffer d tile)).left
        (imagedisplay_buffer_to_image d (imagedisplay_image_to_buffer d tile)).top) 1
          = some [m] →
      rgb_region.holds
        (imagedisplay_buffer_to_image d (imagedisplay_image_to_buffer d tile)) →
      rgb_region.sizeof_pel = (if env.source.Bands = 4 then 4 else 3) →
      ∃ out, (imagedisplay_fill_tile env d tile p).cairo_buffer = some out ∧
        out.length = cairo.length ∧
        (imagedisplay_fill_tile env d tile p).status = .running) := by
  obtain ⟨a1, a2, a3, a4⟩ := image_to_buffer_fields d tile
  obtain ⟨b1, b2, b3, b4⟩ := buffer_to_image_fields d (imagedisplay_image_to_buffer d tile)
  obtain ⟨x1, x2, x3⟩ := target_axis tile.left tile.width d.left d.paint_rect.left
    d.paint_rect.width _ _ a1 a3
  obtain ⟨y1, y2, y3⟩ := target_axis tile.top tile.height d.top d.paint_rect.top
    d.paint_rect.height _ _ a2 a4
  have cx := clip_le_target_axis _ _ d.left d.paint_rect.left d.image_rect.left
    d.image_rect.width _ x2 b3
  have cy := clip_le_target_axis _ _ d.top d.paint_rect.top d.image_rect.top
    d.image_rect.height _ y2 b4
  have hgeo : vips_rect_isempty
      (imagedisplay_buffer_to_image d (imagedisplay_image_to_buffer d tile)) = false →
      0 < (imagedisplay_buffer_to_image d (imagedisplay_image_to_buffer d tile)).width ∧
      0 < (imagedisplay_buffer_to_image d (imagedisplay_image_to_buffer d tile)).height ∧
      (imagedisplay_image_to_buffer d tile).left +
        (imagedisplay_buffer_to_image d (imagedisplay_image_to_buffer d tile)).width
          ≤ d.paint_rect.width ∧
      (imagedisplay_image_to_buffer d tile).top +
        (imagedisplay_buffer_to_image d (imagedisplay_image_to_buffer d tile)).height
          ≤ d.paint_rect.height := by
    intro hne
    obtain ⟨hw, hh⟩ := (isempty_false_iff _).mp hne
    have := x3 (by omega)
    have := y3 (by omega)
    exact ⟨hw, hh, by omega, by omega⟩
  refine ⟨?_, ?_, cx, cy, ?_, ?_, ?_⟩
  · intro x y hp
    unfold VipsRect.has_pixel at hp ⊢
    dsimp only
    have := x3 (by omega)
    have := y3 (by omega)
    omega
  · intro hne
    obtain ⟨hw, hh⟩ := (isempty_false_iff _).mp hne
    have := x3 hw
    have := y3 hh
    rw [includesrect_iff]
    dsimp only
    omega
  · intro hin
    obtain ⟨j1, j2, j3, j4⟩ := (includesrect_iff _ _).mp hin
    obtain ⟨e1, e2⟩ := clip_eq_target_axis tile.left tile.width d.left d.paint_rect.left
      d.paint_rect.width d.image_rect.left d.image_rect.width _ _ _ _ a1 a3 b1 b3 j1 j3
    obtain ⟨e3, e4⟩ := clip_eq_target_axis tile.top tile.height d.top d.paint_rect.top
      d.paint_rect.height d.image_rect.top d.image_rect.height _ _ _ _ a2 a4 b2 b4 j2 j4
    have hx : ∀ a b : VipsRect, a.left = b.left → a.top = b.top → a.width = b.width →
        a.height = b.height → a = b := by
      intro a b h1 h2 h3 h4
      cases a
      cases b
      simp only [VipsRect.mk.injEq]
      exact ⟨h1, h2, h3, h4⟩
    exact hx _ _ e1 e3 e2 e4
  · intro hne y hy0 hy1
    obtain ⟨hw, hh, g1, g2⟩ := hgeo hne
    have hb := buffer_row_fits d.paint_rect.width d.paint_rect.height
      (imagedisplay_image_to_buffer d tile).left (imagedisplay_image_to_buffer d tile).top
      (imagedisplay_buffer_to_image d (imagedisplay_image_to_buffer d tile)).width
      (imagedisplay_buffer_to_image d (imagedisplay_image_to_buffer d tile)).height
      y x1 g1 y1 g2 (by omega) hy1
    have hyw : 0 ≤ y * (4 * d.paint_rect.width) := Int.mul_nonneg hy0 (by omega)
    rw [hlen]
    exact ⟨by omega, hb.2⟩
  · intro p mask_region rgb_region m hrun hbuf hassert hne hmask hrgb hbyte hholds hpel
    obtain ⟨hw, hh, g1, g2⟩ := hgeo hne
    by_cases hm : m = 0
    · subst hm
      rw [fill_tile_mask_zero env d tile p mask_region rgb_region hrun hassert hne hmask hrgb
        hbyte]
      exact ⟨cairo, hbuf, rfl, hrun⟩
    · obtain ⟨out, hout, houtlen⟩ := fill_tile_conversion_returns env.source.Bands cairo
        rgb_region d.paint_rect.width d.paint_rect.height
        (imagedisplay_image_to_buffer d tile).left (imagedisplay_image_to_buffer d tile).top
        (imagedisplay_buffer_to_image d (imagedisplay_image_to_buffer d tile)).left
        (imagedisplay_buffer_to_image d (imagedisplay_image_to_buffer d tile)).top
        (imagedisplay_buffer_to_image d (imagedisplay_image_to_buffer d tile)).width
        (imagedisplay_buffer_to_image d (imagedisplay_image_to_buffer d tile)).height
        hlen x1 g1 y1 g2 hw hh hholds hpel
      rw [fill_tile_mask_set env d tile p mask_region rgb_region m cairo out hrun hassert hne
        hmask hrgb hbyte hm hbuf hout]
      exact ⟨out, rfl, houtlen, hrun⟩


theorem fill_tile_writes_inside_buffer_example :
    ((List.replicate 16 0).length : Int) = 2 * 2 * 4 ∧
    imagedisplay_image_to_buffer
      { imagedisplay_zeroed with
          image_rect := ⟨0, 0, 4, 4⟩, widget_rect := ⟨0, 0, 2, 2⟩,
          paint_rect := ⟨0, 0, 2, 2⟩, left := 1, top := 1 } ⟨0, 0, 4, 4⟩ = ⟨0, 0, 2, 2⟩ ∧
    imagedisplay_buffer_to_image
      { imagedisplay_zeroed with
          image_rect := ⟨0, 0, 4, 4⟩, widget_rect := ⟨0, 0, 2, 2⟩,
          paint_rect := ⟨0, 0, 2, 2⟩, left := 1, top := 1 }
      (imagedisplay_image_to_buffer
        { imagedisplay_zeroed with
            image_rect := ⟨0, 0, 4, 4⟩, widget_rect := ⟨0, 0, 2, 2⟩,
            paint_rect := ⟨0, 0, 2, 2⟩, left := 1, top := 1 } ⟨0, 0, 4, 4⟩) = ⟨1, 1, 2, 2⟩ :=
  ⟨by decide, by decide,
    (fill_tile_writes_inside_buffer
      ⟨16, true, ⟨3, fun _ _ => some ⟨⟨1, 1, 2, 2⟩, 2, 1, [255, 255, 255, 255]⟩,
        fun _ _ => some ⟨⟨1, 1, 2, 2⟩, 6, 3, [1, 2, 3, 4, 5, 6, 7, 8, 9, 10, 11, 12]⟩⟩⟩
      { imagedisplay_zeroed with
          image_rect := ⟨0, 0, 4, 4⟩, widget_rect := ⟨0, 0, 2, 2⟩,
          paint_rect := ⟨0, 0, 2, 2⟩, left := 1, top := 1 }
      ⟨0, 0, 4, 4⟩ (List.replicate 16 0) (by decide)).2.2.2.2.1 (by decide)⟩


theorem int_wrap_of_fits (v : Int) (h0 : -2147483648 ≤ v) (h1 : v ≤ INT_MAX) :
    int_wrap v = v := by
  unfold int_wrap
  unfold INT_MAX at h1
  omega

/-- A product `w * h * 4` that is non-negative and at most INT_MAX is what the two
`int` multiplications give. -/
theorem layout_n_bytes_of_fits (d : Imagedisplay)
    (h0 : 0 ≤ d.paint_rect.width * d.paint_rect.height)
    (h1 : d.paint_rect.width * d.paint_rect.height * 4 ≤ INT_MAX) :
    imagedisplay_layout_n_bytes d = d.paint_rect.width * d.paint_rect.height * 4 := by
  unfold imagedisplay_layout_n_bytes
  have e : int_wrap (d.paint_rect.width * d.paint_rect.height)
      = d.paint_rect.width * d.paint_rect.height :=
    int_wrap_of_fits _ (by omega) (by unfold INT_MAX at h1 ⊢; omega)
  rw [e]
  exact int_wrap_of_fits _ (by omega) h1

theorem layout_int32_unfold (d : Imagedisplay) :
    imagedisplay_layout_int32 d =
      if (layout_geometry d).cairo_buffer = none ∨
          (layout_geometry d).paint_rect.width ≠ d.paint_rect.width ∨
          (layout_geometry d).paint_rect.height ≠ d.paint_rect.height then
        if imagedisplay_layout_n_bytes (layout_geometry d) < 0 then none
        else
          match imagedisplay_init_buffer
              ((g_malloc0 (imagedisplay_layout_n_bytes (layout_geometry d))).getD [])
              (VIPS_MIN d.widget_rect.width d.image_rect.width)
              (VIPS_MIN d.widget_rect.height d.image_rect.height)
              (layout_geometry d).cairo_buffer d.paint_rect.width d.paint_rect.height with
          | none => none
          | some bytes =>
            some { layout_geometry d with
              cairo_buffer := (g_malloc0 (imagedisplay_layout_n_bytes
                (layout_geometry d))).map (fun _ => bytes) }
      else some (layout_geometry d) := by
  rfl

/-- While the exact size of the new block is non-negative and at most INT_MAX, the
layout with the size computed in `int` is the layout with the exact size. -/
theorem layout_int32_eq_layout (d : Imagedisplay)
    (h0 : 0 ≤ (layout_geometry d).paint_rect.width * (layout_geometry d).paint_rect.height)
    (h1 : (layout_geometry d).paint_rect.width * (layout_geometry d).paint_rect.height * 4
      ≤ INT_MAX) :
    imagedisplay_layout_int32 d = imagedisplay_layout d := by
  rw [layout_int32_unfold, layout_unfold, layout_n_bytes_of_fits _ h0 h1,
    if_neg (show ¬ ((layout_geometry d).paint_rect.width *
      (layout_geometry d).paint_rect.height * 4 < 0) by omega)]


/-- A product of two sizes between 0 and 23170, times 4, is an int. -/
theorem bytes_fit (w h : Int) (hw0 : 0 ≤ w) (hh0 : 0 ≤ h) (hw : w ≤ 23170) (hh : h ≤ 23170) :
    0 ≤ w * h ∧ w * h * 4 ≤ INT_MAX := by
  have h1 : 0 ≤ w * h := Int.mul_nonneg hw0 hh0
  have h2 : w * h ≤ 23170 * 23170 := Int.mul_le_mul hw hh hh0 (by omega)
  unfold INT_MAX
  omega

/-- An event with sizes between 0 and 23170 is handled alike with the block size
computed in `int` and with the exact block size. -/
theorem deliver_int32_eq_deliver (e : LayoutEvent) (d : Imagedisplay)
    (he : e.nonneg) (hb : e.within 23170) (hd : LayoutInv d) :
    e.deliver_int32 d = e.deliver d := by
  obtain ⟨hww, hwh, hiw, hih, -, -, -, -⟩ := hd
  cases e with
  | resize w h =>
    obtain ⟨-, -, g3, -, -⟩ := layout_geometry_fields
      { d with widget_rect := { d.widget_rect with width := w, height := h } }
    have hfit := bytes_fit
      (layout_geometry
        { d with widget_rect := { d.widget_rect with width := w, height := h } }).paint_rect.width
      (layout_geometry
        { d with widget_rect := { d.widget_rect with width := w, height := h } }).paint_rect.height
      (by rw [g3]; exact le_min he.1 hiw) (by rw [g3]; exact le_min he.2 hih)
      (by rw [g3]; exact le_trans (min_le_left _ _) hb.1)
      (by rw [g3]; exact le_trans (min_le_left _ _) hb.2)
    exact layout_int32_eq_layout _ hfit.1 hfit.2
  | display_changed xs ys =>
    obtain ⟨-, -, g3, -, -⟩ := layout_geometry_fields
      { d with image_rect := { d.image_rect with width := xs, height := ys } }
    have hfit := bytes_fit
      (layout_geometry
        { d with image_rect := { d.image_rect with width := xs, height := ys } }).paint_rect.width
      (layout_geometry
        { d with image_rect := { d.image_rect with width := xs, height := ys } }).paint_rect.height
      (by rw [g3]; exact le_min hww he.1) (by rw [g3]; exact le_min hwh he.2)
      (by rw [g3]; exact le_trans (min_le_right _ _) hb.1)
      (by rw [g3]; exact le_trans (min_le_right _ _) hb.2)
    exact layout_int32_eq_layout _ hfit.1 hfit.2

/-- A sequence of events with sizes between 0 and 23170 is handled alike with the
block size computed in `int` and with the exact block size. -/
theorem deliver_all_int32_eq_deliver_all (es : List LayoutEvent) :
    ∀ d : Imagedisplay, (∀ e ∈ es, e.nonneg ∧ e.within 23170) → LayoutInv d →
      deliver_all_int32 es d = deliver_all es d := by
  induction es with
  | nil =>
    intro d _ _
    rfl
  | cons e es ih =>
    intro d hes hd
    obtain ⟨he, hb⟩ := hes e (List.mem_cons_self _ _)
    obtain ⟨d1, h1, hd1⟩ := deliver_preserves_inv e d he hd
    rw [deliver_all_int32, deliver_all, deliver_int32_eq_deliver e d he hb hd, h1]
    exact ih d1 (fun e1 he1 => hes e1 (List.mem_cons_of_mem _ he1)) hd1

/-- While every size of every event is between 0 and 23170 (so that every block
size is an int), the handlers that compute the block size in `int` keep the
backing buffer at exactly paint_rect.width * paint_rect.height * 4 bytes,
NULL exactly when that product is 0. -/
theorem backing_buffer_matches_paint_rect_within_int (es : List LayoutEvent)
    (hes : ∀ e ∈ es, e.nonneg ∧ e.within 23170) :
    ∃ d, deliver_all_int32 es imagedisplay_zeroed = some d ∧
      (∀ b, d.cairo_buffer = some b →
        (b.length : Int) = d.paint_rect.width * d.paint_rect.height * 4) ∧
      (d.cairo_buffer = none ↔ d.paint_rect.width * d.paint_rect.height * 4 = 0) := by
  obtain ⟨d, h, hinv⟩ := deliver_all_preserves_inv es imagedisplay_zeroed
    (fun e he => (hes e he).1) zeroed_inv
  refine ⟨d, ?_, hinv.2.2.2.2.2.2.2, hinv.2.2.2.2.2.2.1⟩
  rw [deliver_all_int32_eq_deliver_all es imagedisplay_zeroed hes zeroed_inv]
  exact h


/-- Claim C2, the code at failing inputs. From the zeroed state, a display-changed
event for a 40000 x 40000 image and a resize to 32769 x 32769 (sizes that are
ints) leave paint_rect = (0, 0, 32769, 32769), for which
paint_rect.width * paint_rect.height * 4 = 4295229444, and a backing buffer
of 262148 bytes: the `int` product of lines 252-254 has wrapped, so the
buffer is not the size of paint_rect. With a resize to 32768 x 32768 the
product 4294967296 wraps to 0 and the buffer is NULL although the product is
not 0; with a resize to 25000 x 25000 it wraps to a negative int, g_malloc0
is asked for nearly 2^64 bytes and the handler does not return. -/
theorem layout_int32_buffer_smaller_than_paint_rect :
    (∃ d b, deliver_all_int32
        [LayoutEvent.display_changed 40000 40000, LayoutEvent.resize 32769 32769]
        imagedisplay_zeroed = some d ∧
      d.paint_rect = ⟨0, 0, 32769, 32769⟩ ∧
      d.paint_rect.width * d.paint_rect.height * 4 = 4295229444 ∧
      d.cairo_buffer = some b ∧ (b.length : Int) = 262148 ∧
      (b.length : Int) ≠ d.paint_rect.width * d.paint_rect.height * 4) ∧
    (∃ d, deliver_all_int32
        [LayoutEvent.display_changed 40000 40000, LayoutEvent.resize 32768 32768]
        imagedisplay_zeroed = some d ∧
      d.paint_rect = ⟨0, 0, 32768, 32768⟩ ∧ d.cairo_buffer = none ∧
      d.paint_rect.width * d.paint_rect.height * 4 ≠ 0) ∧
    deliver_all_int32
        [LayoutEvent.display_changed 40000 40000, LayoutEvent.resize 25000 25000]
        imagedisplay_zeroed = none := by
  refine ⟨⟨{ imagedisplay_zeroed with
      image_rect := ⟨0, 0, 40000, 40000⟩, widget_rect := ⟨0, 0, 32769, 32769⟩,
      paint_rect := ⟨0, 0, 32769, 32769⟩, cairo_buffer := some (List.replicate 262148 0) },
    List.replicate 262148 0, rfl, rfl, by decide, rfl, ?_, ?_⟩,
    ⟨{ imagedisplay_zeroed with
      image_rect := ⟨0, 0, 40000, 40000⟩, widget_rect := ⟨0, 0, 32768, 32768⟩,
      paint_rect := ⟨0, 0, 32768, 32768⟩ }, rfl, rfl, rfl, by decide⟩, rfl⟩
  · rw [List.length_replicate]
    rfl
  · rw [List.length_replicate]
    decide


end Vipsdisp
